import Mathlib

/-! Interrupt-interference benchmark (RTOS_Benchmark).

Shallow embedding of `InterruptBench.h`, `OSAbstractionLayer.h` and `PMCDriver.h`:
the shared-memory layout, the performance-monitor driver, the cross-partition barrier
`INT_BENCH_INIT` (as a small-step transition system, one step per source statement) and the
sampling iteration `INT_BENCH_PAYLOAD_PROLOGUE ... INT_BENCH_PAYLOAD_EPILOGUE`.

Machine integers are natural numbers reduced modulo `2 ^ 32` or `2 ^ 64` where the C code
can wrap.  Values returned by the RTOS or the hardware (`GET_TIME`, `PERIODIC_WAIT`, the
payload, the counters) are arguments of the embedded functions.
-/

namespace IIntStudy

/-! ## Byte-addressed shared memory -/

/-- Memory maps an address to the byte stored there. -/
abbrev Mem := Nat → Nat

/-- Read one byte. -/
def load8 (m : Mem) (a : Nat) : Nat := m a % 256

/-- Write one byte. -/
def store8 (m : Mem) (a v : Nat) : Mem := fun x => if x = a then v % 256 else m x

/-- Read a `uint32_t` (the e6500 is big-endian: most significant byte first). -/
def load32 (m : Mem) (a : Nat) : Nat :=
  load8 m a * 2 ^ 24 + load8 m (a + 1) * 2 ^ 16 + load8 m (a + 2) * 2 ^ 8 + load8 m (a + 3)

/-- Write a `uint32_t`, truncated to 32 bits. -/
def store32 (m : Mem) (a v : Nat) : Mem :=
  store8 (store8 (store8 (store8 m a (v / 2 ^ 24)) (a + 1) (v / 2 ^ 16)) (a + 2) (v / 2 ^ 8))
    (a + 3) v

/-- Read a `uint64_t`. -/
def load64 (m : Mem) (a : Nat) : Nat :=
  load32 m a * 2 ^ 32 + load32 m (a + 4)

/-- Write a `uint64_t`, truncated to 64 bits. -/
def store64 (m : Mem) (a v : Nat) : Mem :=
  store32 (store32 m a (v / 2 ^ 32)) (a + 4) v

/-- The C library `memcpy(dst, src, n)` with the source given as its list of bytes. -/
def memcpy (m : Mem) (dst : Nat) (src : List Nat) : Nat → Mem
  | 0 => m
  | n + 1 => store8 (memcpy m dst src n) (dst + n) (src.getD n 0)

/-! ## Configuration and memory layout (OSAbstractionLayer.h) -/

/-- The two build-time parameters of `OSAbstractionLayer.h` that a project changes:
the shared-memory base address and the ready mask to wait for. -/
structure Config where
  INT_BENCH_SHARED_MEM_BASE : Nat
  INT_BENCH_RDYMASK_VAL : Nat

/-- The values of the two parameters in the repository. -/
def sourceConfig : Config :=
  { INT_BENCH_SHARED_MEM_BASE := 0x70001000, INT_BENCH_RDYMASK_VAL := 0x00020002000203FF }

def INT_BENCH_SAMPLE_COUNT : Nat := 10000

def INT_BENCH_DUMP_REG_SIZE : Nat := 0x200000

def INT_BENCH_DUMP_REG_HEADER_MAGIC_VAL : List Nat := "INTBDUMP".toList.map Char.toNat

def INT_BENCH_DUMP_PART_HEADER_MAGIC_VAL : List Nat := "PART".toList.map Char.toNat

def INT_BENCH_DUMP_SC_HEADER_MAGIC_VAL : List Nat := "SC  ".toList.map Char.toNat

def INT_BENCH_DUMP_INTINT_HEADER_MAGIC_VAL : List Nat := "IINT".toList.map Char.toNat

def INT_BENCH_DUMP_EXTINT_HEADER_MAGIC_VAL : List Nat := "EINT".toList.map Char.toNat

def INT_BENCH_DUMP_IPI_HEADER_MAGIC_VAL : List Nat := "IPI ".toList.map Char.toNat

def INT_BENCH_RDYMASK_PTR (cfg : Config) : Nat := cfg.INT_BENCH_SHARED_MEM_BASE

def INT_BENCH_RDYMASK_LOCK (cfg : Config) : Nat := cfg.INT_BENCH_SHARED_MEM_BASE + 8

def INT_BENCH_INT_WAIT_PTR (cfg : Config) : Nat := cfg.INT_BENCH_SHARED_MEM_BASE + 12

def INT_BENCH_DUMP_REG_HEADER_ADDR (cfg : Config) : Nat := cfg.INT_BENCH_SHARED_MEM_BASE + 0x1000

def INT_BENCH_DUMP_REG_ADDR (cfg : Config) : Nat := cfg.INT_BENCH_SHARED_MEM_BASE + 0x1100

def INT_BENCH_DUMP_REG_HEADER_MAGIC (cfg : Config) : Nat := INT_BENCH_DUMP_REG_HEADER_ADDR cfg

/-- The five dump regions, named by the `TYPE` token pasted into the address names. -/
inductive DumpType
  | PART
  | SC
  | INTINT
  | EXTINT
  | IPI
  deriving DecidableEq, Repr

/-- `INT_BENCH_DUMP_<TYPE>_MAGIC_ADDR`. -/
def INT_BENCH_DUMP_MAGIC_ADDR (cfg : Config) : DumpType → Nat
  | .PART => INT_BENCH_DUMP_REG_ADDR cfg
  | .SC => INT_BENCH_DUMP_REG_ADDR cfg + INT_BENCH_DUMP_REG_SIZE
  | .INTINT => INT_BENCH_DUMP_REG_ADDR cfg + INT_BENCH_DUMP_REG_SIZE * 2
  | .EXTINT => INT_BENCH_DUMP_REG_ADDR cfg + INT_BENCH_DUMP_REG_SIZE * 3
  | .IPI => INT_BENCH_DUMP_REG_ADDR cfg + INT_BENCH_DUMP_REG_SIZE * 4

/-- `INT_BENCH_DUMP_<TYPE>_SIZE_ADDR`. -/
def INT_BENCH_DUMP_SIZE_ADDR (cfg : Config) (t : DumpType) : Nat :=
  INT_BENCH_DUMP_MAGIC_ADDR cfg t + 4

/-- `INT_BENCH_DUMP_<TYPE>_CURSOR_ADDR`. -/
def INT_BENCH_DUMP_CURSOR_ADDR (cfg : Config) (t : DumpType) : Nat :=
  INT_BENCH_DUMP_SIZE_ADDR cfg t + 4

/-- `INT_BENCH_DUMP_<TYPE>_CURSOR_PTR`: the cursor address plus the `uint32_t` read from the
size field, computed in 32-bit unsigned arithmetic. -/
def INT_BENCH_DUMP_CURSOR_PTR (cfg : Config) (t : DumpType) (m : Mem) : Nat :=
  (INT_BENCH_DUMP_CURSOR_ADDR cfg t + load32 m (INT_BENCH_DUMP_SIZE_ADDR cfg t)) % 2 ^ 32

/-! ## Measurement record and dump macros (InterruptBench.h) -/

/-- The record `int_bench_measure_t`; the two times are the 64-bit patterns of
`SYSTEM_TIME_TYPE` values. -/
structure int_bench_measure_t where
  errCode : Nat
  startTime : Nat
  endTime : Nat
  l2Miss : Nat
  tlbMiss : Nat
  samples : Nat
  deriving DecidableEq, Repr

/-- The return code `NO_ERROR`. -/
def NO_ERROR : Nat := 0

/-- The return code `INVALID_PARAM`. -/
def INVALID_PARAM : Nat := 1

/-- The macro `INT_BENCH_DUMP_HADER`: six `memcpy` calls writing the magic values. -/
def INT_BENCH_DUMP_HADER (cfg : Config) (m : Mem) : Mem :=
  let m := memcpy m (INT_BENCH_DUMP_REG_HEADER_MAGIC cfg) INT_BENCH_DUMP_REG_HEADER_MAGIC_VAL 8
  let m := memcpy m (INT_BENCH_DUMP_MAGIC_ADDR cfg .PART) INT_BENCH_DUMP_PART_HEADER_MAGIC_VAL 4
  let m := memcpy m (INT_BENCH_DUMP_MAGIC_ADDR cfg .SC) INT_BENCH_DUMP_SC_HEADER_MAGIC_VAL 4
  let m := memcpy m (INT_BENCH_DUMP_MAGIC_ADDR cfg .INTINT) INT_BENCH_DUMP_INTINT_HEADER_MAGIC_VAL 4
  let m := memcpy m (INT_BENCH_DUMP_MAGIC_ADDR cfg .EXTINT) INT_BENCH_DUMP_EXTINT_HEADER_MAGIC_VAL 4
  memcpy m (INT_BENCH_DUMP_MAGIC_ADDR cfg .IPI) INT_BENCH_DUMP_IPI_HEADER_MAGIC_VAL 4

/-- The 64-bit pattern of `BENCH_DATA.endTime - BENCH_DATA.startTime`. -/
def elapsed (d : int_bench_measure_t) : Nat :=
  (d.endTime % 2 ^ 64 + 2 ^ 64 - d.startTime % 2 ^ 64) % 2 ^ 64

/-- The macro `INT_BENCH_DUMP(PARTID, BENCH_DATA, TYPE)`: four stores through the cursor, each
followed by the increment of the size field by the size of the stored value. -/
def INT_BENCH_DUMP (cfg : Config) (PARTID : Nat) (BENCH_DATA : int_bench_measure_t)
    (TYPE : DumpType) (m : Mem) : Mem :=
  let size := INT_BENCH_DUMP_SIZE_ADDR cfg TYPE
  let m := store32 m (INT_BENCH_DUMP_CURSOR_PTR cfg TYPE m) PARTID
  let m := store32 m size (load32 m size + 4)
  let m := store64 m (INT_BENCH_DUMP_CURSOR_PTR cfg TYPE m) (elapsed BENCH_DATA)
  let m := store32 m size (load32 m size + 8)
  let m := store32 m (INT_BENCH_DUMP_CURSOR_PTR cfg TYPE m) BENCH_DATA.l2Miss
  let m := store32 m size (load32 m size + 4)
  let m := store32 m (INT_BENCH_DUMP_CURSOR_PTR cfg TYPE m) BENCH_DATA.tlbMiss
  store32 m size (load32 m size + 4)

/-! ## Performance-monitor driver (PMCDriver.h) -/

/-- The performance-monitor register file, indexed by register number. -/
abbrev Pmr := Nat → Nat

/-- The instruction `mtpmr rn, v`. -/
def mtpmr (pmr : Pmr) (rn v : Nat) : Pmr := fun r => if r = rn then v % 2 ^ 32 else pmr r

/-- The instruction `mfpmr rn`. -/
def mfpmr (pmr : Pmr) (rn : Nat) : Nat := pmr rn % 2 ^ 32

def E6500_PMC_ID_MAX_VALUE : Nat := 5

inductive PMC_TRACE_ENTITY_E
  | PMC_SUPERVISOR
  | PMC_USER
  | PMC_ALL
  deriving DecidableEq, Repr

/-- Bitwise complement of a `uint32_t`. -/
def not32 (x : Nat) : Nat := 0xFFFFFFFF ^^^ (x % 2 ^ 32)

def PMR_PMGC0_FAC : Nat := (1 <<< 31) % 2 ^ 32

def PMR_PMGC0_PMIE : Nat := (1 <<< 30) % 2 ^ 32

def PMR_PMGC0_FCECE : Nat := (1 <<< 29) % 2 ^ 32

def PMR_PMLCAX_FC : Nat := (1 <<< 31) % 2 ^ 32

def PMR_PMLCAX_FCS : Nat := (1 <<< 30) % 2 ^ 32

def PMR_PMLCAX_FCU : Nat := (1 <<< 29) % 2 ^ 32

def PMR_PMLCAX_FCM1 : Nat := (1 <<< 28) % 2 ^ 32

def PMR_PMLCAX_FCM0 : Nat := (1 <<< 27) % 2 ^ 32

def PMR_PMLCAX_CE : Nat := (1 <<< 26) % 2 ^ 32

def PMR_PMLCaX_EVENT_SHIFT : Nat := 16

def PMR_PMLCaX_EVENT_MASK : Nat := 0x01FF0000

def PMR_PMC : Nat := 0x010

def PMR_PMC0 : Nat := 0x010

def PMR_PMC1 : Nat := 0x011

def PMR_PMC2 : Nat := 0x012

def PMR_PMC3 : Nat := 0x013

def PMR_PMC4 : Nat := 0x014

def PMR_PMC5 : Nat := 0x015

def PMR_PMLCA : Nat := 0x090

def PMR_PMLCA0 : Nat := 0x090

def PMR_PMLCA1 : Nat := 0x091

def PMR_PMLCA2 : Nat := 0x092

def PMR_PMLCA3 : Nat := 0x093

def PMR_PMLCA4 : Nat := 0x094

def PMR_PMLCA5 : Nat := 0x095

def PMR_PMLCB : Nat := 0x110

def PMR_PMLCB0 : Nat := 0x110

def PMR_PMLCB1 : Nat := 0x111

def PMR_PMLCB2 : Nat := 0x112

def PMR_PMLCB3 : Nat := 0x113

def PMR_PMLCB4 : Nat := 0x114

def PMR_PMLCB5 : Nat := 0x115

def PMR_PMGC0 : Nat := 0x190

def E6500_PMC_EVENT_L2MMU_MISS : Nat := 264

def E6500_PMC_EVENT_THREAD_L2_MISS : Nat := 466

/-- The function `__PMCDrvWritePMR`: a `switch` over the register number. -/
def __PMCDrvWritePMR (pmr : Pmr) (pmrId value : Nat) : Pmr :=
  if pmrId = PMR_PMC then mtpmr pmr PMR_PMC0 value
  else if pmrId = PMR_PMC + 1 then mtpmr pmr PMR_PMC1 value
  else if pmrId = PMR_PMC + 2 then mtpmr pmr PMR_PMC2 value
  else if pmrId = PMR_PMC + 3 then mtpmr pmr PMR_PMC3 value
  else if pmrId = PMR_PMC + 4 then mtpmr pmr PMR_PMC4 value
  else if pmrId = PMR_PMC + 5 then mtpmr pmr PMR_PMC5 value
  else if pmrId = PMR_PMLCA then mtpmr pmr PMR_PMLCA0 value
  else if pmrId = PMR_PMLCA + 1 then mtpmr pmr PMR_PMLCA1 value
  else if pmrId = PMR_PMLCA + 2 then mtpmr pmr PMR_PMLCA2 value
  else if pmrId = PMR_PMLCA + 3 then mtpmr pmr PMR_PMLCA3 value
  else if pmrId = PMR_PMLCA + 4 then mtpmr pmr PMR_PMLCA4 value
  else if pmrId = PMR_PMLCA + 5 then mtpmr pmr PMR_PMLCA5 value
  else if pmrId = PMR_PMLCB then mtpmr pmr PMR_PMLCB0 value
  else if pmrId = PMR_PMLCB + 1 then mtpmr pmr PMR_PMLCB1 value
  else if pmrId = PMR_PMLCB + 2 then mtpmr pmr PMR_PMLCB2 value
  else if pmrId = PMR_PMLCB + 3 then mtpmr pmr PMR_PMLCB3 value
  else if pmrId = PMR_PMLCB + 4 then mtpmr pmr PMR_PMLCB4 value
  else if pmrId = PMR_PMLCB + 5 then mtpmr pmr PMR_PMLCB5 value
  else if pmrId = PMR_PMGC0 then mtpmr pmr PMR_PMGC0 value
  else pmr

/-- The function `__PMCDrvReadPMR`: a `switch` over the register number. -/
def __PMCDrvReadPMR (pmr : Pmr) (pmrId : Nat) : Nat :=
  if pmrId = PMR_PMC then mfpmr pmr PMR_PMC0
  else if pmrId = PMR_PMC + 1 then mfpmr pmr PMR_PMC1
  else if pmrId = PMR_PMC + 2 then mfpmr pmr PMR_PMC2
  else if pmrId = PMR_PMC + 3 then mfpmr pmr PMR_PMC3
  else if pmrId = PMR_PMC + 4 then mfpmr pmr PMR_PMC4
  else if pmrId = PMR_PMC + 5 then mfpmr pmr PMR_PMC5
  else if pmrId = PMR_PMLCA then mfpmr pmr PMR_PMLCA0
  else if pmrId = PMR_PMLCA + 1 then mfpmr pmr PMR_PMLCA1
  else if pmrId = PMR_PMLCA + 2 then mfpmr pmr PMR_PMLCA2
  else if pmrId = PMR_PMLCA + 3 then mfpmr pmr PMR_PMLCA3
  else if pmrId = PMR_PMLCA + 4 then mfpmr pmr PMR_PMLCA4
  else if pmrId = PMR_PMLCA + 5 then mfpmr pmr PMR_PMLCA5
  else if pmrId = PMR_PMLCB then mfpmr pmr PMR_PMLCB0
  else if pmrId = PMR_PMLCB + 1 then mfpmr pmr PMR_PMLCB1
  else if pmrId = PMR_PMLCB + 2 then mfpmr pmr PMR_PMLCB2
  else if pmrId = PMR_PMLCB + 3 then mfpmr pmr PMR_PMLCB3
  else if pmrId = PMR_PMLCB + 4 then mfpmr pmr PMR_PMLCB4
  else if pmrId = PMR_PMLCB + 5 then mfpmr pmr PMR_PMLCB5
  else if pmrId = PMR_PMGC0 then mfpmr pmr PMR_PMGC0
  else 0xFFFFFFFF

/-- The function `__PMCDrvRead`: returns the code and the new content of `*pPmcValue`. -/
def __PMCDrvRead (pmr : Pmr) (pmcID pPmcValue : Nat) : Nat × Nat :=
  if E6500_PMC_ID_MAX_VALUE < pmcID then (INVALID_PARAM, pPmcValue)
  else (NO_ERROR, __PMCDrvReadPMR pmr (PMR_PMC + pmcID))

/-- The function `__PMCDrvWrite`: returns the code and the new register file. -/
def __PMCDrvWrite (pmr : Pmr) (pmcID pmcValue : Nat) : Nat × Pmr :=
  if E6500_PMC_ID_MAX_VALUE < pmcID then (INVALID_PARAM, pmr)
  else (NO_ERROR, __PMCDrvWritePMR pmr (PMR_PMC + pmcID) pmcValue)

/-- The control word A computed by `__PMCDrvEnable`; `event` is the 32-bit pattern of the
`int32_t` argument. -/
def enableWordA (event : Nat) (traceEntity : PMC_TRACE_ENTITY_E) (intEnabled : Nat) : Nat :=
  let pmrValue := PMR_PMLCaX_EVENT_MASK &&& ((event <<< PMR_PMLCaX_EVENT_SHIFT) % 2 ^ 32)
  let pmrValue := pmrValue &&& not32 PMR_PMLCAX_FC
  let pmrValue :=
    if traceEntity = .PMC_SUPERVISOR ∨ traceEntity = .PMC_ALL then
      pmrValue &&& not32 PMR_PMLCAX_FCS
    else pmrValue
  let pmrValue :=
    if traceEntity = .PMC_USER ∨ traceEntity = .PMC_ALL then
      pmrValue &&& not32 PMR_PMLCAX_FCU
    else pmrValue
  let pmrValue := pmrValue &&& not32 PMR_PMLCAX_FCM1
  let pmrValue := pmrValue &&& not32 PMR_PMLCAX_FCM0
  if 0 ≠ intEnabled then pmrValue ||| PMR_PMLCAX_CE
  else pmrValue &&& not32 PMR_PMLCAX_CE

/-- The function `__PMCDrvEnable`: returns the code and the new register file. -/
def __PMCDrvEnable (pmr : Pmr) (pmcID event : Nat) (traceEntity : PMC_TRACE_ENTITY_E)
    (intEnabled : Nat) : Nat × Pmr :=
  if E6500_PMC_ID_MAX_VALUE < pmcID then (INVALID_PARAM, pmr)
  else
    let pmr := __PMCDrvWritePMR pmr (PMR_PMLCA + pmcID) (enableWordA event traceEntity intEnabled)
    let pmr := __PMCDrvWritePMR pmr (PMR_PMLCB + pmcID) 0x00000000
    let pmrValue := __PMCDrvReadPMR pmr PMR_PMGC0
    let pmrValue := pmrValue &&& not32 PMR_PMGC0_FAC
    let pmrValue := pmrValue ||| PMR_PMGC0_PMIE
    let pmrValue := pmrValue ||| PMR_PMGC0_FCECE
    (NO_ERROR, __PMCDrvWritePMR pmr PMR_PMGC0 pmrValue)

/-- The function `__PMCDrvDisable`: returns the code and the new register file. -/
def __PMCDrvDisable (pmr : Pmr) (pmcID : Nat) : Nat × Pmr :=
  if E6500_PMC_ID_MAX_VALUE < pmcID then (INVALID_PARAM, pmr)
  else (NO_ERROR, __PMCDrvWritePMR pmr (PMR_PMLCA + pmcID) PMR_PMLCAX_FC)

/-- Modelled from the spec: the scope `M_PMC_ALL` passed by the benchmark macros is not defined
in the sources; the spec says the counters are enabled with scope = all privilege levels. -/
def M_PMC_ALL : PMC_TRACE_ENTITY_E := .PMC_ALL

/-! ## Sampling iteration (InterruptBench.h, lines 124-175) -/

/-- What the benchmark code acts on outside its local variables: the shared memory and the
performance-monitor registers of the core. -/
structure World where
  mem : Mem
  pmr : Pmr

/-- The calls made by the benchmark macros, recorded in program order. -/
inductive Call
  | PMCDrvWrite (pmcID pmcValue : Nat)
  | PMCDrvEnable (pmcID event : Nat) (traceEntity : PMC_TRACE_ENTITY_E) (intEnabled : Nat)
  | PMCDrvDisable (pmcID : Nat)
  | PMCDrvRead (pmcID : Nat)
  | GET_TIME
  | PAYLOAD
  | INT_BENCH_DUMP (TYPE : DumpType) (PARTID : Nat)
  | printf (fmt : String) (args : List Int)
  | PERIODIC_WAIT
  | IntBenchGenerateInternalInt
  | IntBenchGenerateSyscall
  | IntBenchGenerateIPI (coreId : Nat)
  | IntBenchGenerateExternalInt (coreId : Nat)
  | amp_printf_unsafe (fmt : String) (args : List Int)
  deriving DecidableEq, Repr

/-- The local variables of a measurement loop, the world, and the calls made so far. -/
structure SamplingState where
  world : World
  MAF_COUNT : Nat
  BENCH_DATA : int_bench_measure_t
  calls : List Call

/-- The value of a 64-bit pattern read as a signed `SYSTEM_TIME_TYPE`. -/
def toSigned64 (x : Nat) : Int :=
  if x % 2 ^ 64 < 2 ^ 63 then (x % 2 ^ 64 : Nat) else (x % 2 ^ 64 : Nat) - 2 ^ 64

/-- Lines 127-131: the statements of `INT_BENCH_PAYLOAD_PROLOGUE` inside its outer `if`, up to
the call of `GET_TIME`, which returns `t0 = (time, code)`. -/
def prologueBody (t0 : Nat × Nat) (s : SamplingState) : SamplingState :=
  let pmr := (__PMCDrvWrite s.world.pmr 1 0).2
  let pmr := (__PMCDrvWrite pmr 2 0).2
  let pmr := (__PMCDrvEnable pmr 1 E6500_PMC_EVENT_THREAD_L2_MISS M_PMC_ALL 0).2
  let pmr := (__PMCDrvEnable pmr 2 E6500_PMC_EVENT_L2MMU_MISS M_PMC_ALL 0).2
  { world := { s.world with pmr := pmr }
    MAF_COUNT := s.MAF_COUNT
    BENCH_DATA := { s.BENCH_DATA with startTime := t0.1 % 2 ^ 64, errCode := t0.2 }
    calls := s.calls ++
      [.PMCDrvWrite 1 0, .PMCDrvWrite 2 0,
       .PMCDrvEnable 1 E6500_PMC_EVENT_THREAD_L2_MISS M_PMC_ALL 0,
       .PMCDrvEnable 2 E6500_PMC_EVENT_L2MMU_MISS M_PMC_ALL 0, .GET_TIME] }

/-- The macro `INT_BENCH_EXEC_PAYLOAD(PAYLOAD)`: one call of the payload, which may change
the world (the counters count while it runs). -/
def INT_BENCH_EXEC_PAYLOAD (PAYLOAD : World → World) (s : SamplingState) : SamplingState :=
  { s with world := PAYLOAD s.world, calls := s.calls ++ [.PAYLOAD] }

/-- Lines 139-164: the statements of `INT_BENCH_PAYLOAD_EPILOGUE` that close the inner `if`
of the prologue; `GET_TIME` returns `t1 = (time, code)`. -/
def epilogueBody (cfg : Config) (CORE PARTID : Nat) (t1 : Nat × Nat) (s : SamplingState) :
    SamplingState :=
  let d := { s.BENCH_DATA with endTime := t1.1 % 2 ^ 64, errCode := t1.2 }
  if d.errCode = NO_ERROR then
    let pmr := (__PMCDrvDisable s.world.pmr 1).2
    let pmr := (__PMCDrvDisable pmr 2).2
    let d := { d with l2Miss := (__PMCDrvRead pmr 1 d.l2Miss).2 }
    let d := { d with tlbMiss := (__PMCDrvRead pmr 2 d.tlbMiss).2 }
    let calls := s.calls ++
      [.GET_TIME, .PMCDrvDisable 1, .PMCDrvDisable 2, .PMCDrvRead 1, .PMCDrvRead 2]
    if INT_BENCH_SAMPLE_COUNT > d.samples then
      { world := { mem := INT_BENCH_DUMP cfg PARTID d .PART s.world.mem, pmr := pmr }
        MAF_COUNT := s.MAF_COUNT
        BENCH_DATA := { d with samples := (d.samples + 1) % 2 ^ 32 }
        calls := calls ++
          [.INT_BENCH_DUMP .PART PARTID,
           .printf "C%dP%d %llius\n\r" [CORE, PARTID, (toSigned64 (elapsed d)).tdiv 1000]] }
    else if INT_BENCH_SAMPLE_COUNT = d.samples then
      { world := { s.world with pmr := pmr }
        MAF_COUNT := s.MAF_COUNT
        BENCH_DATA := { d with samples := (d.samples + 1) % 2 ^ 32 }
        calls := calls ++ [.printf "[C%dP%d] Sample count reached\n\r" [CORE, PARTID]] }
    else
      { world := { s.world with pmr := pmr }
        MAF_COUNT := s.MAF_COUNT
        BENCH_DATA := d
        calls := calls }
  else
    { s with
      BENCH_DATA := d
      calls := s.calls ++ [.GET_TIME, .printf "Cannot get end execution time: %d\n\r" [d.errCode]] }

/-- One pass through `INT_BENCH_PAYLOAD_PROLOGUE(MAF_COUNT, BENCH_DATA)`,
`INT_BENCH_EXEC_PAYLOAD(PAYLOAD)` and
`INT_BENCH_PAYLOAD_EPILOGUE(MAF_COUNT, BENCH_DATA, CORE, PARTID)` as `process1` writes them:
the prologue opens two `if` blocks, the payload call and the first part of the epilogue are
inside both, and the epilogue closes them before it advances `MAF_COUNT`. -/
def samplingIteration (cfg : Config) (CORE PARTID : Nat) (PAYLOAD : World → World)
    (t0 t1 : Nat × Nat) (s : SamplingState) : SamplingState :=
  let s :=
    if 0 < s.MAF_COUNT ∧ 9 > s.MAF_COUNT then
      let s := prologueBody t0 s
      if s.BENCH_DATA.errCode = NO_ERROR then
        epilogueBody cfg CORE PARTID t1 (INT_BENCH_EXEC_PAYLOAD PAYLOAD s)
      else
        { s with
          calls := s.calls ++
            [.printf "Cannot get initial execution time: %d\n\r" [s.BENCH_DATA.errCode]] }
    else s
  { s with MAF_COUNT := (s.MAF_COUNT + 1) % 2 ^ 32 % 10 }

/-! ## Cross-partition barrier (InterruptBench.h, lines 89-118) -/

/-- Modelled from the spec: `test_and_set(lock) -> previous`; the RTOS supplies the
implementation.  Atomically returns the previous lock word and leaves the lock taken. -/
def __TestAndSet (m : Mem) (lock : Nat) : Nat × Mem := (load32 m lock, store32 m lock 1)

/-- Modelled from the spec: `lock_release(lock)`; the RTOS supplies the implementation.
Stores zero to the lock word. -/
def __LockRelease (m : Mem) (lock : Nat) : Mem := store32 m lock 0

/-- The value `((1ULL << PARTID) << (CORE * 16))` of line 104, in 64-bit arithmetic. -/
def readyBit (CORE PARTID : Nat) : Nat := (((1 <<< PARTID) % 2 ^ 64) <<< (CORE * 16)) % 2 ^ 64

/-- The statement of `INT_BENCH_INIT` a participant executes next, named by its source line. -/
inductive PC
  | L94
  | L95
  | L101
  | L103
  | L105
  | L106
  | L112
  | L115
  | L116
  | done
  deriving DecidableEq, Repr

/-- What a step of `INT_BENCH_INIT` does to the shared state or asks of the RTOS. -/
inductive Action
  | TestAndSet (previous : Nat)
  | DUMP_HADER
  | maskSeed
  | maskOr
  | LockRelease
  | PERIODIC_WAIT (errCode : Nat)
  | printf (errCode : Nat)
  | resetCounters
  deriving DecidableEq, Repr

/-- An action together with the `(CORE, PARTID)` of the participant that performed it. -/
structure Ev where
  core : Nat
  partid : Nat
  act : Action
  deriving DecidableEq, Repr

/-- The local variables of one participant inside `INT_BENCH_INIT`. -/
structure Local where
  pc : PC
  MAFCOUNT : Nat
  BENCH_DATA : int_bench_measure_t
  deriving DecidableEq, Repr

/-- The state of a run of the barrier: the shared memory, the locals of the participant
`(CORE, PARTID)` at `loc CORE PARTID`, and the actions performed so far, newest first. -/
structure BarrierState where
  mem : Mem
  loc : Nat → Nat → Local
  trace : List Ev

/-- Replace the locals of participant `(CORE, PARTID)`. -/
def setLoc (loc : Nat → Nat → Local) (CORE PARTID : Nat) (l : Local) : Nat → Nat → Local :=
  fun c p => if c = CORE ∧ p = PARTID then l else loc c p

/-- The ready mask read from shared memory. -/
def rdyMask (cfg : Config) (m : Mem) : Nat := load64 m (INT_BENCH_RDYMASK_PTR cfg)

/-- The lock word read from shared memory. -/
def lockWord (cfg : Config) (m : Mem) : Nat := load32 m (INT_BENCH_RDYMASK_LOCK cfg)

/-- One statement of `INT_BENCH_INIT(CORE, PARTID, MAFCOUNT, BENCH_DATA)` executed by the
participant `(CORE, PARTID)`; `waitErr` is the code `PERIODIC_WAIT` returns if the statement is
the call at line 106. -/
def INT_BENCH_INIT_step (cfg : Config) (CORE PARTID waitErr : Nat) (s : BarrierState) :
    BarrierState :=
  let l := s.loc CORE PARTID
  match l.pc with
  | .L94 =>
    -- while(0 != __TestAndSet(INT_BENCH_RDYMASK_LOCK));
    let r := __TestAndSet s.mem (INT_BENCH_RDYMASK_LOCK cfg)
    { mem := r.2
      loc := setLoc s.loc CORE PARTID { l with pc := if 0 ≠ r.1 then .L94 else .L95 }
      trace := ⟨CORE, PARTID, .TestAndSet r.1⟩ :: s.trace }
  | .L95 =>
    -- if(0 == CORE && PARTID == 1) { INT_BENCH_DUMP_HADER(); *INT_BENCH_RDYMASK_PTR = 1ULL; }
    if 0 = CORE ∧ PARTID = 1 then
      { mem := store64 (INT_BENCH_DUMP_HADER cfg s.mem) (INT_BENCH_RDYMASK_PTR cfg)
          0x0000000000000001
        loc := setLoc s.loc CORE PARTID { l with pc := .L101 }
        trace := ⟨CORE, PARTID, .maskSeed⟩ :: ⟨CORE, PARTID, .DUMP_HADER⟩ :: s.trace }
    else
      { s with loc := setLoc s.loc CORE PARTID { l with pc := .L101 } }
  | .L101 =>
    -- while(INT_BENCH_RDYMASK_VAL != *INT_BENCH_RDYMASK_PTR)
    if cfg.INT_BENCH_RDYMASK_VAL ≠ rdyMask cfg s.mem then
      { s with loc := setLoc s.loc CORE PARTID { l with pc := .L103 } }
    else
      { s with loc := setLoc s.loc CORE PARTID { l with pc := .L115 } }
  | .L103 =>
    -- *INT_BENCH_RDYMASK_PTR = (*INT_BENCH_RDYMASK_PTR) | ((1ULL << PARTID) << (CORE * 16));
    { mem := store64 s.mem (INT_BENCH_RDYMASK_PTR cfg)
        (rdyMask cfg s.mem ||| readyBit CORE PARTID)
      loc := setLoc s.loc CORE PARTID { l with pc := .L105 }
      trace := ⟨CORE, PARTID, .maskOr⟩ :: s.trace }
  | .L105 =>
    -- __LockRelease(INT_BENCH_RDYMASK_LOCK);
    { mem := __LockRelease s.mem (INT_BENCH_RDYMASK_LOCK cfg)
      loc := setLoc s.loc CORE PARTID { l with pc := .L106 }
      trace := ⟨CORE, PARTID, .LockRelease⟩ :: s.trace }
  | .L106 =>
    -- PERIODIC_WAIT(&BENCH_DATA.errCode); if (BENCH_DATA.errCode != NO_ERROR) printf(...);
    { mem := s.mem
      loc := setLoc s.loc CORE PARTID
        { l with pc := .L112, BENCH_DATA := { l.BENCH_DATA with errCode := waitErr } }
      trace :=
        if waitErr ≠ NO_ERROR then
          ⟨CORE, PARTID, .printf waitErr⟩ :: ⟨CORE, PARTID, .PERIODIC_WAIT waitErr⟩ :: s.trace
        else ⟨CORE, PARTID, .PERIODIC_WAIT waitErr⟩ :: s.trace }
  | .L112 =>
    -- while(0 != __TestAndSet(INT_BENCH_RDYMASK_LOCK));
    let r := __TestAndSet s.mem (INT_BENCH_RDYMASK_LOCK cfg)
    { mem := r.2
      loc := setLoc s.loc CORE PARTID { l with pc := if 0 ≠ r.1 then .L112 else .L101 }
      trace := ⟨CORE, PARTID, .TestAndSet r.1⟩ :: s.trace }
  | .L115 =>
    -- __LockRelease(INT_BENCH_RDYMASK_LOCK);
    { mem := __LockRelease s.mem (INT_BENCH_RDYMASK_LOCK cfg)
      loc := setLoc s.loc CORE PARTID { l with pc := .L116 }
      trace := ⟨CORE, PARTID, .LockRelease⟩ :: s.trace }
  | .L116 =>
    -- MAFCOUNT = 0; BENCH_DATA.samples = 0;
    { mem := s.mem
      loc := setLoc s.loc CORE PARTID
        { pc := .done, MAFCOUNT := 0, BENCH_DATA := { l.BENCH_DATA with samples := 0 } }
      trace := ⟨CORE, PARTID, .resetCounters⟩ :: s.trace }
  | .done => s

/-- Run a schedule: each entry names the participant that executes its next statement and
the code `PERIODIC_WAIT` would return to it. -/
def runBarrier (cfg : Config) : List (Nat × Nat × Nat) → BarrierState → BarrierState
  | [], s => s
  | (c, p, e) :: rest, s => runBarrier cfg rest (INT_BENCH_INIT_step cfg c p e s)

/-- States reachable from `s0` by steps of the participants listed in `ps`. -/
inductive Reach (cfg : Config) (ps : List (Nat × Nat)) (s0 : BarrierState) :
    BarrierState → Prop
  | start : Reach cfg ps s0 s0
  | step (s : BarrierState) (c p e : Nat) :
      Reach cfg ps s0 s → (c, p) ∈ ps → Reach cfg ps s0 (INT_BENCH_INIT_step cfg c p e s)

/-- An initial state of a run: zero ready mask, free lock, nobody has executed anything. -/
def BarrierStart (cfg : Config) (s : BarrierState) : Prop :=
  rdyMask cfg s.mem = 0 ∧ lockWord cfg s.mem = 0 ∧ (∀ c p, (s.loc c p).pc = .L94) ∧ s.trace = []

/-- The participant has left the wait loop of lines 101-113. -/
def pastBarrier : PC → Bool
  | .L115 => true
  | .L116 => true
  | .done => true
  | _ => false

/-- The participants a ready mask names: the pairs with core below 4 and partition below 16
whose bit is set. -/
def named (mask : Nat) : List (Nat × Nat) :=
  ((List.range 4).flatMap fun c => (List.range 16).map fun p => (c, p)).filter
    fun cp => mask.testBit (cp.1 * 16 + cp.2)

/-- All-zero memory, every participant at the entry of `INT_BENCH_INIT` with zeroed locals
(the `memset` of `process1`). -/
def zeroState : BarrierState :=
  { mem := fun _ => 0
    loc := fun _ _ => { pc := .L94, MAFCOUNT := 0, BENCH_DATA := ⟨0, 0, 0, 0, 0, 0⟩ }
    trace := [] }

/-- One pass of a participant through the wait loop when the lock is free and the mask is
not yet full: lines 94 (or 112), 95, 101, 103, 105, 106. -/
def arrive (c p : Nat) : List (Nat × Nat × Nat) :=
  [(c, p, 0), (c, p, 0), (c, p, 0), (c, p, 0), (c, p, 0), (c, p, 0)]

/-- The calls that instrument an iteration: counter operations, timestamp captures and dump
appends. -/
def isInstrumentation : Call → Bool
  | .PMCDrvWrite _ _ => true
  | .PMCDrvEnable _ _ _ _ => true
  | .PMCDrvDisable _ => true
  | .PMCDrvRead _ => true
  | .GET_TIME => true
  | .INT_BENCH_DUMP _ _ => true
  | .PAYLOAD => false
  | .printf _ _ => false
  | .PERIODIC_WAIT => false
  | .IntBenchGenerateInternalInt => false
  | .IntBenchGenerateSyscall => false
  | .IntBenchGenerateIPI _ => false
  | .IntBenchGenerateExternalInt _ => false
  | Call.amp_printf_unsafe _ _ => false

/-- The calls made by one sampling iteration started in `s`. -/
def iterationCalls (cfg : Config) (CORE PARTID : Nat) (PAYLOAD : World → World)
    (t0 t1 : Nat × Nat) (s : SamplingState) : List Call :=
  (samplingIteration cfg CORE PARTID PAYLOAD t0 t1 s).calls.drop s.calls.length

/-- The calls with which the prologue starts an instrumented iteration (lines 127-131). -/
def prologueCalls : List Call :=
  [.PMCDrvWrite 1 0, .PMCDrvWrite 2 0,
   .PMCDrvEnable 1 E6500_PMC_EVENT_THREAD_L2_MISS M_PMC_ALL 0,
   .PMCDrvEnable 2 E6500_PMC_EVENT_L2MMU_MISS M_PMC_ALL 0, .GET_TIME]

/-- A payload that leaves a mark: it stores the byte `0xAA` at address 0. -/
def markPayload (w : World) : World := { w with mem := store8 w.mem 0 0xAA }

/-- A loop state with zeroed memory, registers and measurement record, at frame `frame`. -/
def zeroSampling (frame : Nat) : SamplingState :=
  { world := { mem := fun _ => 0, pmr := fun _ => 0 }
    MAF_COUNT := frame
    BENCH_DATA := ⟨0, 0, 0, 0, 0, 0⟩
    calls := [] }

/-- Twelve of the thirteen participants named by the repository's ready mask arrive, the
elector `(0, 1)` first; participant `(0, 0)` has not started yet.  Then the elector polls
again: lines 112, 101, 115, 116. -/
def lateArrivalSchedule : List (Nat × Nat × Nat) :=
  arrive 0 1 ++ arrive 0 2 ++ arrive 0 3 ++ arrive 0 4 ++ arrive 0 5 ++ arrive 0 6 ++
  arrive 0 7 ++ arrive 0 8 ++ arrive 0 9 ++ arrive 1 1 ++ arrive 2 1 ++ arrive 3 1 ++
  [(0, 1, 0), (0, 1, 0), (0, 1, 0), (0, 1, 0)]

/-- Participant `(1, 1)` arrives before the elector and sets its bit; then the elector takes
the lock and executes line 95. -/
def earlyArrivalSchedule : List (Nat × Nat × Nat) :=
  arrive 1 1 ++ [(0, 1, 0), (0, 1, 0)]

/-! ## Abstract view of the barrier: program counters, ready mask and lock word

The functions below describe what `INT_BENCH_INIT_step` does to the program counter of the
stepping participant, to the ready mask and to the lock word.  They are proof devices: the
lemmas `step_pc`, `step_mask`, `step_lock` and `step_trace` show that the step function
translated from the source agrees with them, and the claims are stated on the step function. -/

/-- The statement that follows `pc` for a participant that reads `mask` and `lock`. -/
def nextPC (target : Nat) (pc : PC) (mask lock : Nat) : PC :=
  match pc with
  | .L94 => if 0 ≠ lock then .L94 else .L95
  | .L95 => .L101
  | .L101 => if target ≠ mask then .L103 else .L115
  | .L103 => .L105
  | .L105 => .L106
  | .L106 => .L112
  | .L112 => if 0 ≠ lock then .L112 else .L101
  | .L115 => .L116
  | .L116 => .done
  | .done => .done

/-- The ready mask after participant `(CORE, PARTID)` executes the statement at `pc`. -/
def nextMask (CORE PARTID : Nat) (pc : PC) (mask : Nat) : Nat :=
  match pc with
  | .L95 => if 0 = CORE ∧ PARTID = 1 then 1 else mask
  | .L103 => mask ||| readyBit CORE PARTID
  | _ => mask

/-- The lock word after the statement at `pc`. -/
def nextLock (pc : PC) (lock : Nat) : Nat :=
  match pc with
  | .L94 => 1
  | .L112 => 1
  | .L105 => 0
  | .L115 => 0
  | _ => lock

/-- The three-participant system of the spec: `(0,0)`, `(0,1)`, `(1,1)`, target `0x20003`. -/
structure Abs3 where
  pc0 : PC
  pc1 : PC
  pc2 : PC
  mask : Nat
  lock : Nat

/-- Step of participant number `i` (0 is `(0,0)`, 1 is `(0,1)`, anything else is `(1,1)`). -/
def absStep3 (i : Nat) (a : Abs3) : Abs3 :=
  match i with
  | 0 => { a with pc0 := nextPC 0x20003 a.pc0 a.mask a.lock, mask := nextMask 0 0 a.pc0 a.mask,
                  lock := nextLock a.pc0 a.lock }
  | 1 => { a with pc1 := nextPC 0x20003 a.pc1 a.mask a.lock, mask := nextMask 0 1 a.pc1 a.mask,
                  lock := nextLock a.pc1 a.lock }
  | _ => { a with pc2 := nextPC 0x20003 a.pc2 a.mask a.lock, mask := nextMask 1 1 a.pc2 a.mask,
                  lock := nextLock a.pc2 a.lock }

/-- The function `nextPC` with the two comparisons already evaluated: `full` says that the
mask equals the target, `free` that the lock word is zero. -/
def fastPC (pc : PC) (full free : Bool) : PC :=
  match pc with
  | .L94 => bif free then .L95 else .L94
  | .L95 => .L101
  | .L101 => bif full then .L115 else .L103
  | .L103 => .L105
  | .L105 => .L106
  | .L106 => .L112
  | .L112 => bif free then .L101 else .L112
  | .L115 => .L116
  | .L116 => .done
  | .done => .done

/-- The function `nextMask` for a participant whose bit is `bit` and that is the elector if
`seed` is true. -/
def fastMask (seed : Bool) (bit : Nat) (pc : PC) (mask : Nat) : Nat :=
  match pc with
  | .L95 => bif seed then 1 else mask
  | .L103 => mask ||| bit
  | _ => mask

/-- The function `absStep3` written with boolean tests only, for evaluation. -/
def fastStep3 (i : Nat) (a : Abs3) : Abs3 :=
  match i with
  | 0 => ⟨fastPC a.pc0 (Nat.beq a.mask 0x20003) (Nat.beq a.lock 0), a.pc1, a.pc2,
          fastMask false 1 a.pc0 a.mask, nextLock a.pc0 a.lock⟩
  | 1 => ⟨a.pc0, fastPC a.pc1 (Nat.beq a.mask 0x20003) (Nat.beq a.lock 0), a.pc2,
          fastMask true 2 a.pc1 a.mask, nextLock a.pc1 a.lock⟩
  | _ => ⟨a.pc0, a.pc1, fastPC a.pc2 (Nat.beq a.mask 0x20003) (Nat.beq a.lock 0),
          fastMask false 0x20000 a.pc2 a.mask, nextLock a.pc2 a.lock⟩

/-- The statement is inside the critical section (the lock is held while it is next). -/
def holdsLock : PC → Bool
  | .L95 => true
  | .L101 => true
  | .L103 => true
  | .L105 => true
  | .L115 => true
  | _ => false

/-- The elector at this statement has not yet seeded the mask. -/
def preSeed : PC → Bool
  | .L94 => true
  | .L95 => true
  | _ => false

/-- The participant has finished `INT_BENCH_INIT`. -/
def isDone : PC → Bool
  | .done => true
  | _ => false

/-- Every program counter value. -/
def allPC : List PC := [.L94, .L95, .L101, .L103, .L105, .L106, .L112, .L115, .L116, .done]

/-- The ready-mask values that occur in the three-participant system. -/
def allMask3 : List Nat := [0, 1, 3, 0x20000, 0x20001, 0x20003]

/-- The lock word is 1 when exactly one of the three participants is inside the critical
section and 0 when none is; two are never inside. -/
def lockOk (h0 h1 h2 : Bool) (lock : Nat) : Bool :=
  match h0, h1, h2 with
  | false, false, false => Nat.beq lock 0
  | true, false, false => Nat.beq lock 1
  | false, true, false => Nat.beq lock 1
  | false, false, true => Nat.beq lock 1
  | _, _, _ => false

/-- The invariant of the three-participant system: the lock word agrees with the critical
section; before the elector's seeding the mask has neither the elector's bit nor anything
outside the target, afterwards it has bit 0 and nothing outside the target; and a participant
is past the barrier only if the mask is full. -/
def inv3 (a : Abs3) : Bool :=
  lockOk (holdsLock a.pc0) (holdsLock a.pc1) (holdsLock a.pc2) a.lock &&
  (bif preSeed a.pc1 then
    Nat.beq a.mask 0 || Nat.beq a.mask 1 || Nat.beq a.mask 0x20000 || Nat.beq a.mask 0x20001
   else
    Nat.beq a.mask 1 || Nat.beq a.mask 3 || Nat.beq a.mask 0x20001 || Nat.beq a.mask 0x20003) &&
  (bif pastBarrier a.pc0 || pastBarrier a.pc1 || pastBarrier a.pc2 then Nat.beq a.mask 0x20003
   else true)

/-- All three participants have finished `INT_BENCH_INIT`. -/
def allDone3 (a : Abs3) : Bool := isDone a.pc0 && isDone a.pc1 && isDone a.pc2

/-- One round: each of the three participants executes one statement, in turn. -/
def round3 (a : Abs3) : Abs3 := fastStep3 2 (fastStep3 1 (fastStep3 0 a))

/-- All three participants finish within `n` rounds. -/
def doneWithin3 : Nat → Abs3 → Bool
  | 0, a => allDone3 a
  | n + 1, a => allDone3 a || doneWithin3 n (round3 a)

/-- What is checked at one state: if the invariant holds, every step keeps it, keeps a full
mask full, and all three participants finish within `rounds` rounds. -/
def checkState3 (rounds : Nat) (a : Abs3) : Bool :=
  !inv3 a ||
    (inv3 (fastStep3 0 a) && inv3 (fastStep3 1 a) && inv3 (fastStep3 2 a) &&
     (!Nat.beq a.mask 0x20003 ||
       (Nat.beq (fastStep3 0 a).mask 0x20003 && Nat.beq (fastStep3 1 a).mask 0x20003 &&
        Nat.beq (fastStep3 2 a).mask 0x20003)) &&
     doneWithin3 rounds a)

/-- The check of `checkState3` over every combination of program counters and lock word that
passes `lockOk`, and every mask value. -/
def check3 (rounds : Nat) : Bool :=
  allPC.all fun pc0 => allPC.all fun pc1 => allPC.all fun pc2 => [0, 1].all fun lock =>
    !lockOk (holdsLock pc0) (holdsLock pc1) (holdsLock pc2) lock ||
      allMask3.all fun mask => checkState3 rounds ⟨pc0, pc1, pc2, mask, lock⟩

/-- The configuration of the spec's three-participant scenario: any base address, ready mask
`0x20003` (the bits of `(0,0)`, `(0,1)` and `(1,1)`). -/
def cfg3 (base : Nat) : Config :=
  { INT_BENCH_SHARED_MEM_BASE := base, INT_BENCH_RDYMASK_VAL := 0x20003 }

/-- The three participants of the scenario. -/
def three : List (Nat × Nat) := [(0, 0), (0, 1), (1, 1)]

/-- The abstract view of a state of the three-participant system. -/
def abs3 (cfg : Config) (s : BarrierState) : Abs3 :=
  { pc0 := (s.loc 0 0).pc, pc1 := (s.loc 0 1).pc, pc2 := (s.loc 1 1).pc,
    mask := rdyMask cfg s.mem, lock := lockWord cfg s.mem }

/-- The schedule in which `(0,0)`, `(0,1)` and `(1,1)` execute one statement each, in turn,
for `n` rounds (and `PERIODIC_WAIT` returns `NO_ERROR`). -/
def roundRobinSchedule : Nat → List (Nat × Nat × Nat)
  | 0 => []
  | n + 1 => (0, 0, 0) :: (0, 1, 0) :: (1, 1, 0) :: roundRobinSchedule n

/-- Whether participant `(CORE, PARTID)` has executed its OR step (line 103) since the
elector's seeding of the mask; the trace is newest first. -/
def oredSinceSeed (CORE PARTID : Nat) : List Ev → Bool
  | [] => false
  | ev :: rest =>
    if ev.act = .maskSeed then false
    else if ev = ⟨CORE, PARTID, .maskOr⟩ then true
    else oredSinceSeed CORE PARTID rest

/-- The actions of the statement at `pc` executed by `(CORE, PARTID)`, newest first. -/
def stepActions (CORE PARTID waitErr : Nat) (pc : PC) (lock : Nat) : List Action :=
  match pc with
  | .L94 => [.TestAndSet lock]
  | .L95 => if 0 = CORE ∧ PARTID = 1 then [.maskSeed, .DUMP_HADER] else []
  | .L101 => []
  | .L103 => [.maskOr]
  | .L105 => [.LockRelease]
  | .L106 => if waitErr ≠ NO_ERROR then [.printf waitErr, .PERIODIC_WAIT waitErr]
             else [.PERIODIC_WAIT waitErr]
  | .L112 => [.TestAndSet lock]
  | .L115 => [.LockRelease]
  | .L116 => [.resetCounters]
  | .done => []

/-! ## The loop of `process1` (Example_ApplicativePartition.c, lines 40-60) -/

/-- What the environment supplies to one pass through the loop of `process1`: the effect of
the payload (and of the hardware while it runs) on the world, the two results of `GET_TIME`
as `(time, code)`, and the code returned by `PERIODIC_WAIT`. -/
structure IterEnv where
  PAYLOAD : World → World
  t0 : Nat × Nat
  t1 : Nat × Nat
  retCode : Nat

/-- One pass through the body of the `while(1)` loop of `process1` (`GENERATE_INT` is not
defined there): prologue, payload and epilogue with `CORE = 0`, `PARTID = 0`, then
`PERIODIC_WAIT(&retCode)` and the message printed when it fails. -/
def process1_body (cfg : Config) (env : IterEnv) (s : SamplingState) : SamplingState :=
  let s := samplingIteration cfg 0 0 env.PAYLOAD env.t0 env.t1 s
  if NO_ERROR ≠ env.retCode then
    { s with
      calls := s.calls ++
        [.PERIODIC_WAIT, .printf "[C0P0] Cannot periodic wait: %d\n" [env.retCode]] }
  else { s with calls := s.calls ++ [.PERIODIC_WAIT] }

/-- The loop of `process1` run for as many passes as there are environments in the list. -/
def process1_loop (cfg : Config) : List IterEnv → SamplingState → SamplingState
  | [], s => s
  | env :: rest, s => process1_loop cfg rest (process1_body cfg env s)

/-- The call is a dump append. -/
def isDump : Call → Bool
  | .INT_BENCH_DUMP _ _ => true
  | _ => false

/-- The call prints the notice that the sample count is reached. -/
def isCapNotice : Call → Bool
  | .printf fmt _ => fmt = "[C%dP%d] Sample count reached\n\r"
  | Call.amp_printf_unsafe fmt _ => fmt = "[C%dP%d] Sample count reached\n\r"
  | _ => false

/-! ## Stimulus generators (InterruptBench.h, lines 181-344) -/

/-- The macro `INT_BENCH_GEN_INT_INT(COREID, PARTID, BENCH_DATA)`; `TRIGGER` is the effect on
the world of `__IntBenchGenerateInternalInt()` up to the return of the interrupt handler, and
`t0`, `t1` are the results of the two calls of `GET_TIME`. -/
def INT_BENCH_GEN_INT_INT (cfg : Config) (COREID PARTID : Nat) (TRIGGER : World → World)
    (t0 t1 : Nat × Nat) (s : SamplingState) : SamplingState :=
  let _ := COREID
  let pmr := (__PMCDrvWrite s.world.pmr 3 0).2
  let pmr := (__PMCDrvWrite pmr 4 0).2
  let pmr := (__PMCDrvEnable pmr 3 E6500_PMC_EVENT_THREAD_L2_MISS M_PMC_ALL 0).2
  let pmr := (__PMCDrvEnable pmr 4 E6500_PMC_EVENT_L2MMU_MISS M_PMC_ALL 0).2
  let d := { s.BENCH_DATA with startTime := t0.1 % 2 ^ 64, errCode := t0.2 }
  let calls := s.calls ++
    [.PMCDrvWrite 3 0, .PMCDrvWrite 4 0,
     .PMCDrvEnable 3 E6500_PMC_EVENT_THREAD_L2_MISS M_PMC_ALL 0,
     .PMCDrvEnable 4 E6500_PMC_EVENT_L2MMU_MISS M_PMC_ALL 0, .GET_TIME]
  if d.errCode = NO_ERROR then
    let w := TRIGGER { s.world with pmr := pmr }
    let d := { d with endTime := t1.1 % 2 ^ 64, errCode := t1.2 }
    let calls := calls ++ [.IntBenchGenerateInternalInt, .GET_TIME]
    if d.errCode = NO_ERROR then
      let pmr := (__PMCDrvDisable w.pmr 3).2
      let pmr := (__PMCDrvDisable pmr 4).2
      let d := { d with l2Miss := (__PMCDrvRead pmr 3 d.l2Miss).2 }
      let d := { d with tlbMiss := (__PMCDrvRead pmr 4 d.tlbMiss).2 }
      let calls := calls ++
        [.PMCDrvDisable 3, .PMCDrvDisable 4, .PMCDrvRead 3, .PMCDrvRead 4]
      if INT_BENCH_SAMPLE_COUNT > d.samples then
        { world := { mem := INT_BENCH_DUMP cfg PARTID d .INTINT w.mem, pmr := pmr }
          MAF_COUNT := s.MAF_COUNT
          BENCH_DATA := { d with samples := (d.samples + 1) % 2 ^ 32 }
          calls := calls ++ [.INT_BENCH_DUMP .INTINT PARTID] }
      else
        { world := { w with pmr := pmr }, MAF_COUNT := s.MAF_COUNT, BENCH_DATA := d,
          calls := calls }
    else
      { world := w, MAF_COUNT := s.MAF_COUNT, BENCH_DATA := d,
        calls := calls ++
          [ Call.amp_printf_unsafe "Cannot get end execution time: %d\n\r" [d.errCode]] }
  else
    { world := { s.world with pmr := pmr }, MAF_COUNT := s.MAF_COUNT, BENCH_DATA := d,
      calls := calls ++
        [ Call.amp_printf_unsafe "Cannot get start execution time: %d\n\r" [d.errCode]] }

/-- The macro `INT_BENCH_GEN_SC(COREID, PARTID, BENCH_DATA)`; `TRIGGER` is the effect on the
world of `__IntBenchGenerateSyscall()`. -/
def INT_BENCH_GEN_SC (cfg : Config) (COREID PARTID : Nat) (TRIGGER : World → World)
    (t0 t1 : Nat × Nat) (s : SamplingState) : SamplingState :=
  let _ := COREID
  let pmr := (__PMCDrvWrite s.world.pmr 3 0).2
  let pmr := (__PMCDrvWrite pmr 4 0).2
  let pmr := (__PMCDrvEnable pmr 3 E6500_PMC_EVENT_THREAD_L2_MISS M_PMC_ALL 0).2
  let pmr := (__PMCDrvEnable pmr 4 E6500_PMC_EVENT_L2MMU_MISS M_PMC_ALL 0).2
  let d := { s.BENCH_DATA with startTime := t0.1 % 2 ^ 64, errCode := t0.2 }
  let calls := s.calls ++
    [.PMCDrvWrite 3 0, .PMCDrvWrite 4 0,
     .PMCDrvEnable 3 E6500_PMC_EVENT_THREAD_L2_MISS M_PMC_ALL 0,
     .PMCDrvEnable 4 E6500_PMC_EVENT_L2MMU_MISS M_PMC_ALL 0, .GET_TIME]
  if d.errCode = NO_ERROR then
    let w := TRIGGER { s.world with pmr := pmr }
    let d := { d with endTime := t1.1 % 2 ^ 64, errCode := t1.2 }
    let calls := calls ++ [.IntBenchGenerateSyscall, .GET_TIME]
    if d.errCode = NO_ERROR then
      let pmr := (__PMCDrvDisable w.pmr 3).2
      let pmr := (__PMCDrvDisable pmr 4).2
      let d := { d with l2Miss := (__PMCDrvRead pmr 3 d.l2Miss).2 }
      let d := { d with tlbMiss := (__PMCDrvRead pmr 4 d.tlbMiss).2 }
      let calls := calls ++
        [.PMCDrvDisable 3, .PMCDrvDisable 4, .PMCDrvRead 3, .PMCDrvRead 4]
      if INT_BENCH_SAMPLE_COUNT > d.samples then
        { world := { mem := INT_BENCH_DUMP cfg PARTID d .SC w.mem, pmr := pmr }
          MAF_COUNT := s.MAF_COUNT
          BENCH_DATA := { d with samples := (d.samples + 1) % 2 ^ 32 }
          calls := calls ++ [.INT_BENCH_DUMP .SC PARTID] }
      else
        { world := { w with pmr := pmr }, MAF_COUNT := s.MAF_COUNT, BENCH_DATA := d,
          calls := calls }
    else
      { world := w, MAF_COUNT := s.MAF_COUNT, BENCH_DATA := d,
        calls := calls ++
          [ Call.amp_printf_unsafe "Cannot get end execution time: %d\n\r" [d.errCode]] }
  else
    { world := { s.world with pmr := pmr }, MAF_COUNT := s.MAF_COUNT, BENCH_DATA := d,
      calls := calls ++
        [ Call.amp_printf_unsafe "Cannot get start execution time: %d\n\r" [d.errCode]] }

/-- The macro `INT_BENCH_GEN_IPI(COREID, PARTID, BENCH_DATA, DSTID)`; `TRIGGER` is the effect
on the world of `__IntBenchGenerateIPI(DSTID)` up to the return of the interrupt handler. -/
def INT_BENCH_GEN_IPI (cfg : Config) (COREID PARTID DSTID : Nat) (TRIGGER : World → World)
    (t0 t1 : Nat × Nat) (s : SamplingState) : SamplingState :=
  let _ := COREID
  let pmr := (__PMCDrvWrite s.world.pmr 3 0).2
  let pmr := (__PMCDrvWrite pmr 4 0).2
  let pmr := (__PMCDrvEnable pmr 3 E6500_PMC_EVENT_THREAD_L2_MISS M_PMC_ALL 0).2
  let pmr := (__PMCDrvEnable pmr 4 E6500_PMC_EVENT_L2MMU_MISS M_PMC_ALL 0).2
  let d := { s.BENCH_DATA with startTime := t0.1 % 2 ^ 64, errCode := t0.2 }
  let calls := s.calls ++
    [.PMCDrvWrite 3 0, .PMCDrvWrite 4 0,
     .PMCDrvEnable 3 E6500_PMC_EVENT_THREAD_L2_MISS M_PMC_ALL 0,
     .PMCDrvEnable 4 E6500_PMC_EVENT_L2MMU_MISS M_PMC_ALL 0, .GET_TIME]
  if d.errCode = NO_ERROR then
    let w := TRIGGER { s.world with pmr := pmr }
    let d := { d with endTime := t1.1 % 2 ^ 64, errCode := t1.2 }
    let calls := calls ++ [.IntBenchGenerateIPI DSTID, .GET_TIME]
    if d.errCode = NO_ERROR then
      let pmr := (__PMCDrvDisable w.pmr 3).2
      let pmr := (__PMCDrvDisable pmr 4).2
      let d := { d with l2Miss := (__PMCDrvRead pmr 3 d.l2Miss).2 }
      let d := { d with tlbMiss := (__PMCDrvRead pmr 4 d.tlbMiss).2 }
      let calls := calls ++
        [.PMCDrvDisable 3, .PMCDrvDisable 4, .PMCDrvRead 3, .PMCDrvRead 4]
      if INT_BENCH_SAMPLE_COUNT > d.samples then
        { world := { mem := INT_BENCH_DUMP cfg PARTID d .IPI w.mem, pmr := pmr }
          MAF_COUNT := s.MAF_COUNT
          BENCH_DATA := { d with samples := (d.samples + 1) % 2 ^ 32 }
          calls := calls ++ [.INT_BENCH_DUMP .IPI PARTID] }
      else
        { world := { w with pmr := pmr }, MAF_COUNT := s.MAF_COUNT, BENCH_DATA := d,
          calls := calls }
    else
      { world := w, MAF_COUNT := s.MAF_COUNT, BENCH_DATA := d,
        calls := calls ++
          [ Call.amp_printf_unsafe "Cannot get end execution time: %d\n\r" [d.errCode]] }
  else
    { world := { s.world with pmr := pmr }, MAF_COUNT := s.MAF_COUNT, BENCH_DATA := d,
      calls := calls ++
        [ Call.amp_printf_unsafe "Cannot get start execution time: %d\n\r" [d.errCode]] }

/-- The macro `INT_BENCH_GEN_EXT_INT(COREID, PARTID, BENCH_DATA, DSTID)`; `TRIGGER` is the
effect on the world of `__IntBenchGenerateExternalInt(DSTID)` up to the moment the handler
has cleared the wait flag. -/
def INT_BENCH_GEN_EXT_INT (cfg : Config) (COREID PARTID DSTID : Nat) (TRIGGER : World → World)
    (t0 t1 : Nat × Nat) (s : SamplingState) : SamplingState :=
  let _ := COREID
  let pmr := (__PMCDrvWrite s.world.pmr 3 0).2
  let pmr := (__PMCDrvWrite pmr 4 0).2
  let pmr := (__PMCDrvEnable pmr 3 E6500_PMC_EVENT_THREAD_L2_MISS M_PMC_ALL 0).2
  let pmr := (__PMCDrvEnable pmr 4 E6500_PMC_EVENT_L2MMU_MISS M_PMC_ALL 0).2
  let d := { s.BENCH_DATA with startTime := t0.1 % 2 ^ 64, errCode := t0.2 }
  let calls := s.calls ++
    [.PMCDrvWrite 3 0, .PMCDrvWrite 4 0,
     .PMCDrvEnable 3 E6500_PMC_EVENT_THREAD_L2_MISS M_PMC_ALL 0,
     .PMCDrvEnable 4 E6500_PMC_EVENT_L2MMU_MISS M_PMC_ALL 0, .GET_TIME]
  if d.errCode = NO_ERROR then
    let w := TRIGGER { s.world with pmr := pmr }
    let d := { d with endTime := t1.1 % 2 ^ 64, errCode := t1.2 }
    let calls := calls ++ [.IntBenchGenerateExternalInt DSTID, .GET_TIME]
    if d.errCode = NO_ERROR then
      let pmr := (__PMCDrvDisable w.pmr 3).2
      let pmr := (__PMCDrvDisable pmr 4).2
      let d := { d with l2Miss := (__PMCDrvRead pmr 3 d.l2Miss).2 }
      let d := { d with tlbMiss := (__PMCDrvRead pmr 4 d.tlbMiss).2 }
      let calls := calls ++
        [.PMCDrvDisable 3, .PMCDrvDisable 4, .PMCDrvRead 3, .PMCDrvRead 4]
      if INT_BENCH_SAMPLE_COUNT > d.samples then
        { world := { mem := INT_BENCH_DUMP cfg PARTID d .EXTINT w.mem, pmr := pmr }
          MAF_COUNT := s.MAF_COUNT
          BENCH_DATA := { d with samples := (d.samples + 1) % 2 ^ 32 }
          calls := calls ++ [.INT_BENCH_DUMP .EXTINT PARTID] }
      else
        { world := { w with pmr := pmr }, MAF_COUNT := s.MAF_COUNT, BENCH_DATA := d,
          calls := calls }
    else
      { world := w, MAF_COUNT := s.MAF_COUNT, BENCH_DATA := d,
        calls := calls ++
          [ Call.amp_printf_unsafe "Cannot get end execution time: %d\n\r" [d.errCode]] }
  else
    { world := { s.world with pmr := pmr }, MAF_COUNT := s.MAF_COUNT, BENCH_DATA := d,
      calls := calls ++
        [ Call.amp_printf_unsafe "Cannot get start execution time: %d\n\r" [d.errCode]] }

/-- The four stimulus generators. -/
inductive Stimulus
  | INT_INT
  | SC
  | IPI
  | EXT_INT
  deriving DecidableEq, Repr

/-- What the environment supplies to one generator call: the effect of the trigger and the
two results of `GET_TIME`. -/
structure GenEnv where
  TRIGGER : World → World
  t0 : Nat × Nat
  t1 : Nat × Nat

/-- One call of the generator `g` (with destination `DSTID` where the macro takes one). -/
def genCall (cfg : Config) (g : Stimulus) (COREID PARTID DSTID : Nat) (env : GenEnv)
    (s : SamplingState) : SamplingState :=
  match g with
  | .INT_INT => INT_BENCH_GEN_INT_INT cfg COREID PARTID env.TRIGGER env.t0 env.t1 s
  | .SC => INT_BENCH_GEN_SC cfg COREID PARTID env.TRIGGER env.t0 env.t1 s
  | .IPI => INT_BENCH_GEN_IPI cfg COREID PARTID DSTID env.TRIGGER env.t0 env.t1 s
  | .EXT_INT => INT_BENCH_GEN_EXT_INT cfg COREID PARTID DSTID env.TRIGGER env.t0 env.t1 s

/-- Successive calls of the generator `g` on one measurement record. -/
def genRun (cfg : Config) (g : Stimulus) (COREID PARTID DSTID : Nat) :
    List GenEnv → SamplingState → SamplingState
  | [], s => s
  | env :: rest, s => genRun cfg g COREID PARTID DSTID rest (genCall cfg g COREID PARTID DSTID env s)

/-- The dump region a generator appends to. -/
def Stimulus.region : Stimulus → DumpType
  | .INT_INT => .INTINT
  | .SC => .SC
  | .IPI => .IPI
  | .EXT_INT => .EXTINT

/-- The call that records the trigger of a generator. -/
def Stimulus.trigger (DSTID : Nat) : Stimulus → Call
  | .INT_INT => .IntBenchGenerateInternalInt
  | .SC => .IntBenchGenerateSyscall
  | .IPI => .IntBenchGenerateIPI DSTID
  | .EXT_INT => .IntBenchGenerateExternalInt DSTID

/-- The text the four generator macros share, with the dump region `TYPE` and the recorded
trigger call as parameters.  A proof device: `genCall_eq` shows that each macro, translated
on its own above, is this text with its own region and trigger. -/
def genSkeleton (cfg : Config) (TYPE : DumpType) (trigger : Call) (PARTID : Nat)
    (TRIGGER : World → World) (t0 t1 : Nat × Nat) (s : SamplingState) : SamplingState :=
  let pmr := (__PMCDrvWrite s.world.pmr 3 0).2
  let pmr := (__PMCDrvWrite pmr 4 0).2
  let pmr := (__PMCDrvEnable pmr 3 E6500_PMC_EVENT_THREAD_L2_MISS M_PMC_ALL 0).2
  let pmr := (__PMCDrvEnable pmr 4 E6500_PMC_EVENT_L2MMU_MISS M_PMC_ALL 0).2
  let d := { s.BENCH_DATA with startTime := t0.1 % 2 ^ 64, errCode := t0.2 }
  let calls := s.calls ++
    [.PMCDrvWrite 3 0, .PMCDrvWrite 4 0,
     .PMCDrvEnable 3 E6500_PMC_EVENT_THREAD_L2_MISS M_PMC_ALL 0,
     .PMCDrvEnable 4 E6500_PMC_EVENT_L2MMU_MISS M_PMC_ALL 0, .GET_TIME]
  if d.errCode = NO_ERROR then
    let w := TRIGGER { s.world with pmr := pmr }
    let d := { d with endTime := t1.1 % 2 ^ 64, errCode := t1.2 }
    let calls := calls ++ [trigger, .GET_TIME]
    if d.errCode = NO_ERROR then
      let pmr := (__PMCDrvDisable w.pmr 3).2
      let pmr := (__PMCDrvDisable pmr 4).2
      let d := { d with l2Miss := (__PMCDrvRead pmr 3 d.l2Miss).2 }
      let d := { d with tlbMiss := (__PMCDrvRead pmr 4 d.tlbMiss).2 }
      let calls := calls ++
        [.PMCDrvDisable 3, .PMCDrvDisable 4, .PMCDrvRead 3, .PMCDrvRead 4]
      if INT_BENCH_SAMPLE_COUNT > d.samples then
        { world := { mem := INT_BENCH_DUMP cfg PARTID d TYPE w.mem, pmr := pmr }
          MAF_COUNT := s.MAF_COUNT
          BENCH_DATA := { d with samples := (d.samples + 1) % 2 ^ 32 }
          calls := calls ++ [.INT_BENCH_DUMP TYPE PARTID] }
      else
        { world := { w with pmr := pmr }, MAF_COUNT := s.MAF_COUNT, BENCH_DATA := d,
          calls := calls }
    else
      { world := w, MAF_COUNT := s.MAF_COUNT, BENCH_DATA := d,
        calls := calls ++
          [ Call.amp_printf_unsafe "Cannot get end execution time: %d\n\r" [d.errCode]] }
  else
    { world := { s.world with pmr := pmr }, MAF_COUNT := s.MAF_COUNT, BENCH_DATA := d,
      calls := calls ++
        [ Call.amp_printf_unsafe "Cannot get start execution time: %d\n\r" [d.errCode]] }

/-- The measurement of a generator call succeeds: both timestamps are obtained. -/
def GenEnv.ok (env : GenEnv) : Bool := env.t0.2 == NO_ERROR && env.t1.2 == NO_ERROR

/-- The iteration started at frame `frame` with environment `env` is a successful ACTIVE one:
the frame is in 1..8 and both timestamps are obtained. -/
def IterEnv.ok (env : IterEnv) (frame : Nat) : Bool :=
  decide (0 < frame) && decide (9 > frame) && env.t0.2 == NO_ERROR && env.t1.2 == NO_ERROR

/-- The number of successful ACTIVE iterations in a run of the loop that starts at frame
`frame`. -/
def successCount : List IterEnv → Nat → Nat
  | [], _ => 0
  | env :: rest, frame =>
    (if env.ok frame then 1 else 0) + successCount rest ((frame + 1) % 2 ^ 32 % 10)

/-- An environment in which both timestamps are obtained, the payload changes nothing and
the periodic wait succeeds. -/
def okEnv : IterEnv := { PAYLOAD := id, t0 := (1000, 0), t1 := (6000, 0), retCode := 0 }

/-- An environment in which the trigger changes nothing and both timestamps are obtained. -/
def okGenEnv : GenEnv := { TRIGGER := id, t0 := (1000, 0), t1 := (6000, 0) }

/-- A loop state like `zeroSampling` with the sample count set to `samples`. -/
def sampledState (frame samples : Nat) : SamplingState :=
  { zeroSampling frame with BENCH_DATA := ⟨0, 0, 0, 0, 0, samples⟩ }

/-! ## Sequences of appends and the layout of a record -/

/-- Successive appends `INT_BENCH_DUMP(PARTID, BENCH_DATA, TYPE)` to the region `TYPE`, one
for each `(PARTID, BENCH_DATA)` of the list. -/
def appendN (cfg : Config) (TYPE : DumpType) : List (Nat × int_bench_measure_t) → Mem → Mem
  | [], m => m
  | (PARTID, d) :: rest, m => appendN cfg TYPE rest (INT_BENCH_DUMP cfg PARTID d TYPE m)

/-- The `n` bytes of memory that start at address `a`. -/
def bytesAt (m : Mem) (a n : Nat) : List Nat := (List.range n).map fun i => load8 m (a + i)

/-- The value of a list of bytes read most significant byte first. -/
def beValue (bs : List Nat) : Nat := bs.foldl (fun acc b => acc * 256 + b) 0

/-- Modelled from the spec: the decoder of a dump record "using the documented record
layout" (4B partition id, 8B elapsed-time interval, 4B L2-miss delta, 4B TLB-miss delta,
20 bytes per record); the repository holds no decoder, the region is extracted with a probe.
The fields are read in the byte order of the target, most significant byte first. -/
def decodeRecord (bs : List Nat) : Option (Nat × Nat × Nat × Nat) :=
  if bs.length = 20 then
    some (beValue (bs.take 4), beValue ((bs.drop 4).take 8), beValue ((bs.drop 12).take 4),
      beValue ((bs.drop 16).take 4))
  else none

/-- The magic value of each dump region (`INT_BENCH_DUMP_<TYPE>_HEADER_MAGIC_VAL`). -/
def INT_BENCH_DUMP_HEADER_MAGIC_VAL : DumpType → List Nat
  | .PART => INT_BENCH_DUMP_PART_HEADER_MAGIC_VAL
  | .SC => INT_BENCH_DUMP_SC_HEADER_MAGIC_VAL
  | .INTINT => INT_BENCH_DUMP_INTINT_HEADER_MAGIC_VAL
  | .EXTINT => INT_BENCH_DUMP_EXTINT_HEADER_MAGIC_VAL
  | .IPI => INT_BENCH_DUMP_IPI_HEADER_MAGIC_VAL

/-- The position of a dump region in the layout: 0 for PART, then SC, INTINT, EXTINT, IPI. -/
def DumpType.index : DumpType → Nat
  | .PART => 0
  | .SC => 1
  | .INTINT => 2
  | .EXTINT => 3
  | .IPI => 4

/-- The six magic values are in memory where `INT_BENCH_DUMP_HADER` puts them. -/
def headerWritten (cfg : Config) (m : Mem) : Prop :=
  bytesAt m (INT_BENCH_DUMP_REG_HEADER_MAGIC cfg) 8 = INT_BENCH_DUMP_REG_HEADER_MAGIC_VAL ∧
  ∀ T : DumpType, bytesAt m (INT_BENCH_DUMP_MAGIC_ADDR cfg T) 4 = INT_BENCH_DUMP_HEADER_MAGIC_VAL T

/-- The calls of a generator whose two timestamps are obtained, up to the reading of the
counters: reset and enabling of counters 3 and 4, start timestamp, trigger, end timestamp,
disabling and reading of the counters. -/
def measuredCalls (trigger : Call) : List Call :=
  [.PMCDrvWrite 3 0, .PMCDrvWrite 4 0,
   .PMCDrvEnable 3 E6500_PMC_EVENT_THREAD_L2_MISS M_PMC_ALL 0,
   .PMCDrvEnable 4 E6500_PMC_EVENT_L2MMU_MISS M_PMC_ALL 0, .GET_TIME, trigger, .GET_TIME,
   .PMCDrvDisable 3, .PMCDrvDisable 4, .PMCDrvRead 3, .PMCDrvRead 4]

/-- In a trace (newest action first) every release of the lock by the elector `(0, 1)` has
the elector's `INT_BENCH_DUMP_HADER` among the older actions. -/
def releasesAfterHeader : List Ev → Prop
  | [] => True
  | ev :: older =>
    (ev = ⟨0, 1, .LockRelease⟩ → ⟨0, 1, .DUMP_HADER⟩ ∈ older) ∧ releasesAfterHeader older

/-! ## Helper definitions for the driver, the lock and the generators -/

/-- The channel a driver call names, if the call is a driver call. -/
def pmcChannel : Call → Option Nat
  | .PMCDrvWrite pmcID _ => some pmcID
  | .PMCDrvEnable pmcID _ _ _ => some pmcID
  | .PMCDrvDisable pmcID => some pmcID
  | .PMCDrvRead pmcID => some pmcID
  | _ => none

/-- The register `r` is the counter, the control word A or the control word B of channel
`ch`. -/
def channelReg (ch r : Nat) : Prop :=
  r = PMR_PMC + ch ∨ r = PMR_PMLCA + ch ∨ r = PMR_PMLCB + ch

/-- The number of times participant `(c, p)` has taken the lock in a trace: its test-and-set
calls that found the lock word at 0. -/
def acquires (tr : List Ev) (c p : Nat) : Nat :=
  tr.countP fun ev => decide (ev = ⟨c, p, .TestAndSet 0⟩)

/-- The number of times participant `(c, p)` has released the lock in a trace. -/
def releases (tr : List Ev) (c p : Nat) : Nat :=
  tr.countP fun ev => decide (ev = ⟨c, p, .LockRelease⟩)

/-- The state in which the elector has gone once through the wait loop and participant
`(0, 10)`, which the repository's mask does not name, is about to execute the OR step. -/
def foreignArrival : BarrierState :=
  runBarrier sourceConfig (arrive 0 1 ++ [(0, 10, 0), (0, 10, 0), (0, 10, 0)]) zeroState

/-- The register is none of those that the driver calls of a measurement on channels `a` and
`b` write: the two counters, their control words A and B, and the global register. -/
def untouched (a b r : Nat) : Prop :=
  r ≠ PMR_PMC + a ∧ r ≠ PMR_PMC + b ∧ r ≠ PMR_PMLCA + a ∧ r ≠ PMR_PMLCA + b ∧
  r ≠ PMR_PMLCB + a ∧ r ≠ PMR_PMLCB + b ∧ r ≠ PMR_PMGC0

/-- The register file after the four driver calls with which a measurement on channels `a`
and `b` starts: both counters reset, then both enabled (L2 miss on `a`, TLB miss on `b`). -/
def armCounters (a b : Nat) (pmr : Pmr) : Pmr :=
  (__PMCDrvEnable
    (__PMCDrvEnable (__PMCDrvWrite (__PMCDrvWrite pmr a 0).2 b 0).2 a
      E6500_PMC_EVENT_THREAD_L2_MISS M_PMC_ALL 0).2
    b E6500_PMC_EVENT_L2MMU_MISS M_PMC_ALL 0).2

/-- The register file after the two driver calls that end a measurement on channels `a` and
`b`: both counters disabled. -/
def freezeCounters (a b : Nat) (pmr : Pmr) : Pmr :=
  (__PMCDrvDisable (__PMCDrvDisable pmr a).2 b).2

/-! ## The doorbell of the IPI generator, the example partitions, the shared-memory fields -/

/-- `__IntBenchGenerateIPI` of `OSAbstractionLayer.h`, lines 220-234: the value of the 32-bit
variable `coreId` after the statement `coreId = coreId << 3;`, which is the operand the inline
assembly names for `mr 3, %0; msgsnd 3`. -/
def __IntBenchGenerateIPI (coreId : Nat) : Nat :=
  ((coreId % 2 ^ 32) <<< 3) % 2 ^ 32

/-- The `(CORE, PARTID)` arguments of `INT_BENCH_INIT(0, 0, mafCount, benchData)` in `process1`
of `Example_ApplicativePartition.c`, line 38. -/
def Example_ApplicativePartition : Nat × Nat := (0, 0)

/-- The `(CORE, PARTID)` arguments of `INT_BENCH_INIT(1, 1, mafCount, benchData)` in `process1`
of `Example_SysCallPartition.c`, line 30. -/
def Example_SysCallPartition : Nat × Nat := (1, 1)

/-- The `(CORE, PARTID)` pair selected by the guard `if(CORE == 0 && PARTID == 1)` of
`INT_BENCH_INIT`, line 96. -/
def elector : Nat × Nat := (0, 1)

/-- The bitwise OR of the ready bits `(1ULL << PARTID) << (CORE * 16)` of a list of
`(CORE, PARTID)` pairs. -/
def orBits (ps : List (Nat × Nat)) : Nat :=
  ps.foldr (fun cp m => readyBit cp.1 cp.2 ||| m) 0

/-- The byte ranges (first address, length) of the shared-memory objects that the address
macros of `OSAbstractionLayer.h` name, in address order: the `uint64_t` ready mask, the
`uint32_t` lock, the `uint32_t` wait flag, the 8-byte top-level magic and the five regions of
`INT_BENCH_DUMP_REG_SIZE` bytes each. -/
def sharedFields (cfg : Config) : List (Nat × Nat) :=
  [(INT_BENCH_RDYMASK_PTR cfg, 8), (INT_BENCH_RDYMASK_LOCK cfg, 4),
   (INT_BENCH_INT_WAIT_PTR cfg, 4), (INT_BENCH_DUMP_REG_HEADER_MAGIC cfg, 8),
   (INT_BENCH_DUMP_MAGIC_ADDR cfg .PART, INT_BENCH_DUMP_REG_SIZE),
   (INT_BENCH_DUMP_MAGIC_ADDR cfg .SC, INT_BENCH_DUMP_REG_SIZE),
   (INT_BENCH_DUMP_MAGIC_ADDR cfg .INTINT, INT_BENCH_DUMP_REG_SIZE),
   (INT_BENCH_DUMP_MAGIC_ADDR cfg .EXTINT, INT_BENCH_DUMP_REG_SIZE),
   (INT_BENCH_DUMP_MAGIC_ADDR cfg .IPI, INT_BENCH_DUMP_REG_SIZE)]

/-- Two byte ranges (first address, length) have no byte in common. -/
def disjointRanges (a b : Nat × Nat) : Prop :=
  a.1 + a.2 ≤ b.1 ∨ b.1 + b.2 ≤ a.1

instance (a b : Nat × Nat) : Decidable (disjointRanges a b) := by
  unfold disjointRanges; infer_instance

/-! ## Memory lemmas -/

theorem store8_apply (m : Mem) (a v x : Nat) :
    store8 m a v x = if x = a then v % 256 else m x := rfl

theorem load32_congr (m1 m2 : Mem) (a : Nat)
    (h : ∀ x, a ≤ x → x < a + 4 → m1 x = m2 x) : load32 m1 a = load32 m2 a := by
  unfold load32 load8
  rw [h a (by omega) (by omega), h (a + 1) (by omega) (by omega),
    h (a + 2) (by omega) (by omega), h (a + 3) (by omega) (by omega)]

theorem load64_congr (m1 m2 : Mem) (a : Nat)
    (h : ∀ x, a ≤ x → x < a + 8 → m1 x = m2 x) : load64 m1 a = load64 m2 a := by
  unfold load64
  rw [load32_congr m1 m2 a (fun x h1 h2 => h x h1 (by omega)),
    load32_congr m1 m2 (a + 4) (fun x h1 h2 => h x (by omega) (by omega))]

theorem store32_outside (m : Mem) (a v x : Nat) (h : x < a ∨ a + 4 ≤ x) :
    store32 m a v x = m x := by
  unfold store32 store8
  have h0 : x ≠ a := by omega
  have h1 : x ≠ a + 1 := by omega
  have h2 : x ≠ a + 2 := by omega
  have h3 : x ≠ a + 3 := by omega
  simp [h0, h1, h2, h3]

theorem store64_outside (m : Mem) (a v x : Nat) (h : x < a ∨ a + 8 ≤ x) :
    store64 m a v x = m x := by
  unfold store64
  rw [store32_outside _ _ _ _ (by omega), store32_outside _ _ _ _ (by omega)]

theorem memcpy_outside (m : Mem) (dst : Nat) (src : List Nat) (n x : Nat)
    (h : x < dst ∨ dst + n ≤ x) : memcpy m dst src n x = m x := by
  induction n with
  | zero => rfl
  | succ k ih =>
    have hx : x ≠ dst + k := by omega
    simp only [memcpy, store8_apply, if_neg hx]
    exact ih (by omega)

theorem load32_lt (m : Mem) (a : Nat) : load32 m a < 2 ^ 32 := by
  unfold load32 load8
  omega

theorem load64_lt (m : Mem) (a : Nat) : load64 m a < 2 ^ 64 := by
  unfold load64
  have h1 := load32_lt m a
  have h2 := load32_lt m (a + 4)
  omega

theorem load32_store32 (m : Mem) (a v : Nat) : load32 (store32 m a v) a = v % 2 ^ 32 := by
  simp [load32, store32, load8, store8]
  omega

theorem load64_store64 (m : Mem) (a v : Nat) : load64 (store64 m a v) a = v % 2 ^ 64 := by
  unfold load64 store64
  rw [load32_store32]
  rw [load32_congr (store32 (store32 m a (v / 2 ^ 32)) (a + 4) v) (store32 m a (v / 2 ^ 32)) a
    (fun x h1 h2 => store32_outside _ _ _ _ (by omega)), load32_store32]
  omega

/-! ## Effect of one barrier step on the ready mask, the lock word and the program counters -/

theorem hader_outside (cfg : Config) (m : Mem) (x : Nat)
    (h : x < cfg.INT_BENCH_SHARED_MEM_BASE + 0x1000) : INT_BENCH_DUMP_HADER cfg m x = m x := by
  simp only [INT_BENCH_DUMP_HADER]
  rw [memcpy_outside, memcpy_outside, memcpy_outside, memcpy_outside, memcpy_outside,
    memcpy_outside] <;>
  simp only [INT_BENCH_DUMP_MAGIC_ADDR, INT_BENCH_DUMP_REG_ADDR, INT_BENCH_DUMP_REG_HEADER_MAGIC,
    INT_BENCH_DUMP_REG_HEADER_ADDR, INT_BENCH_DUMP_REG_SIZE] <;> omega

theorem rdyMask_store_lock (cfg : Config) (m : Mem) (v : Nat) :
    rdyMask cfg (store32 m (INT_BENCH_RDYMASK_LOCK cfg) v) = rdyMask cfg m := by
  unfold rdyMask
  apply load64_congr
  intro x h1 h2
  apply store32_outside
  simp only [INT_BENCH_RDYMASK_LOCK, INT_BENCH_RDYMASK_PTR] at *
  omega

theorem lockWord_store_lock (cfg : Config) (m : Mem) (v : Nat) :
    lockWord cfg (store32 m (INT_BENCH_RDYMASK_LOCK cfg) v) = v % 2 ^ 32 := by
  unfold lockWord
  exact load32_store32 _ _ _

theorem rdyMask_store_mask (cfg : Config) (m : Mem) (v : Nat) :
    rdyMask cfg (store64 m (INT_BENCH_RDYMASK_PTR cfg) v) = v % 2 ^ 64 := by
  unfold rdyMask
  exact load64_store64 _ _ _

theorem lockWord_store_mask (cfg : Config) (m : Mem) (v : Nat) :
    lockWord cfg (store64 m (INT_BENCH_RDYMASK_PTR cfg) v) = lockWord cfg m := by
  unfold lockWord
  apply load32_congr
  intro x h1 h2
  apply store64_outside
  simp only [INT_BENCH_RDYMASK_LOCK, INT_BENCH_RDYMASK_PTR] at *
  omega

theorem rdyMask_hader (cfg : Config) (m : Mem) :
    rdyMask cfg (INT_BENCH_DUMP_HADER cfg m) = rdyMask cfg m := by
  unfold rdyMask
  apply load64_congr
  intro x h1 h2
  apply hader_outside
  simp only [INT_BENCH_RDYMASK_PTR] at *
  omega

theorem lockWord_hader (cfg : Config) (m : Mem) :
    lockWord cfg (INT_BENCH_DUMP_HADER cfg m) = lockWord cfg m := by
  unfold lockWord
  apply load32_congr
  intro x h1 h2
  apply hader_outside
  simp only [INT_BENCH_RDYMASK_LOCK] at *
  omega

theorem readyBit_lt (c p : Nat) : readyBit c p < 2 ^ 64 := by
  unfold readyBit
  exact Nat.mod_lt _ (by norm_num)

theorem rdyMask_lt (cfg : Config) (m : Mem) : rdyMask cfg m < 2 ^ 64 := load64_lt _ _

theorem step_loc_other (cfg : Config) (c p e : Nat) (s : BarrierState) (c2 p2 : Nat)
    (h : ¬(c2 = c ∧ p2 = p)) : (INT_BENCH_INIT_step cfg c p e s).loc c2 p2 = s.loc c2 p2 := by
  cases hpc : (s.loc c p).pc <;> simp only [INT_BENCH_INIT_step, hpc] <;>
    first
      | rfl
      | (split <;> simp only [setLoc, if_neg h])
      | simp only [setLoc, if_neg h]

theorem step_pc (cfg : Config) (c p e : Nat) (s : BarrierState) :
    ((INT_BENCH_INIT_step cfg c p e s).loc c p).pc =
      nextPC cfg.INT_BENCH_RDYMASK_VAL (s.loc c p).pc (rdyMask cfg s.mem) (lockWord cfg s.mem) := by
  cases hpc : (s.loc c p).pc <;> simp only [INT_BENCH_INIT_step, hpc, nextPC]
  case L95 => split <;> simp [setLoc]
  case L101 => split <;> simp [setLoc, *]
  all_goals simp [setLoc, __TestAndSet, lockWord]

theorem step_mask (cfg : Config) (c p e : Nat) (s : BarrierState) :
    rdyMask cfg (INT_BENCH_INIT_step cfg c p e s).mem =
      nextMask c p (s.loc c p).pc (rdyMask cfg s.mem) := by
  cases hpc : (s.loc c p).pc <;> simp only [INT_BENCH_INIT_step, hpc]
  case L94 => exact rdyMask_store_lock cfg s.mem 1
  case L112 => exact rdyMask_store_lock cfg s.mem 1
  case L105 => exact rdyMask_store_lock cfg s.mem 0
  case L115 => exact rdyMask_store_lock cfg s.mem 0
  case L95 =>
    simp only [nextMask]
    split
    · simp only [rdyMask_store_mask]
      norm_num
    · rfl
  case L101 => split <;> rfl
  case L103 =>
    simp only [nextMask, rdyMask_store_mask]
    exact Nat.mod_eq_of_lt (Nat.or_lt_two_pow (rdyMask_lt _ _) (readyBit_lt _ _))
  all_goals rfl

theorem step_lock (cfg : Config) (c p e : Nat) (s : BarrierState) :
    lockWord cfg (INT_BENCH_INIT_step cfg c p e s).mem =
      nextLock (s.loc c p).pc (lockWord cfg s.mem) := by
  cases hpc : (s.loc c p).pc <;> simp only [INT_BENCH_INIT_step, hpc]
  case L94 => exact lockWord_store_lock cfg s.mem 1
  case L112 => exact lockWord_store_lock cfg s.mem 1
  case L105 => exact lockWord_store_lock cfg s.mem 0
  case L115 => exact lockWord_store_lock cfg s.mem 0
  case L95 =>
    simp only [nextLock]
    split
    · simp only [lockWord_store_mask, lockWord_hader]
    · rfl
  case L101 => split <;> rfl
  case L103 => exact lockWord_store_mask cfg s.mem _
  all_goals rfl

theorem step_trace (cfg : Config) (c p e : Nat) (s : BarrierState) :
    (INT_BENCH_INIT_step cfg c p e s).trace =
      (stepActions c p e (s.loc c p).pc (lockWord cfg s.mem)).map (Ev.mk c p) ++ s.trace := by
  cases hpc : (s.loc c p).pc <;> simp only [INT_BENCH_INIT_step, hpc, stepActions]
  case L95 => split <;> rfl
  case L101 => split <;> rfl
  case L106 => split <;> rfl
  all_goals rfl

theorem step_mem_outside (cfg : Config) (c p e : Nat) (s : BarrierState) (x : Nat)
    (hx : INT_BENCH_RDYMASK_LOCK cfg + 4 ≤ x) (hne : ¬(0 = c ∧ p = 1)) :
    (INT_BENCH_INIT_step cfg c p e s).mem x = s.mem x := by
  have h8 : cfg.INT_BENCH_SHARED_MEM_BASE + 8 + 4 ≤ x := hx
  cases hpc : (s.loc c p).pc <;>
    simp only [INT_BENCH_INIT_step, hpc, __TestAndSet, __LockRelease, INT_BENCH_RDYMASK_LOCK,
      INT_BENCH_RDYMASK_PTR, if_neg hne]
  case L101 => split <;> rfl
  case L103 => exact store64_outside _ _ _ _ (by omega)
  all_goals exact store32_outside _ _ _ _ (by omega)

theorem reach_trans (cfg : Config) (ps : List (Nat × Nat)) (s0 s1 s2 : BarrierState)
    (h1 : Reach cfg ps s0 s1) (h2 : Reach cfg ps s1 s2) : Reach cfg ps s0 s2 := by
  induction h2 with
  | start => exact h1
  | step s c p e _ hm ih => exact Reach.step s c p e ih hm

theorem reach_run (cfg : Config) (ps : List (Nat × Nat)) (sched : List (Nat × Nat × Nat))
    (s : BarrierState) (h : ∀ x ∈ sched, (x.1, x.2.1) ∈ ps) :
    Reach cfg ps s (runBarrier cfg sched s) := by
  induction sched generalizing s with
  | nil => exact Reach.start
  | cons x rest ih =>
    obtain ⟨c, p, e⟩ := x
    have h1 : Reach cfg ps s (INT_BENCH_INIT_step cfg c p e s) :=
      Reach.step s c p e Reach.start (h (c, p, e) (List.mem_cons_self _ _))
    exact reach_trans cfg ps s _ _ h1
      (ih (INT_BENCH_INIT_step cfg c p e s) (fun x hx => h x (List.mem_cons_of_mem _ hx)))

/-! ## The ready bit of a participant -/

theorem readyBit_eq (c p : Nat) (h : c * 16 + p < 64) : readyBit c p = 2 ^ (c * 16 + p) := by
  unfold readyBit
  have hp : 2 ^ p < 2 ^ 64 := Nat.pow_lt_pow_right (by norm_num) (by omega)
  have hcp : 2 ^ (c * 16 + p) < 2 ^ 64 := Nat.pow_lt_pow_right (by norm_num) h
  rw [Nat.one_shiftLeft, Nat.mod_eq_of_lt hp, Nat.shiftLeft_eq, ← pow_add, Nat.add_comm p,
    Nat.mod_eq_of_lt hcp]

theorem testBit_or_readyBit (mask c p i : Nat) (h : c * 16 + p < 64) :
    (mask ||| readyBit c p).testBit i = (mask.testBit i || decide (i = c * 16 + p)) := by
  rw [Nat.testBit_or, readyBit_eq c p h, Nat.testBit_two_pow]
  congr 1
  simp only [eq_comm]

/-- Where the statement at line 103 leaves the mask. -/
theorem step_L103_mask (cfg : Config) (c p e : Nat) (s : BarrierState)
    (hpc : (s.loc c p).pc = .L103) :
    rdyMask cfg (INT_BENCH_INIT_step cfg c p e s).mem = rdyMask cfg s.mem ||| readyBit c p := by
  rw [step_mask, hpc]
  rfl

/-- Where the statement at line 95 leaves the mask when the elector executes it. -/
theorem step_L95_elector_mask (cfg : Config) (e : Nat) (s : BarrierState)
    (hpc : (s.loc 0 1).pc = .L95) :
    rdyMask cfg (INT_BENCH_INIT_step cfg 0 1 e s).mem = 1 := by
  rw [step_mask, hpc]
  rfl

/-! ## Invariants of barrier runs -/

theorem stepActions_seed (c p e : Nat) (pc : PC) (lock : Nat) (a : Action)
    (ha : a ∈ stepActions c p e pc lock) (hs : a = .DUMP_HADER ∨ a = .maskSeed) :
    pc = .L95 ∧ 0 = c ∧ p = 1 := by
  cases pc <;> simp only [stepActions] at ha
  case L95 =>
    by_cases h : 0 = c ∧ p = 1
    · exact ⟨rfl, h⟩
    · simp [h] at ha
  case L106 =>
    split at ha <;> rcases hs with hs | hs <;> subst hs <;> simp at ha
  all_goals rcases hs with hs | hs <;> subst hs <;> simp at ha

theorem nextPC_past_seed (target : Nat) (pc : PC) (mask lock : Nat)
    (h : pc ≠ .L94 ∧ pc ≠ .L95) :
    nextPC target pc mask lock ≠ .L94 ∧ nextPC target pc mask lock ≠ .L95 := by
  cases pc <;> simp only [nextPC] <;> first | (exfalso; simp at h; done) | (split <;> simp) | simp

theorem nextPC_pre_seed (target : Nat) (pc : PC) (mask lock : Nat)
    (h : nextPC target pc mask lock ≠ .L94 ∧ nextPC target pc mask lock ≠ .L95) :
    pc ≠ .L94 := by
  rintro rfl
  simp only [nextPC] at h
  split at h <;> simp at h

/-- In a run from an initial state the header and seed actions are the elector's, and the
elector has performed both exactly when it is past line 95. -/
theorem seed_inv (cfg : Config) (ps : List (Nat × Nat)) (s0 s : BarrierState)
    (h0 : BarrierStart cfg s0) (hr : Reach cfg ps s0 s) :
    (∀ ev ∈ s.trace, ev.act = .DUMP_HADER ∨ ev.act = .maskSeed → ev.core = 0 ∧ ev.partid = 1) ∧
    (((s.loc 0 1).pc ≠ .L94 ∧ (s.loc 0 1).pc ≠ .L95) ↔ ⟨0, 1, .maskSeed⟩ ∈ s.trace) ∧
    (⟨0, 1, .maskSeed⟩ ∈ s.trace ↔ ⟨0, 1, .DUMP_HADER⟩ ∈ s.trace) := by
  induction hr with
  | start =>
    obtain ⟨-, -, hpc, htr⟩ := h0
    rw [htr]
    refine ⟨by simp, ?_, by simp⟩
    simp [hpc 0 1]
  | step s c p e _ _ ih =>
    obtain ⟨ih1, ih2, ih3⟩ := ih
    have htr := step_trace cfg c p e s
    refine ⟨?_, ?_, ?_⟩
    · intro ev hev hact
      rw [htr, List.mem_append, List.mem_map] at hev
      rcases hev with ⟨a, ha, rfl⟩ | hev
      · obtain ⟨-, hc, hp⟩ := stepActions_seed c p e _ _ a ha hact
        exact ⟨hc.symm, hp⟩
      · exact ih1 ev hev hact
    · by_cases hcp : 0 = c ∧ p = 1
      · obtain ⟨rfl, rfl⟩ := hcp
        rw [step_pc, htr, List.mem_append, List.mem_map]
        constructor
        · intro hpast
          by_cases h95 : (s.loc 0 1).pc = .L95
          · left
            exact ⟨.maskSeed, by simp [h95, stepActions], rfl⟩
          · right
            exact ih2.1 ⟨nextPC_pre_seed _ _ _ _ hpast, h95⟩
        · rintro (⟨a, ha, hev⟩ | hold)
          · have ha2 : a = .maskSeed := by
              have := congrArg Ev.act hev
              simpa using this
            obtain ⟨h95, -⟩ := stepActions_seed 0 1 e _ _ a ha (Or.inr ha2)
            rw [h95]
            simp [nextPC]
          · exact nextPC_past_seed _ _ _ _ (ih2.2 hold)
      · have hne : ¬(0 = c ∧ 1 = p) := fun h => hcp ⟨h.1, h.2.symm⟩
        rw [step_loc_other cfg c p e s 0 1 hne, htr, List.mem_append, List.mem_map, ih2]
        constructor
        · exact Or.inr
        · rintro (⟨a, ha, hev⟩ | hold)
          · exfalso
            have hc : c = 0 := congrArg Ev.core hev
            have hp : p = 1 := congrArg Ev.partid hev
            exact hcp ⟨hc.symm, hp⟩
          · exact hold
    · rw [htr, List.mem_append, List.mem_append, List.mem_map, List.mem_map, ih3]
      constructor
      · rintro (⟨a, ha, hev⟩ | hold)
        · have hc : c = 0 := congrArg Ev.core hev
          have hp : p = 1 := congrArg Ev.partid hev
          have ha2 : a = .maskSeed := by
            have := congrArg Ev.act hev
            simpa using this
          obtain ⟨h95, -⟩ := stepActions_seed c p e _ _ a ha (Or.inr ha2)
          left
          refine ⟨.DUMP_HADER, ?_, by rw [hc, hp]⟩
          rw [h95, hc, hp]
          simp [stepActions]
        · exact Or.inr hold
      · rintro (⟨a, ha, hev⟩ | hold)
        · have hc : c = 0 := congrArg Ev.core hev
          have hp : p = 1 := congrArg Ev.partid hev
          have ha2 : a = .DUMP_HADER := by
            have := congrArg Ev.act hev
            simpa using this
          obtain ⟨h95, -⟩ := stepActions_seed c p e _ _ a ha (Or.inl ha2)
          left
          refine ⟨.maskSeed, ?_, by rw [hc, hp]⟩
          rw [h95, hc, hp]
          simp [stepActions]
        · exact Or.inr hold

theorem nextPC_past (target : Nat) (pc : PC) (mask lock : Nat) (h : pastBarrier pc = true) :
    pastBarrier (nextPC target pc mask lock) = true := by
  cases pc <;> simp [pastBarrier] at h <;> simp [nextPC, pastBarrier]

theorem stepActions_past (c p e : Nat) (pc : PC) (lock : Nat) (h : pastBarrier pc = true)
    (a : Action) (ha : a ∈ stepActions c p e pc lock) : a = .LockRelease ∨ a = .resetCounters := by
  cases pc <;> simp [pastBarrier] at h <;> simp [stepActions] at ha <;> simp [ha]

/-- Once a participant is out of the wait loop it stays out, whatever the schedule, and the
only actions it still performs are the release of the lock and the reset of its counters. -/
theorem past_barrier_actions (cfg : Config) (c p : Nat) (sched : List (Nat × Nat × Nat))
    (s : BarrierState) (h : pastBarrier (s.loc c p).pc = true) :
    pastBarrier ((runBarrier cfg sched s).loc c p).pc = true ∧
    ∃ new, (runBarrier cfg sched s).trace = new ++ s.trace ∧
      ∀ ev ∈ new, ev.core = c → ev.partid = p →
        ev.act = .LockRelease ∨ ev.act = .resetCounters := by
  induction sched generalizing s with
  | nil => exact ⟨h, [], rfl, by simp⟩
  | cons x rest ih =>
    obtain ⟨c2, p2, e⟩ := x
    have hnext : pastBarrier ((INT_BENCH_INIT_step cfg c2 p2 e s).loc c p).pc = true := by
      by_cases hcp : c = c2 ∧ p = p2
      · obtain ⟨rfl, rfl⟩ := hcp
        rw [step_pc]
        exact nextPC_past _ _ _ _ h
      · rw [step_loc_other cfg c2 p2 e s c p hcp]
        exact h
    obtain ⟨hp, new, hnew, hev⟩ := ih (INT_BENCH_INIT_step cfg c2 p2 e s) hnext
    refine ⟨hp, new ++ (stepActions c2 p2 e (s.loc c2 p2).pc (lockWord cfg s.mem)).map
      (Ev.mk c2 p2), ?_, ?_⟩
    · show (runBarrier cfg rest (INT_BENCH_INIT_step cfg c2 p2 e s)).trace = _
      rw [hnew, step_trace, List.append_assoc]
    · intro ev hmem hc hp2
      rw [List.mem_append, List.mem_map] at hmem
      rcases hmem with hmem | ⟨a, ha, rfl⟩
      · exact hev ev hmem hc hp2
      · have hc2 : c2 = c := hc
        have hp3 : p2 = p := hp2
        subst hc2 hp3
        exact stepActions_past _ _ _ _ _ h a ha

theorem step_keeps_bits (cfg : Config) (c p e i : Nat) (s : BarrierState)
    (h : ¬((s.loc c p).pc = .L95 ∧ 0 = c ∧ p = 1))
    (hi : (rdyMask cfg s.mem).testBit i = true) :
    (rdyMask cfg (INT_BENCH_INIT_step cfg c p e s).mem).testBit i = true := by
  rw [step_mask]
  cases hpc : (s.loc c p).pc <;> simp only [nextMask] <;> try exact hi
  · have hne : ¬(0 = c ∧ p = 1) := fun h2 => h ⟨hpc, h2⟩
    rw [if_neg hne]
    exact hi
  · rw [Nat.testBit_or, hi]
    rfl

theorem elector_stays_past_seed (cfg : Config) (c p e : Nat) (s : BarrierState)
    (h : (s.loc 0 1).pc ≠ .L94 ∧ (s.loc 0 1).pc ≠ .L95) :
    ((INT_BENCH_INIT_step cfg c p e s).loc 0 1).pc ≠ .L94 ∧
    ((INT_BENCH_INIT_step cfg c p e s).loc 0 1).pc ≠ .L95 := by
  by_cases hcp : 0 = c ∧ 1 = p
  · obtain ⟨rfl, rfl⟩ := hcp
    rw [step_pc]
    exact nextPC_past_seed _ _ _ _ h
  · rw [step_loc_other cfg c p e s 0 1 hcp]
    exact h

/-! ## The three-participant system, checked exhaustively on its abstract view -/

set_option maxRecDepth 1000000 in
theorem check3_ok : check3 24 = true := by decide!

theorem mem_allPC (pc : PC) : pc ∈ allPC := by
  cases pc <;> simp [allPC]

theorem lockOk_lock (h0 h1 h2 : Bool) (lock : Nat) (h : lockOk h0 h1 h2 lock = true) :
    lock ∈ [0, 1] := by
  cases h0 <;> cases h1 <;> cases h2 <;> simp [lockOk] at h <;> simp [h]

theorem inv3_mask_lock (a : Abs3) (h : inv3 a = true) :
    lockOk (holdsLock a.pc0) (holdsLock a.pc1) (holdsLock a.pc2) a.lock = true ∧
    a.mask ∈ allMask3 := by
  simp only [inv3, Bool.and_eq_true] at h
  obtain ⟨⟨hl, hm⟩, -⟩ := h
  refine ⟨hl, ?_⟩
  simp only [allMask3, List.mem_cons, List.mem_singleton]
  cases hp : preSeed a.pc1 <;> rw [hp] at hm <;>
    simp only [cond_true, cond_false, Bool.or_eq_true, Nat.beq_eq] at hm <;> omega

/-- What the exhaustive check establishes for every abstract state. -/
theorem checkState3_all (a : Abs3) (h : inv3 a = true) : checkState3 24 a = true := by
  have hc := check3_ok
  obtain ⟨hl, hm⟩ := inv3_mask_lock a h
  simp only [check3, List.all_eq_true, Bool.or_eq_true, Bool.not_eq_true'] at hc
  rcases hc a.pc0 (mem_allPC _) a.pc1 (mem_allPC _) a.pc2 (mem_allPC _) a.lock
    (lockOk_lock _ _ _ _ hl) with hc | hc
  · rw [hl] at hc
    exact absurd hc (by decide)
  · exact hc a.mask hm

theorem beq_false_of_ne (a b : Nat) (h : a ≠ b) : Nat.beq a b = false := by
  cases hb : Nat.beq a b
  · rfl
  · exact absurd (Nat.eq_of_beq_eq_true hb) h

theorem fastPC_eq (target : Nat) (pc : PC) (mask lock : Nat) :
    fastPC pc (Nat.beq mask target) (Nat.beq lock 0) = nextPC target pc mask lock := by
  cases pc <;> simp only [fastPC, nextPC]
  · by_cases h : lock = 0
    · simp [h]
    · have : Nat.beq lock 0 = false := beq_false_of_ne _ _ h
      simp [this, h, Ne.symm h]
  · by_cases h : mask = target
    · simp [h]
    · have : Nat.beq mask target = false := beq_false_of_ne _ _ h
      simp [this, h, Ne.symm h]
  · by_cases h : lock = 0
    · simp [h]
    · have : Nat.beq lock 0 = false := beq_false_of_ne _ _ h
      simp [this, h, Ne.symm h]

theorem fastStep3_eq (i : Nat) (a : Abs3) : fastStep3 i a = absStep3 i a := by
  match i with
  | 0 =>
    simp only [fastStep3, absStep3, fastPC_eq]
    congr 1
  | 1 =>
    simp only [fastStep3, absStep3, fastPC_eq]
    congr 1
  | n + 2 =>
    simp only [fastStep3, absStep3, fastPC_eq]
    congr 1

theorem inv3_step (a : Abs3) (i : Nat) (h : inv3 a = true) : inv3 (absStep3 i a) = true := by
  have hc := checkState3_all a h
  simp only [checkState3, h, Bool.not_true, Bool.false_or, Bool.and_eq_true] at hc
  obtain ⟨⟨⟨⟨h0, h1⟩, h2⟩, -⟩, -⟩ := hc
  rw [← fastStep3_eq]
  match i with
  | 0 => exact h0
  | 1 => exact h1
  | n + 2 => exact h2

theorem full_step (a : Abs3) (i : Nat) (h : inv3 a = true) (hm : a.mask = 0x20003) :
    (absStep3 i a).mask = 0x20003 := by
  have hc := checkState3_all a h
  simp only [checkState3, h, Bool.not_true, Bool.false_or, Bool.and_eq_true, Bool.or_eq_true,
    Bool.not_eq_true', Nat.beq_eq] at hc
  obtain ⟨⟨-, hf⟩, -⟩ := hc
  rw [← fastStep3_eq]
  rcases hf with hf | hf
  · have : Nat.beq a.mask 0x20003 = true := by simp [hm]
    rw [this] at hf
    exact absurd hf (by decide)
  · match i with
    | 0 => exact hf.1.1
    | 1 => exact hf.1.2
    | n + 2 => exact hf.2

theorem doneWithin3_inv (a : Abs3) (h : inv3 a = true) : doneWithin3 24 a = true := by
  have hc := checkState3_all a h
  simp only [checkState3, h, Bool.not_true, Bool.false_or, Bool.and_eq_true] at hc
  exact hc.2

/-- The index of a participant of the three-participant system. -/
theorem three_cases (c p : Nat) (h : (c, p) ∈ three) :
    (c = 0 ∧ p = 0) ∨ (c = 0 ∧ p = 1) ∨ (c = 1 ∧ p = 1) := by
  simpa [three] using h

theorem abs3_step (cfg : Config) (e : Nat) (s : BarrierState)
    (ht : cfg.INT_BENCH_RDYMASK_VAL = 0x20003) :
    abs3 cfg (INT_BENCH_INIT_step cfg 0 0 e s) = absStep3 0 (abs3 cfg s) ∧
    abs3 cfg (INT_BENCH_INIT_step cfg 0 1 e s) = absStep3 1 (abs3 cfg s) ∧
    abs3 cfg (INT_BENCH_INIT_step cfg 1 1 e s) = absStep3 2 (abs3 cfg s) := by
  refine ⟨?_, ?_, ?_⟩
  · simp only [abs3, absStep3]
    rw [step_pc, step_mask, step_lock, step_loc_other cfg 0 0 e s 0 1 (by decide),
      step_loc_other cfg 0 0 e s 1 1 (by decide), ht]
  · simp only [abs3, absStep3]
    rw [step_pc, step_mask, step_lock, step_loc_other cfg 0 1 e s 0 0 (by decide),
      step_loc_other cfg 0 1 e s 1 1 (by decide), ht]
  · simp only [abs3, absStep3]
    rw [step_pc, step_mask, step_lock, step_loc_other cfg 1 1 e s 0 0 (by decide),
      step_loc_other cfg 1 1 e s 0 1 (by decide), ht]

theorem inv3_start (cfg : Config) (s : BarrierState) (h : BarrierStart cfg s) :
    inv3 (abs3 cfg s) = true := by
  obtain ⟨hm, hl, hpc, -⟩ := h
  simp only [abs3, hm, hl, hpc]
  decide

theorem inv3_reach (cfg : Config) (s0 s : BarrierState)
    (ht : cfg.INT_BENCH_RDYMASK_VAL = 0x20003) (h0 : inv3 (abs3 cfg s0) = true)
    (hr : Reach cfg three s0 s) : inv3 (abs3 cfg s) = true := by
  induction hr with
  | start => exact h0
  | step s1 c p e _ hm ih =>
    obtain ⟨h1, h2, h3⟩ := abs3_step cfg e s1 ht
    rcases three_cases c p hm with ⟨rfl, rfl⟩ | ⟨rfl, rfl⟩ | ⟨rfl, rfl⟩
    · rw [h1]
      exact inv3_step _ 0 ih
    · rw [h2]
      exact inv3_step _ 1 ih
    · rw [h3]
      exact inv3_step _ 2 ih

theorem step_done (cfg : Config) (c p e : Nat) (s : BarrierState)
    (h : (s.loc c p).pc = .done) : INT_BENCH_INIT_step cfg c p e s = s := by
  simp only [INT_BENCH_INIT_step, h]

theorem roundRobin_done (cfg : Config) (n : Nat) (s : BarrierState)
    (h : allDone3 (abs3 cfg s) = true) : runBarrier cfg (roundRobinSchedule n) s = s := by
  simp only [allDone3, abs3, Bool.and_eq_true] at h
  obtain ⟨⟨h0, h1⟩, h2⟩ := h
  have d0 : (s.loc 0 0).pc = .done := by
    cases hpc : (s.loc 0 0).pc <;> rw [hpc] at h0 <;> simp [isDone] at h0 ⊢
  have d1 : (s.loc 0 1).pc = .done := by
    cases hpc : (s.loc 0 1).pc <;> rw [hpc] at h1 <;> simp [isDone] at h1 ⊢
  have d2 : (s.loc 1 1).pc = .done := by
    cases hpc : (s.loc 1 1).pc <;> rw [hpc] at h2 <;> simp [isDone] at h2 ⊢
  induction n with
  | zero => rfl
  | succ k ih =>
    simp only [roundRobinSchedule, runBarrier]
    rw [step_done cfg 0 0 0 s d0, step_done cfg 0 1 0 s d1, step_done cfg 1 1 0 s d2]
    exact ih

theorem doneWithin3_run (cfg : Config) (n : Nat) (s : BarrierState)
    (ht : cfg.INT_BENCH_RDYMASK_VAL = 0x20003) (h : doneWithin3 n (abs3 cfg s) = true) :
    allDone3 (abs3 cfg (runBarrier cfg (roundRobinSchedule n) s)) = true := by
  induction n generalizing s with
  | zero => exact h
  | succ k ih =>
    simp only [doneWithin3, Bool.or_eq_true] at h
    rcases h with h | h
    · rw [roundRobin_done cfg (k + 1) s h]
      exact h
    · simp only [roundRobinSchedule, runBarrier]
      apply ih
      rw [(abs3_step cfg 0 _ ht).2.2, (abs3_step cfg 0 _ ht).2.1, (abs3_step cfg 0 _ ht).1,
        ← fastStep3_eq, ← fastStep3_eq, ← fastStep3_eq]
      exact h

theorem roundRobinSchedule_mem (n : Nat) :
    ∀ x ∈ roundRobinSchedule n, (x.1, x.2.1) ∈ three := by
  induction n with
  | zero => simp [roundRobinSchedule]
  | succ k ih =>
    intro x hx
    simp only [roundRobinSchedule, List.mem_cons] at hx
    rcases hx with rfl | rfl | rfl | hx
    · decide
    · decide
    · decide
    · exact ih x hx

theorem oredSinceSeed_skip (c p c2 p2 : Nat) (acts : List Action) (tr : List Ev)
    (h : ∀ a ∈ acts, a ≠ .maskSeed ∧ a ≠ .maskOr) :
    oredSinceSeed c p (acts.map (Ev.mk c2 p2) ++ tr) = oredSinceSeed c p tr := by
  induction acts with
  | nil => rfl
  | cons a rest ih =>
    obtain ⟨h1, h2⟩ := h a (List.mem_cons_self _ _)
    have hne : (Ev.mk c2 p2 a) ≠ ⟨c, p, .maskOr⟩ := by
      intro heq
      exact h2 (congrArg Ev.act heq)
    simp only [List.map_cons, List.cons_append, oredSinceSeed, if_neg h1, if_neg hne]
    exact ih (fun b hb => h b (List.mem_cons_of_mem _ hb))

/-- A participant that has executed its OR step since the last seeding of the mask has its
bit set in the mask. -/
theorem ored_inv (cfg : Config) (ps : List (Nat × Nat)) (s0 s : BarrierState) (c p : Nat)
    (h0 : BarrierStart cfg s0) (hr : Reach cfg ps s0 s) (hcp : c * 16 + p < 64)
    (ho : oredSinceSeed c p s.trace = true) :
    (rdyMask cfg s.mem).testBit (c * 16 + p) = true := by
  induction hr with
  | start =>
    obtain ⟨-, -, -, htr⟩ := h0
    rw [htr] at ho
    simp [oredSinceSeed] at ho
  | step s1 c2 p2 e _ _ ih =>
    rw [step_trace] at ho
    by_cases hseed : (s1.loc c2 p2).pc = .L95 ∧ 0 = c2 ∧ p2 = 1
    · exfalso
      obtain ⟨h95, hc, hp⟩ := hseed
      rw [h95] at ho
      simp [stepActions, hc, hp, oredSinceSeed] at ho
    · by_cases hor : (s1.loc c2 p2).pc = .L103
      · rw [hor] at ho
        simp only [stepActions, List.map_cons, List.map_nil, List.cons_append, List.nil_append,
          oredSinceSeed] at ho
        by_cases heq : c2 = c ∧ p2 = p
        · obtain ⟨rfl, rfl⟩ := heq
          rw [step_L103_mask cfg c2 p2 e s1 hor, testBit_or_readyBit _ _ _ _ hcp]
          simp
        · have hne : (Ev.mk c2 p2 Action.maskOr) ≠ ⟨c, p, .maskOr⟩ := by
            intro h
            exact heq ⟨congrArg Ev.core h, congrArg Ev.partid h⟩
          simp only [if_neg hne] at ho
          exact step_keeps_bits cfg c2 p2 e _ s1 hseed (ih (by simpa using ho))
      · have hskip : ∀ a ∈ stepActions c2 p2 e (s1.loc c2 p2).pc (lockWord cfg s1.mem),
            a ≠ .maskSeed ∧ a ≠ .maskOr := by
          intro a ha
          constructor
          · rintro rfl
            exact hseed (stepActions_seed _ _ _ _ _ _ ha (Or.inr rfl))
          · rintro rfl
            revert ha
            cases hpc : (s1.loc c2 p2).pc <;> simp [stepActions] <;> first
              | exact absurd hpc hor
              | (split <;> simp)
        rw [oredSinceSeed_skip c p c2 p2 _ _ hskip] at ho
        exact step_keeps_bits cfg c2 p2 e _ s1 hseed (ih ho)

/-! ## Claims about the barrier -/

/-- C4. Evaluation of the elector's initialization (lines 95-99) on the state in which the
elector `(0, 1)` has just taken the lock: the ready mask it stores is `0x1`, which is the bit
of participant `(0, 0)`; the elector's own bit, bit `0 * 16 + 1`, is clear in it. -/
theorem elector_seed_is_not_own_bit :
    ((runBarrier sourceConfig [(0, 1, 0)] zeroState).loc 0 1).pc = .L95 ∧
    rdyMask sourceConfig (runBarrier sourceConfig [(0, 1, 0), (0, 1, 0)] zeroState).mem = 1 ∧
    (rdyMask sourceConfig
      (runBarrier sourceConfig [(0, 1, 0), (0, 1, 0)] zeroState).mem).testBit (0 * 16 + 1)
        = false ∧
    rdyMask sourceConfig (runBarrier sourceConfig [(0, 1, 0), (0, 1, 0)] zeroState).mem
      = readyBit 0 0 ∧
    rdyMask sourceConfig (runBarrier sourceConfig [(0, 1, 0), (0, 1, 0)] zeroState).mem
      ≠ readyBit 0 1 := by
  decide!

/-- C5. The initialization executed by the elector core 0 / partition 1 stores exactly
`0x0000000000000001` in the ready mask, a value whose only set bit is bit 0; and the OR step of
participant core 0 / partition 0 sets bit 0 and changes no other bit. -/
theorem scenario_seed (cfg : Config) (e1 e2 i : Nat) (s1 s2 : BarrierState)
    (h1 : (s1.loc 0 1).pc = .L95) (h2 : (s2.loc 0 0).pc = .L103) :
    rdyMask cfg (INT_BENCH_INIT_step cfg 0 1 e1 s1).mem = 0x0000000000000001 ∧
    (0x0000000000000001 : Nat).testBit i = decide (i = 0) ∧
    (rdyMask cfg (INT_BENCH_INIT_step cfg 0 0 e2 s2).mem).testBit i =
      ((rdyMask cfg s2.mem).testBit i || decide (i = 0)) := by
  refine ⟨step_L95_elector_mask cfg e1 s1 h1, ?_, ?_⟩
  · have h := @Nat.testBit_two_pow 0 i
    simpa [eq_comm] using h
  · rw [step_L103_mask cfg 0 0 e2 s2 h2]
    simpa using testBit_or_readyBit (rdyMask cfg s2.mem) 0 0 i (by norm_num)

/-- Witness for C5: the elector after taking the lock on zeroed memory, and participant
`(0, 0)` after its check at line 101. -/
theorem scenario_seed_witness :
    rdyMask sourceConfig (INT_BENCH_INIT_step sourceConfig 0 1 0
      (runBarrier sourceConfig [(0, 1, 0)] zeroState)).mem = 0x0000000000000001 ∧
    (0x0000000000000001 : Nat).testBit 0 = decide (0 = 0) ∧
    (rdyMask sourceConfig (INT_BENCH_INIT_step sourceConfig 0 0 0
      (runBarrier sourceConfig [(0, 0, 0), (0, 0, 0), (0, 0, 0)] zeroState)).mem).testBit 0 =
      ((rdyMask sourceConfig
        (runBarrier sourceConfig [(0, 0, 0), (0, 0, 0), (0, 0, 0)] zeroState).mem).testBit 0
          || decide (0 = 0)) :=
  scenario_seed sourceConfig 0 0 0 (runBarrier sourceConfig [(0, 1, 0)] zeroState)
    (runBarrier sourceConfig [(0, 0, 0), (0, 0, 0), (0, 0, 0)] zeroState) (by decide) (by decide)

/-- C8. The OR step (line 103) of participant `(core, partition)` with `core < 4` and
`partition < 16` sets bit `core * 16 + partition` of the ready mask and changes no other bit;
the bit index is below 64, and two such pairs with the same bit index are the same pair. -/
theorem ready_bit_position (cfg : Config) (core partition core2 partition2 e i : Nat)
    (s : BarrierState) (hc : core < 4) (hp : partition < 16)
    (hp2 : partition2 < 16) (hpc : (s.loc core partition).pc = .L103) :
    (rdyMask cfg (INT_BENCH_INIT_step cfg core partition e s).mem).testBit i =
      ((rdyMask cfg s.mem).testBit i || decide (i = core * 16 + partition)) ∧
    core * 16 + partition < 64 ∧
    (core * 16 + partition = core2 * 16 + partition2 → core = core2 ∧ partition = partition2) := by
  refine ⟨?_, by omega, fun h => by omega⟩
  rw [step_L103_mask cfg core partition e s hpc]
  exact testBit_or_readyBit _ _ _ _ (by omega)

/-- Witness for C8: participant `(1, 1)` at its OR step on zeroed memory, bit 17. -/
theorem ready_bit_position_witness :
    (rdyMask sourceConfig (INT_BENCH_INIT_step sourceConfig 1 1 0
      (runBarrier sourceConfig [(1, 1, 0), (1, 1, 0), (1, 1, 0)] zeroState)).mem).testBit 17 =
      ((rdyMask sourceConfig
        (runBarrier sourceConfig [(1, 1, 0), (1, 1, 0), (1, 1, 0)] zeroState).mem).testBit 17
          || decide (17 = 1 * 16 + 1)) ∧
    1 * 16 + 1 < 64 ∧
    (1 * 16 + 1 = 0 * 16 + 1 → 1 = 0 ∧ 1 = 1) :=
  ready_bit_position sourceConfig 1 1 0 1 0 17
    (runBarrier sourceConfig [(1, 1, 0), (1, 1, 0), (1, 1, 0)] zeroState)
    (by decide) (by decide) (by decide) (by decide)

/-- C6. In a run of the barrier from an initial state: a participant that has written the dump
headers or stored the seed is `(0, 1)`, and `(0, 1)` has done both once it is past line 95;
at line 95 the step of `(0, 1)` writes the headers and stores the seed; a step of any other
participant leaves every byte above the lock word unchanged (the magic headers all lie there)
and either leaves the ready mask as it is or ORs the participant's own bit into it. -/
theorem elector_designation (cfg : Config) (ps : List (Nat × Nat)) (s0 s : BarrierState)
    (CORE PARTID e : Nat) (h0 : BarrierStart cfg s0) (hr : Reach cfg ps s0 s) :
    ((⟨CORE, PARTID, .DUMP_HADER⟩ ∈ s.trace ∨ ⟨CORE, PARTID, .maskSeed⟩ ∈ s.trace) ↔
      (CORE = 0 ∧ PARTID = 1 ∧ (s.loc CORE PARTID).pc ≠ .L94 ∧ (s.loc CORE PARTID).pc ≠ .L95)) ∧
    ((⟨CORE, PARTID, .DUMP_HADER⟩ ∈ s.trace ∧ ⟨CORE, PARTID, .maskSeed⟩ ∈ s.trace) ↔
      (CORE = 0 ∧ PARTID = 1 ∧ (s.loc CORE PARTID).pc ≠ .L94 ∧ (s.loc CORE PARTID).pc ≠ .L95)) ∧
    (if (s.loc CORE PARTID).pc = .L95 ∧ 0 = CORE ∧ PARTID = 1 then
      (INT_BENCH_INIT_step cfg CORE PARTID e s).mem =
        store64 (INT_BENCH_DUMP_HADER cfg s.mem) (INT_BENCH_RDYMASK_PTR cfg) 0x0000000000000001 ∧
      (INT_BENCH_INIT_step cfg CORE PARTID e s).trace =
        ⟨CORE, PARTID, .maskSeed⟩ :: ⟨CORE, PARTID, .DUMP_HADER⟩ :: s.trace
    else
      ∃ new, (INT_BENCH_INIT_step cfg CORE PARTID e s).trace = new ++ s.trace ∧
        ∀ ev ∈ new, ev.act ≠ .DUMP_HADER ∧ ev.act ≠ .maskSeed) ∧
    (¬(0 = CORE ∧ PARTID = 1) →
      (∀ x, INT_BENCH_RDYMASK_LOCK cfg + 4 ≤ x →
        (INT_BENCH_INIT_step cfg CORE PARTID e s).mem x = s.mem x) ∧
      (rdyMask cfg (INT_BENCH_INIT_step cfg CORE PARTID e s).mem = rdyMask cfg s.mem ∨
        rdyMask cfg (INT_BENCH_INIT_step cfg CORE PARTID e s).mem =
          rdyMask cfg s.mem ||| readyBit CORE PARTID)) ∧
    INT_BENCH_RDYMASK_LOCK cfg + 4 ≤ INT_BENCH_DUMP_REG_HEADER_MAGIC cfg ∧
    (∀ t, INT_BENCH_RDYMASK_LOCK cfg + 4 ≤ INT_BENCH_DUMP_MAGIC_ADDR cfg t) := by
  obtain ⟨hby, hpast, hboth⟩ := seed_inv cfg ps s0 s h0 hr
  have key : ∀ a, (a = Action.DUMP_HADER ∨ a = Action.maskSeed) → ⟨CORE, PARTID, a⟩ ∈ s.trace →
      CORE = 0 ∧ PARTID = 1 ∧ (s.loc CORE PARTID).pc ≠ .L94 ∧ (s.loc CORE PARTID).pc ≠ .L95 := by
    intro a ha hmem
    obtain ⟨hc, hp⟩ := hby _ hmem ha
    have hc2 : CORE = 0 := hc
    have hp2 : PARTID = 1 := hp
    subst hc2 hp2
    refine ⟨rfl, rfl, ?_⟩
    apply hpast.2
    rcases ha with ha | ha <;> subst ha
    · exact hboth.2 hmem
    · exact hmem
  refine ⟨⟨?_, ?_⟩, ⟨?_, ?_⟩, ?_, ?_, ?_, ?_⟩
  · rintro (h | h)
    · exact key _ (Or.inl rfl) h
    · exact key _ (Or.inr rfl) h
  · rintro ⟨rfl, rfl, h⟩
    exact Or.inr (hpast.1 h)
  · rintro ⟨h, -⟩
    exact key _ (Or.inl rfl) h
  · rintro ⟨rfl, rfl, h⟩
    exact ⟨hboth.1 (hpast.1 h), hpast.1 h⟩
  · split
    · rename_i h
      obtain ⟨h95, hc, hp⟩ := h
      constructor <;> simp only [INT_BENCH_INIT_step, h95, if_pos (And.intro hc hp)]
    · rename_i h
      refine ⟨_, step_trace cfg CORE PARTID e s, ?_⟩
      intro ev hev
      rw [List.mem_map] at hev
      obtain ⟨a, ha, rfl⟩ := hev
      constructor
      · intro h2
        exact h (stepActions_seed _ _ _ _ _ _ ha (Or.inl h2))
      · intro h2
        exact h (stepActions_seed _ _ _ _ _ _ ha (Or.inr h2))
  · intro h
    refine ⟨fun x hx => step_mem_outside cfg CORE PARTID e s x hx h, ?_⟩
    rw [step_mask]
    cases (s.loc CORE PARTID).pc <;> simp [nextMask, h]
  · simp only [INT_BENCH_RDYMASK_LOCK, INT_BENCH_DUMP_REG_HEADER_MAGIC,
      INT_BENCH_DUMP_REG_HEADER_ADDR]
    omega
  · intro t
    cases t <;>
      simp only [INT_BENCH_RDYMASK_LOCK, INT_BENCH_DUMP_MAGIC_ADDR, INT_BENCH_DUMP_REG_ADDR,
        INT_BENCH_DUMP_REG_SIZE] <;> omega

/-- Witness for C6: the run in which the elector takes the lock and executes line 95. -/
theorem elector_designation_witness :
    BarrierStart sourceConfig zeroState ∧
    ((⟨0, 1, .DUMP_HADER⟩ ∈ (runBarrier sourceConfig [(0, 1, 0), (0, 1, 0)] zeroState).trace ∨
      ⟨0, 1, .maskSeed⟩ ∈ (runBarrier sourceConfig [(0, 1, 0), (0, 1, 0)] zeroState).trace) ↔
      (0 = 0 ∧ 1 = 1 ∧
        ((runBarrier sourceConfig [(0, 1, 0), (0, 1, 0)] zeroState).loc 0 1).pc ≠ .L94 ∧
        ((runBarrier sourceConfig [(0, 1, 0), (0, 1, 0)] zeroState).loc 0 1).pc ≠ .L95)) :=
  ⟨⟨by decide, by decide, fun _ _ => rfl, rfl⟩,
   (elector_designation sourceConfig [(0, 1)] zeroState
      (runBarrier sourceConfig [(0, 1, 0), (0, 1, 0)] zeroState) 0 1 0
      ⟨by decide, by decide, fun _ _ => rfl, rfl⟩
      (reach_run sourceConfig [(0, 1)] [(0, 1, 0), (0, 1, 0)] zeroState (by decide))).1⟩

/-- C7. At the check of line 101 a participant leaves the wait loop if and only if the ready
mask equals `INT_BENCH_RDYMASK_VAL`, and otherwise goes on to the OR step.  When it leaves,
its next two statements release the lock and set its frame counter and sample count to 0: they
do not change the ready mask and call no periodic wait; and whatever the other participants
do meanwhile, it stays out of the loop and performs nothing but that release and that
reset. -/
theorem barrier_exit (cfg : Config) (CORE PARTID e1 e2 e3 : Nat) (s : BarrierState)
    (sched : List (Nat × Nat × Nat)) (hpc : (s.loc CORE PARTID).pc = .L101) :
    (pastBarrier ((INT_BENCH_INIT_step cfg CORE PARTID e1 s).loc CORE PARTID).pc = true ↔
      rdyMask cfg s.mem = cfg.INT_BENCH_RDYMASK_VAL) ∧
    (((INT_BENCH_INIT_step cfg CORE PARTID e1 s).loc CORE PARTID).pc = .L103 ↔
      rdyMask cfg s.mem ≠ cfg.INT_BENCH_RDYMASK_VAL) ∧
    (INT_BENCH_INIT_step cfg CORE PARTID e1 s).mem = s.mem ∧
    (INT_BENCH_INIT_step cfg CORE PARTID e1 s).trace = s.trace ∧
    (rdyMask cfg s.mem = cfg.INT_BENCH_RDYMASK_VAL →
      (runBarrier cfg [(CORE, PARTID, e1), (CORE, PARTID, e2), (CORE, PARTID, e3)] s).trace =
        ⟨CORE, PARTID, .resetCounters⟩ :: ⟨CORE, PARTID, .LockRelease⟩ :: s.trace ∧
      rdyMask cfg
        (runBarrier cfg [(CORE, PARTID, e1), (CORE, PARTID, e2), (CORE, PARTID, e3)] s).mem =
          cfg.INT_BENCH_RDYMASK_VAL ∧
      lockWord cfg
        (runBarrier cfg [(CORE, PARTID, e1), (CORE, PARTID, e2), (CORE, PARTID, e3)] s).mem = 0 ∧
      ((runBarrier cfg [(CORE, PARTID, e1), (CORE, PARTID, e2), (CORE, PARTID, e3)] s).loc
        CORE PARTID).pc = .done ∧
      ((runBarrier cfg [(CORE, PARTID, e1), (CORE, PARTID, e2), (CORE, PARTID, e3)] s).loc
        CORE PARTID).MAFCOUNT = 0 ∧
      ((runBarrier cfg [(CORE, PARTID, e1), (CORE, PARTID, e2), (CORE, PARTID, e3)] s).loc
        CORE PARTID).BENCH_DATA.samples = 0 ∧
      pastBarrier ((runBarrier cfg sched (INT_BENCH_INIT_step cfg CORE PARTID e1 s)).loc
        CORE PARTID).pc = true ∧
      ∃ new, (runBarrier cfg sched (INT_BENCH_INIT_step cfg CORE PARTID e1 s)).trace =
          new ++ s.trace ∧
        ∀ ev ∈ new, ev.core = CORE → ev.partid = PARTID →
          ev.act = .LockRelease ∨ ev.act = .resetCounters) := by
  have hstep : INT_BENCH_INIT_step cfg CORE PARTID e1 s =
      if cfg.INT_BENCH_RDYMASK_VAL ≠ rdyMask cfg s.mem then
        { s with loc := setLoc s.loc CORE PARTID { s.loc CORE PARTID with pc := .L103 } }
      else
        { s with loc := setLoc s.loc CORE PARTID { s.loc CORE PARTID with pc := .L115 } } := by
    simp only [INT_BENCH_INIT_step, hpc]
  have hpc1 := step_pc cfg CORE PARTID e1 s
  rw [hpc] at hpc1
  simp only [nextPC] at hpc1
  refine ⟨?_, ?_, ?_, ?_, ?_⟩
  · rw [hpc1]
    by_cases h : cfg.INT_BENCH_RDYMASK_VAL = rdyMask cfg s.mem
    · simp [h, pastBarrier]
    · simp [h, pastBarrier, Ne.symm h]
  · rw [hpc1]
    by_cases h : cfg.INT_BENCH_RDYMASK_VAL = rdyMask cfg s.mem
    · simp [h]
    · simp [h, Ne.symm h]
  · rw [hstep]
    split <;> rfl
  · rw [hstep]
    split <;> rfl
  · intro heq
    have hpc1b : ((INT_BENCH_INIT_step cfg CORE PARTID e1 s).loc CORE PARTID).pc = .L115 := by
      rw [hpc1]
      simp [heq]
    have hs1 : INT_BENCH_INIT_step cfg CORE PARTID e1 s =
        { s with loc := setLoc s.loc CORE PARTID { s.loc CORE PARTID with pc := .L115 } } := by
      rw [hstep]
      simp [heq]
    have hpast := past_barrier_actions cfg CORE PARTID sched
      (INT_BENCH_INIT_step cfg CORE PARTID e1 s) (by rw [hpc1b]; rfl)
    have htr1 : (INT_BENCH_INIT_step cfg CORE PARTID e1 s).trace = s.trace := by rw [hs1]
    rw [htr1] at hpast
    refine ⟨?_, ?_, ?_, ?_, ?_, ?_, hpast.1, hpast.2⟩
    all_goals
      simp only [runBarrier]
      rw [hs1]
      simp [INT_BENCH_INIT_step, setLoc, __LockRelease, rdyMask_store_lock, lockWord_store_lock,
        heq]

/-- Witness for C7: the elector at line 101 with the full repository mask in memory; three
steps later it is at the end of `INT_BENCH_INIT`. -/
theorem barrier_exit_witness :
    ((runBarrier sourceConfig (lateArrivalSchedule.take 73) zeroState).loc 0 1).pc = .L101 ∧
    rdyMask sourceConfig (runBarrier sourceConfig (lateArrivalSchedule.take 73) zeroState).mem =
      sourceConfig.INT_BENCH_RDYMASK_VAL ∧
    ((runBarrier sourceConfig [(0, 1, 0), (0, 1, 0), (0, 1, 0)]
      (runBarrier sourceConfig (lateArrivalSchedule.take 73) zeroState)).loc 0 1).pc = .done :=
  ⟨by decide!, by decide!,
   ((barrier_exit sourceConfig 0 1 0 0 0
      (runBarrier sourceConfig (lateArrivalSchedule.take 73) zeroState)
      [] (by decide!)).2.2.2.2 (by decide!)).2.2.2.1⟩

/-- C1. Evaluation of the barrier on the repository's ready mask `0x00020002000203FF`, from
zeroed memory: participant `(0, 0)` is named by the mask, yet after the other twelve named
participants have arrived the elector `(0, 1)` is past the barrier (it has even finished
`INT_BENCH_INIT`) while `(0, 0)` is still at its first statement and has executed no OR step:
bit 0 of the mask was set by the elector's seed. -/
theorem barrier_passed_before_arrival :
    BarrierStart sourceConfig zeroState ∧
    (0, 0) ∈ named sourceConfig.INT_BENCH_RDYMASK_VAL ∧
    (∀ x ∈ lateArrivalSchedule, (x.1, x.2.1) ∈ named sourceConfig.INT_BENCH_RDYMASK_VAL) ∧
    pastBarrier ((runBarrier sourceConfig lateArrivalSchedule zeroState).loc 0 1).pc = true ∧
    ((runBarrier sourceConfig lateArrivalSchedule zeroState).loc 0 1).pc = .done ∧
    ((runBarrier sourceConfig lateArrivalSchedule zeroState).loc 0 0).pc = .L94 ∧
    ⟨0, 0, .maskOr⟩ ∉ (runBarrier sourceConfig lateArrivalSchedule zeroState).trace ∧
    rdyMask sourceConfig (runBarrier sourceConfig lateArrivalSchedule zeroState).mem =
      sourceConfig.INT_BENCH_RDYMASK_VAL :=
  ⟨⟨by decide, by decide, fun _ _ => rfl, rfl⟩, by decide!, by decide!, by decide!, by decide!,
    by decide!, by decide!, by decide!⟩

/-- C3 as stated fails: participant `(1, 1)` arrives first and sets bit `1 * 16 + 1`; the
elector's initialization, executed later, clears it. -/
theorem elector_init_clears_bits :
    BarrierStart sourceConfig zeroState ∧
    (rdyMask sourceConfig
      (runBarrier sourceConfig (arrive 1 1) zeroState).mem).testBit (1 * 16 + 1) = true ∧
    earlyArrivalSchedule = arrive 1 1 ++ [(0, 1, 0), (0, 1, 0)] ∧
    (rdyMask sourceConfig
      (runBarrier sourceConfig earlyArrivalSchedule zeroState).mem).testBit (1 * 16 + 1) = false :=
  ⟨⟨by decide, by decide, fun _ _ => rfl, rfl⟩, by decide!, rfl, by decide!⟩

/-- C3 amended. Once the elector `(0, 1)` has executed its initialization (it is past line 95),
a bit that is set in the ready mask stays set in every later state of the run, whoever steps.
Step by step: every statement other than the elector's line 95 keeps every set bit, and the
elector's line 95 overwrites the mask with `0x1`. -/
theorem mask_monotone_after_seed (cfg : Config) (ps : List (Nat × Nat)) (s s2 : BarrierState)
    (i : Nat) (hpast : (s.loc 0 1).pc ≠ .L94 ∧ (s.loc 0 1).pc ≠ .L95)
    (hr : Reach cfg ps s s2) (hi : (rdyMask cfg s.mem).testBit i = true) :
    (rdyMask cfg s2.mem).testBit i = true ∧
    (∀ (c p e : Nat) (s1 : BarrierState), ¬((s1.loc c p).pc = .L95 ∧ 0 = c ∧ p = 1) →
      (rdyMask cfg s1.mem).testBit i = true →
      (rdyMask cfg (INT_BENCH_INIT_step cfg c p e s1).mem).testBit i = true) ∧
    (∀ (e : Nat) (s1 : BarrierState), (s1.loc 0 1).pc = .L95 →
      rdyMask cfg (INT_BENCH_INIT_step cfg 0 1 e s1).mem = 0x0000000000000001) := by
  refine ⟨?_, fun c p e s1 h h2 => step_keeps_bits cfg c p e i s1 h h2,
    fun e s1 h => step_L95_elector_mask cfg e s1 h⟩
  have key : ((s2.loc 0 1).pc ≠ .L94 ∧ (s2.loc 0 1).pc ≠ .L95) ∧
      (rdyMask cfg s2.mem).testBit i = true := by
    induction hr with
    | start => exact ⟨hpast, hi⟩
    | step s1 c p e _ _ ih =>
      obtain ⟨ih1, ih2⟩ := ih
      refine ⟨elector_stays_past_seed cfg c p e s1 ih1, ?_⟩
      apply step_keeps_bits cfg c p e i s1 _ ih2
      rintro ⟨h95, hc, hp⟩
      subst hc hp
      exact ih1.2 h95
  exact key.2

/-- Witness for C3 amended: bit 1, set by the elector after its seeding, is still set after
participant `(1, 1)` has arrived. -/
theorem mask_monotone_after_seed_witness :
    (rdyMask sourceConfig
      (runBarrier sourceConfig (arrive 0 1 ++ arrive 1 1) zeroState).mem).testBit 1 = true :=
  (mask_monotone_after_seed sourceConfig [(0, 1), (1, 1)]
    (runBarrier sourceConfig (arrive 0 1) zeroState)
    (runBarrier sourceConfig (arrive 0 1 ++ arrive 1 1) zeroState) 1
    (by decide)
    (reach_run sourceConfig [(0, 1), (1, 1)] (arrive 1 1)
      (runBarrier sourceConfig (arrive 0 1) zeroState) (by decide))
    (by decide)).1

/-- C2. The three-participant barrier of the spec (`(0,0)`, `(0,1)`, `(1,1)`, ready mask
`0x20003`), in any state reached from an initial state by any interleaving of the three:
once the elector has seeded the mask and all three have executed their OR step since, the
mask equals the target; once the mask equals the target it stays so in every later state and
every check at line 101 leaves the loop; and no participant is left waiting for ever: from the
state reached, 24 rounds in which the three execute one statement each in turn bring all three
to the end of `INT_BENCH_INIT`. -/
theorem barrier_converges (base : Nat) (s0 s : BarrierState)
    (h0 : BarrierStart (cfg3 base) s0) (hr : Reach (cfg3 base) three s0 s) :
    named (cfg3 base).INT_BENCH_RDYMASK_VAL = three ∧
    (⟨0, 1, .maskSeed⟩ ∈ s.trace →
      (∀ cp ∈ three, oredSinceSeed cp.1 cp.2 s.trace = true) →
      rdyMask (cfg3 base) s.mem = (cfg3 base).INT_BENCH_RDYMASK_VAL) ∧
    (rdyMask (cfg3 base) s.mem = (cfg3 base).INT_BENCH_RDYMASK_VAL →
      ∀ s2, Reach (cfg3 base) three s s2 →
        rdyMask (cfg3 base) s2.mem = (cfg3 base).INT_BENCH_RDYMASK_VAL ∧
        ∀ cp ∈ three, ∀ e, (s2.loc cp.1 cp.2).pc = .L101 →
          ((INT_BENCH_INIT_step (cfg3 base) cp.1 cp.2 e s2).loc cp.1 cp.2).pc = .L115) ∧
    (∀ x ∈ roundRobinSchedule 24, (x.1, x.2.1) ∈ three) ∧
    (∀ cp ∈ three,
      ((runBarrier (cfg3 base) (roundRobinSchedule 24) s).loc cp.1 cp.2).pc = .done) := by
  have ht : (cfg3 base).INT_BENCH_RDYMASK_VAL = 0x20003 := rfl
  have hinv0 := inv3_start (cfg3 base) s0 h0
  have hinv := inv3_reach (cfg3 base) s0 s ht hinv0 hr
  have hnamed : named (0x20003 : Nat) = three := by decide
  refine ⟨hnamed, ?_, ?_, roundRobinSchedule_mem 24, ?_⟩
  · intro hseed hall
    have hpast := ((seed_inv (cfg3 base) three s0 s h0 hr).2.1).2 hseed
    have hb1 := ored_inv (cfg3 base) three s0 s 0 1 h0 hr (by norm_num)
      (hall (0, 1) (by decide))
    have hb17 := ored_inv (cfg3 base) three s0 s 1 1 h0 hr (by norm_num)
      (hall (1, 1) (by decide))
    have hm : (abs3 (cfg3 base) s).mask = 1 ∨ (abs3 (cfg3 base) s).mask = 3 ∨
        (abs3 (cfg3 base) s).mask = 0x20001 ∨ (abs3 (cfg3 base) s).mask = 0x20003 := by
      have h := hinv
      simp only [inv3, Bool.and_eq_true] at h
      obtain ⟨⟨-, hm⟩, -⟩ := h
      have hne : preSeed (abs3 (cfg3 base) s).pc1 = false := by
        show preSeed (s.loc 0 1).pc = false
        cases hpc : (s.loc 0 1).pc <;> simp [preSeed]
        · exact hpast.1 hpc
        · exact hpast.2 hpc
      rw [hne] at hm
      simpa [or_assoc] using hm
    rw [ht]
    change (abs3 (cfg3 base) s).mask = 1 ∨ _ at hm
    change ((abs3 (cfg3 base) s).mask).testBit (0 * 16 + 1) = true at hb1
    change ((abs3 (cfg3 base) s).mask).testBit (1 * 16 + 1) = true at hb17
    change (abs3 (cfg3 base) s).mask = 0x20003
    rcases hm with hm | hm | hm | hm
    · rw [hm] at hb1
      exact absurd hb1 (by decide)
    · rw [hm] at hb17
      exact absurd hb17 (by decide)
    · rw [hm] at hb1
      exact absurd hb1 (by decide)
    · exact hm
  · intro hfull s2 hr2
    have key : inv3 (abs3 (cfg3 base) s2) = true ∧ rdyMask (cfg3 base) s2.mem = 0x20003 := by
      induction hr2 with
      | start => exact ⟨hinv, hfull⟩
      | step s1 c p e _ hm ih =>
        obtain ⟨ih1, ih2⟩ := ih
        obtain ⟨h1, h2, h3⟩ := abs3_step (cfg3 base) e s1 ht
        have hmask : (abs3 (cfg3 base) s1).mask = 0x20003 := ih2
        rcases three_cases c p hm with ⟨rfl, rfl⟩ | ⟨rfl, rfl⟩ | ⟨rfl, rfl⟩
        · refine ⟨by rw [h1]; exact inv3_step _ 0 ih1, ?_⟩
          have := full_step _ 0 ih1 hmask
          rw [← h1] at this
          exact this
        · refine ⟨by rw [h2]; exact inv3_step _ 1 ih1, ?_⟩
          have := full_step _ 1 ih1 hmask
          rw [← h2] at this
          exact this
        · refine ⟨by rw [h3]; exact inv3_step _ 2 ih1, ?_⟩
          have := full_step _ 2 ih1 hmask
          rw [← h3] at this
          exact this
    refine ⟨key.2, ?_⟩
    intro cp _ e hpc
    rw [step_pc, hpc, key.2]
    rfl
  · have hdone := doneWithin3_run (cfg3 base) 24 s ht (doneWithin3_inv _ hinv)
    generalize runBarrier (cfg3 base) (roundRobinSchedule 24) s = sf at hdone
    simp only [allDone3, abs3, Bool.and_eq_true] at hdone
    have hd : ∀ pc, isDone pc = true → pc = .done := by
      intro pc h
      cases pc <;> simp [isDone] at h ⊢
    rintro ⟨c, p⟩ hcp
    rcases three_cases c p hcp with ⟨rfl, rfl⟩ | ⟨rfl, rfl⟩ | ⟨rfl, rfl⟩
    · exact hd _ hdone.1.1
    · exact hd _ hdone.1.2
    · exact hd _ hdone.2

/-- Witness for C2: from the state in which `(1, 1)` and then `(0, 0)` have arrived before the
elector, 24 rounds bring all three participants to the end. -/
theorem barrier_converges_witness :
    BarrierStart (cfg3 0x70001000) zeroState ∧
    (∀ cp ∈ three,
      ((runBarrier (cfg3 0x70001000) (roundRobinSchedule 24)
        (runBarrier (cfg3 0x70001000) (arrive 1 1 ++ arrive 0 0) zeroState)).loc
          cp.1 cp.2).pc = .done) :=
  ⟨⟨by decide, by decide, fun _ _ => rfl, rfl⟩,
   (barrier_converges 0x70001000 zeroState
      (runBarrier (cfg3 0x70001000) (arrive 1 1 ++ arrive 0 0) zeroState)
      ⟨by decide, by decide, fun _ _ => rfl, rfl⟩
      (reach_run (cfg3 0x70001000) three (arrive 1 1 ++ arrive 0 0) zeroState
        (by decide))).2.2.2.2⟩

/-! ## Claims about the sampling iteration -/

theorem epilogueBody_calls (cfg : Config) (CORE PARTID : Nat) (t1 : Nat × Nat)
    (s : SamplingState) :
    ∃ rest, (epilogueBody cfg CORE PARTID t1 s).calls = s.calls ++ (.GET_TIME :: rest) ∧
      rest.count .PAYLOAD = 0 := by
  unfold epilogueBody
  simp only []
  split
  · split
    · refine ⟨?_, ?_, ?_⟩
      pick_goal 2
      · simp only [List.append_assoc, List.cons_append, List.nil_append]
        exact rfl
      · simp [List.count_cons]
    · split
      · refine ⟨?_, ?_, ?_⟩
        pick_goal 2
        · simp only [List.append_assoc, List.cons_append, List.nil_append]
          exact rfl
        · simp [List.count_cons]
      · refine ⟨?_, ?_, ?_⟩
        pick_goal 2
        · exact rfl
        · simp [List.count_cons]
  · refine ⟨?_, ?_, ?_⟩
    pick_goal 2
    · exact rfl
    · simp [List.count_cons]

theorem samplingIteration_inactive (cfg : Config) (CORE PARTID : Nat) (PAYLOAD : World → World)
    (t0 t1 : Nat × Nat) (s : SamplingState) (h : ¬(0 < s.MAF_COUNT ∧ 9 > s.MAF_COUNT)) :
    samplingIteration cfg CORE PARTID PAYLOAD t0 t1 s =
      { s with MAF_COUNT := (s.MAF_COUNT + 1) % 2 ^ 32 % 10 } := by
  unfold samplingIteration
  simp only [if_neg h]

theorem samplingIteration_active_calls (cfg : Config) (CORE PARTID : Nat)
    (PAYLOAD : World → World) (t0 t1 : Nat × Nat) (s : SamplingState)
    (h : 0 < s.MAF_COUNT ∧ 9 > s.MAF_COUNT) :
    ∃ rest, (samplingIteration cfg CORE PARTID PAYLOAD t0 t1 s).calls
        = s.calls ++ (prologueCalls ++ rest) ∧
      rest.count .PAYLOAD = if t0.2 = NO_ERROR then 1 else 0 := by
  unfold samplingIteration
  simp only [if_pos h]
  by_cases he : t0.2 = NO_ERROR
  · have he2 : (prologueBody t0 s).BENCH_DATA.errCode = NO_ERROR := he
    simp only [if_pos he2, if_pos he]
    obtain ⟨rest, hr, hc⟩ := epilogueBody_calls cfg CORE PARTID t1
      (INT_BENCH_EXEC_PAYLOAD PAYLOAD (prologueBody t0 s))
    refine ⟨.PAYLOAD :: .GET_TIME :: rest, ?_, ?_⟩
    · rw [hr]
      simp [INT_BENCH_EXEC_PAYLOAD, prologueBody, prologueCalls]
    · simp [List.count_cons, hc]
  · have he2 : ¬(prologueBody t0 s).BENCH_DATA.errCode = NO_ERROR := he
    simp only [if_neg he2, if_neg he]
    refine ⟨?_, ?_, ?_⟩
    pick_goal 2
    · simp only [prologueBody, prologueCalls, List.append_assoc]
      exact rfl
    · simp [List.count_cons]

theorem iterationCalls_inactive (cfg : Config) (CORE PARTID : Nat) (PAYLOAD : World → World)
    (t0 t1 : Nat × Nat) (s : SamplingState) (h : ¬(0 < s.MAF_COUNT ∧ 9 > s.MAF_COUNT)) :
    iterationCalls cfg CORE PARTID PAYLOAD t0 t1 s = [] := by
  unfold iterationCalls
  rw [samplingIteration_inactive cfg CORE PARTID PAYLOAD t0 t1 s h]
  simp

theorem iterationCalls_active (cfg : Config) (CORE PARTID : Nat) (PAYLOAD : World → World)
    (t0 t1 : Nat × Nat) (s : SamplingState) (h : 0 < s.MAF_COUNT ∧ 9 > s.MAF_COUNT) :
    ∃ rest, iterationCalls cfg CORE PARTID PAYLOAD t0 t1 s = prologueCalls ++ rest ∧
      rest.count .PAYLOAD = if t0.2 = NO_ERROR then 1 else 0 := by
  obtain ⟨rest, hr, hc⟩ := samplingIteration_active_calls cfg CORE PARTID PAYLOAD t0 t1 s h
  refine ⟨rest, ?_, hc⟩
  unfold iterationCalls
  rw [hr]
  simp

/-- C9. One sampling iteration appends its calls to those made before; among them there is an
instrumentation call (counter operation, timestamp capture or dump append) if and only if the
frame at entry is in `[1, 8]`.  In such a frame the iteration starts with the reset of counters
1 and 2, their enabling and the capture of the start timestamp; in every other frame (0 and 9
in particular) it makes no call at all and leaves the world and the measurement record
unchanged. -/
theorem sampling_window (cfg : Config) (CORE PARTID : Nat) (PAYLOAD : World → World)
    (t0 t1 : Nat × Nat) (s : SamplingState) :
    (samplingIteration cfg CORE PARTID PAYLOAD t0 t1 s).calls =
      s.calls ++ iterationCalls cfg CORE PARTID PAYLOAD t0 t1 s ∧
    ((iterationCalls cfg CORE PARTID PAYLOAD t0 t1 s).any isInstrumentation = true ↔
      1 ≤ s.MAF_COUNT ∧ s.MAF_COUNT ≤ 8) ∧
    (if 1 ≤ s.MAF_COUNT ∧ s.MAF_COUNT ≤ 8 then
      prologueCalls <+: iterationCalls cfg CORE PARTID PAYLOAD t0 t1 s
    else
      iterationCalls cfg CORE PARTID PAYLOAD t0 t1 s = [] ∧
      (samplingIteration cfg CORE PARTID PAYLOAD t0 t1 s).world = s.world ∧
      (samplingIteration cfg CORE PARTID PAYLOAD t0 t1 s).BENCH_DATA = s.BENCH_DATA) := by
  by_cases h : 0 < s.MAF_COUNT ∧ 9 > s.MAF_COUNT
  · have h2 : 1 ≤ s.MAF_COUNT ∧ s.MAF_COUNT ≤ 8 := by omega
    obtain ⟨rest, hr, -⟩ := iterationCalls_active cfg CORE PARTID PAYLOAD t0 t1 s h
    obtain ⟨rest2, hr2, -⟩ := samplingIteration_active_calls cfg CORE PARTID PAYLOAD t0 t1 s h
    have heq : rest2 = rest := by
      have := hr
      unfold iterationCalls at this
      rw [hr2] at this
      simpa using this
    refine ⟨?_, ?_, ?_⟩
    · rw [hr, hr2, heq]
    · rw [hr]
      simp [prologueCalls, isInstrumentation, h2]
    · rw [if_pos h2, hr]
      exact List.prefix_append _ _
  · have h2 : ¬(1 ≤ s.MAF_COUNT ∧ s.MAF_COUNT ≤ 8) := by omega
    have hc := iterationCalls_inactive cfg CORE PARTID PAYLOAD t0 t1 s h
    have hs := samplingIteration_inactive cfg CORE PARTID PAYLOAD t0 t1 s h
    refine ⟨?_, ?_, ?_⟩
    · rw [hc, hs]
      simp
    · rw [hc]
      simp [h2]
    · rw [if_neg h2, hs]
      exact ⟨hc, rfl, rfl⟩

/-- C10 as stated fails: in an iteration whose frame is 0 (and likewise 9) the payload is not
called and the mark it would leave in memory is absent. -/
theorem warmup_cooldown_skip_payload :
    (iterationCalls sourceConfig 0 0 markPayload (0, 0) (0, 0) (zeroSampling 0)).count .PAYLOAD
      ≠ 1 ∧
    (iterationCalls sourceConfig 0 0 markPayload (0, 0) (0, 0) (zeroSampling 9)).count .PAYLOAD
      ≠ 1 ∧
    (samplingIteration sourceConfig 0 0 markPayload (0, 0) (0, 0) (zeroSampling 0)).world.mem 0
      = 0 ∧
    (samplingIteration sourceConfig 0 0 markPayload (0, 0) (0, 0) (zeroSampling 9)).world.mem 0
      = 0 ∧
    (markPayload (zeroSampling 0).world).mem 0 = 0xAA := by
  decide

/-- C10 amended. The payload placed between prologue and epilogue is called exactly once in an
iteration whose frame is in `[1, 8]` and whose start timestamp is obtained without error, and
not at all in any other iteration; in an iteration whose frame is 0 (WARMUP) or 9 (COOLDOWN) no
call at all is made, the world is unchanged and only the frame counter advances. -/
theorem payload_runs_only_in_active_frames (cfg : Config) (CORE PARTID : Nat)
    (PAYLOAD : World → World) (t0 t1 : Nat × Nat) (s : SamplingState)
    (hf : s.MAF_COUNT = 0 ∨ s.MAF_COUNT = 9) :
    (iterationCalls cfg CORE PARTID PAYLOAD t0 t1 s).count .PAYLOAD = 0 ∧
    iterationCalls cfg CORE PARTID PAYLOAD t0 t1 s = [] ∧
    (samplingIteration cfg CORE PARTID PAYLOAD t0 t1 s).world = s.world ∧
    (samplingIteration cfg CORE PARTID PAYLOAD t0 t1 s).MAF_COUNT = (s.MAF_COUNT + 1) % 10 ∧
    (∀ s2 : SamplingState,
      (iterationCalls cfg CORE PARTID PAYLOAD t0 t1 s2).count .PAYLOAD =
        if 1 ≤ s2.MAF_COUNT ∧ s2.MAF_COUNT ≤ 8 ∧ t0.2 = NO_ERROR then 1 else 0) := by
  have h : ¬(0 < s.MAF_COUNT ∧ 9 > s.MAF_COUNT) := by omega
  have hc := iterationCalls_inactive cfg CORE PARTID PAYLOAD t0 t1 s h
  have hs := samplingIteration_inactive cfg CORE PARTID PAYLOAD t0 t1 s h
  refine ⟨by rw [hc]; rfl, hc, by rw [hs], ?_, ?_⟩
  · rw [hs]
    rcases hf with hf | hf <;> simp [hf]
  · intro s2
    by_cases h2 : 0 < s2.MAF_COUNT ∧ 9 > s2.MAF_COUNT
    · obtain ⟨rest, hr, hcnt⟩ := iterationCalls_active cfg CORE PARTID PAYLOAD t0 t1 s2 h2
      rw [hr, List.count_append, hcnt]
      have h3 : 1 ≤ s2.MAF_COUNT ∧ s2.MAF_COUNT ≤ 8 := by omega
      by_cases he : t0.2 = NO_ERROR
      · simp [h3, he, prologueCalls, List.count_cons]
      · simp [h3, he, prologueCalls, List.count_cons]
    · rw [iterationCalls_inactive cfg CORE PARTID PAYLOAD t0 t1 s2 h2]
      have h3 : ¬(1 ≤ s2.MAF_COUNT ∧ s2.MAF_COUNT ≤ 8 ∧ t0.2 = NO_ERROR) := by omega
      simp [h3]

/-- Witness for C10 amended: no payload call in frame 9, one payload call in frame 3. -/
theorem payload_runs_only_in_active_frames_witness :
    (iterationCalls sourceConfig 0 0 markPayload (5, 0) (7, 0) (zeroSampling 9)).count .PAYLOAD
      = 0 ∧
    (iterationCalls sourceConfig 0 0 markPayload (5, 0) (7, 0) (zeroSampling 3)).count .PAYLOAD
      = 1 :=
  ⟨(payload_runs_only_in_active_frames sourceConfig 0 0 markPayload (5, 0) (7, 0)
      (zeroSampling 9) (Or.inr rfl)).1,
   ((payload_runs_only_in_active_frames sourceConfig 0 0 markPayload (5, 0) (7, 0)
      (zeroSampling 9) (Or.inr rfl)).2.2.2.2 (zeroSampling 3)).trans (by decide)⟩

/-! ## The sampling loop and the stimulus generators: counts -/

theorem genCall_eq (cfg : Config) (g : Stimulus) (COREID PARTID DSTID : Nat) (env : GenEnv)
    (s : SamplingState) :
    genCall cfg g COREID PARTID DSTID env s =
      genSkeleton cfg g.region (g.trigger DSTID) PARTID env.TRIGGER env.t0 env.t1 s := by
  cases g <;> rfl

theorem epilogueBody_MAF (cfg : Config) (CORE PARTID : Nat) (t1 : Nat × Nat)
    (s : SamplingState) : (epilogueBody cfg CORE PARTID t1 s).MAF_COUNT = s.MAF_COUNT := by
  unfold epilogueBody
  simp only []
  split
  · split
    · rfl
    · split <;> rfl
  · rfl

theorem samplingIteration_MAF (cfg : Config) (CORE PARTID : Nat) (PAYLOAD : World → World)
    (t0 t1 : Nat × Nat) (s : SamplingState) :
    (samplingIteration cfg CORE PARTID PAYLOAD t0 t1 s).MAF_COUNT =
      (s.MAF_COUNT + 1) % 2 ^ 32 % 10 := by
  unfold samplingIteration
  simp only []
  split
  · split
    · rw [epilogueBody_MAF]
      rfl
    · rfl
  · rfl

theorem process1_body_MAF (cfg : Config) (env : IterEnv) (s : SamplingState) :
    (process1_body cfg env s).MAF_COUNT = (s.MAF_COUNT + 1) % 2 ^ 32 % 10 := by
  unfold process1_body
  simp only []
  split <;> exact samplingIteration_MAF cfg 0 0 env.PAYLOAD env.t0 env.t1 s

theorem process1_loop_append (cfg : Config) (envs more : List IterEnv) (s : SamplingState) :
    process1_loop cfg (envs ++ more) s = process1_loop cfg more (process1_loop cfg envs s) := by
  induction envs generalizing s with
  | nil => rfl
  | cons env rest ih => exact ih (process1_body cfg env s)

theorem process1_loop_MAF (cfg : Config) (envs : List IterEnv) (s : SamplingState)
    (h : s.MAF_COUNT < 10) :
    (process1_loop cfg envs s).MAF_COUNT = (s.MAF_COUNT + envs.length) % 10 := by
  induction envs generalizing s with
  | nil => simp [process1_loop, Nat.mod_eq_of_lt h]
  | cons env rest ih =>
    have hb := process1_body_MAF cfg env s
    have hlt : (process1_body cfg env s).MAF_COUNT < 10 := by
      rw [hb]
      exact Nat.mod_lt _ (by norm_num)
    show (process1_loop cfg rest (process1_body cfg env s)).MAF_COUNT = _
    rw [ih _ hlt, hb, List.length_cons]
    omega

theorem epilogueBody_counts (cfg : Config) (CORE PARTID : Nat) (t1 : Nat × Nat)
    (s : SamplingState) :
    (epilogueBody cfg CORE PARTID t1 s).BENCH_DATA.samples =
      (if t1.2 = NO_ERROR ∧ s.BENCH_DATA.samples ≤ 10000 then (s.BENCH_DATA.samples + 1) % 2 ^ 32
       else s.BENCH_DATA.samples) ∧
    (epilogueBody cfg CORE PARTID t1 s).calls.countP isDump =
      s.calls.countP isDump + (if t1.2 = NO_ERROR ∧ s.BENCH_DATA.samples < 10000 then 1 else 0) ∧
    (epilogueBody cfg CORE PARTID t1 s).calls.countP isCapNotice =
      s.calls.countP isCapNotice +
        (if t1.2 = NO_ERROR ∧ s.BENCH_DATA.samples = 10000 then 1 else 0) := by
  unfold epilogueBody
  simp only [INT_BENCH_SAMPLE_COUNT]
  by_cases h1 : t1.2 = NO_ERROR
  · simp only [if_pos h1, h1, true_and]
    by_cases h2 : s.BENCH_DATA.samples < 10000
    · have h3 : s.BENCH_DATA.samples ≤ 10000 := by omega
      have h4 : ¬ s.BENCH_DATA.samples = 10000 := by omega
      have h5 : 10000 > s.BENCH_DATA.samples := h2
      simp [h2, h3, h4, h5, List.countP_append, List.countP_cons, isDump, isCapNotice]
    · by_cases h3 : s.BENCH_DATA.samples = 10000
      · simp [h3, List.countP_append, List.countP_cons, isDump, isCapNotice]
      · have h4 : ¬ s.BENCH_DATA.samples ≤ 10000 := by omega
        have h5 : ¬ 10000 > s.BENCH_DATA.samples := h2
        have h6 : ¬ 10000 = s.BENCH_DATA.samples := fun h => h3 h.symm
        simp [h2, h3, h4, h5, h6, List.countP_append, List.countP_cons, isDump, isCapNotice]
  · simp [h1, List.countP_append, List.countP_cons, isDump, isCapNotice]

theorem iterEnv_ok_iff (env : IterEnv) (frame : Nat) :
    env.ok frame = true ↔ (0 < frame ∧ 9 > frame) ∧ env.t0.2 = NO_ERROR ∧ env.t1.2 = NO_ERROR := by
  simp [IterEnv.ok, and_assoc]

theorem samplingIteration_counts (cfg : Config) (CORE PARTID : Nat) (PAYLOAD : World → World)
    (t0 t1 : Nat × Nat) (s : SamplingState) :
    (samplingIteration cfg CORE PARTID PAYLOAD t0 t1 s).BENCH_DATA.samples =
      (if ((0 < s.MAF_COUNT ∧ 9 > s.MAF_COUNT) ∧ t0.2 = NO_ERROR ∧ t1.2 = NO_ERROR) ∧
          s.BENCH_DATA.samples ≤ 10000 then (s.BENCH_DATA.samples + 1) % 2 ^ 32
       else s.BENCH_DATA.samples) ∧
    (samplingIteration cfg CORE PARTID PAYLOAD t0 t1 s).calls.countP isDump =
      s.calls.countP isDump +
        (if ((0 < s.MAF_COUNT ∧ 9 > s.MAF_COUNT) ∧ t0.2 = NO_ERROR ∧ t1.2 = NO_ERROR) ∧
          s.BENCH_DATA.samples < 10000 then 1 else 0) ∧
    (samplingIteration cfg CORE PARTID PAYLOAD t0 t1 s).calls.countP isCapNotice =
      s.calls.countP isCapNotice +
        (if ((0 < s.MAF_COUNT ∧ 9 > s.MAF_COUNT) ∧ t0.2 = NO_ERROR ∧ t1.2 = NO_ERROR) ∧
          s.BENCH_DATA.samples = 10000 then 1 else 0) := by
  unfold samplingIteration
  by_cases h : 0 < s.MAF_COUNT ∧ 9 > s.MAF_COUNT
  · simp only [if_pos h, h, true_and, if_true]
    by_cases he : t0.2 = NO_ERROR
    · have he2 : (prologueBody t0 s).BENCH_DATA.errCode = NO_ERROR := he
      simp only [if_pos he2, he, true_and]
      obtain ⟨e1, e2, e3⟩ := epilogueBody_counts cfg CORE PARTID t1
        (INT_BENCH_EXEC_PAYLOAD PAYLOAD (prologueBody t0 s))
      refine ⟨?_, ?_, ?_⟩
      · exact e1
      · rw [e2]
        simp [INT_BENCH_EXEC_PAYLOAD, prologueBody, List.countP_append, List.countP_cons, isDump]
      · rw [e3]
        simp [INT_BENCH_EXEC_PAYLOAD, prologueBody, List.countP_append, List.countP_cons,
          isCapNotice]
    · have he2 : ¬(prologueBody t0 s).BENCH_DATA.errCode = NO_ERROR := he
      simp only [if_neg he2, he, false_and, and_false, if_false]
      simp [prologueBody, List.countP_append, List.countP_cons, isDump, isCapNotice]
  · simp [h]

theorem process1_body_counts (cfg : Config) (env : IterEnv) (s : SamplingState) :
    (process1_body cfg env s).BENCH_DATA.samples =
      (if env.ok s.MAF_COUNT = true ∧ s.BENCH_DATA.samples ≤ 10000 then
        (s.BENCH_DATA.samples + 1) % 2 ^ 32 else s.BENCH_DATA.samples) ∧
    (process1_body cfg env s).calls.countP isDump =
      s.calls.countP isDump +
        (if env.ok s.MAF_COUNT = true ∧ s.BENCH_DATA.samples < 10000 then 1 else 0) ∧
    (process1_body cfg env s).calls.countP isCapNotice =
      s.calls.countP isCapNotice +
        (if env.ok s.MAF_COUNT = true ∧ s.BENCH_DATA.samples = 10000 then 1 else 0) := by
  obtain ⟨e1, e2, e3⟩ := samplingIteration_counts cfg 0 0 env.PAYLOAD env.t0 env.t1 s
  simp only [iterEnv_ok_iff]
  unfold process1_body
  simp only []
  split
  · refine ⟨e1, ?_, ?_⟩
    · rw [← e2]
      simp [List.countP_append, List.countP_cons, isDump]
    · rw [← e3]
      simp [List.countP_append, List.countP_cons, isCapNotice]
  · refine ⟨e1, ?_, ?_⟩
    · rw [← e2]
      simp [List.countP_append, List.countP_cons, isDump]
    · rw [← e3]
      simp [List.countP_append, List.countP_cons, isCapNotice]

theorem loop_arith (ok : Prop) [Decidable ok] (n k rs rd rn sd sn : Nat) (hn : n ≤ 10001)
    (i1 : rs = min 10001 ((if ok ∧ n ≤ 10000 then (n + 1) % 2 ^ 32 else n) + k))
    (i2 : rd + min (if ok ∧ n ≤ 10000 then (n + 1) % 2 ^ 32 else n) 10000 =
      (sd + if ok ∧ n < 10000 then 1 else 0) + min rs 10000)
    (i3 : rn + (if (if ok ∧ n ≤ 10000 then (n + 1) % 2 ^ 32 else n) = 10001 then 1 else 0) =
      (sn + if ok ∧ n = 10000 then 1 else 0) + (if rs = 10001 then 1 else 0)) :
    rs = min 10001 (n + ((if ok then 1 else 0) + k)) ∧
    rd + min n 10000 = sd + min rs 10000 ∧
    rn + (if n = 10001 then 1 else 0) = sn + (if rs = 10001 then 1 else 0) := by
  by_cases hok : ok
  · simp only [hok, true_and, if_true] at i1 i2 i3 ⊢
    split_ifs at i1 i2 i3 ⊢ <;> omega
  · simp only [hok, false_and, if_false] at i1 i2 i3 ⊢
    split_ifs at i1 i2 i3 ⊢ <;> omega

/-- The sample count, the number of appends and the number of cap notices of a run of the
loop, in terms of the number of successful ACTIVE iterations. -/
theorem process1_loop_counts (cfg : Config) (envs : List IterEnv) (s : SamplingState)
    (h : s.BENCH_DATA.samples ≤ 10001) :
    (process1_loop cfg envs s).BENCH_DATA.samples =
      min 10001 (s.BENCH_DATA.samples + successCount envs s.MAF_COUNT) ∧
    (process1_loop cfg envs s).calls.countP isDump + min s.BENCH_DATA.samples 10000 =
      s.calls.countP isDump + min (process1_loop cfg envs s).BENCH_DATA.samples 10000 ∧
    (process1_loop cfg envs s).calls.countP isCapNotice +
        (if s.BENCH_DATA.samples = 10001 then 1 else 0) =
      s.calls.countP isCapNotice +
        (if (process1_loop cfg envs s).BENCH_DATA.samples = 10001 then 1 else 0) := by
  induction envs generalizing s with
  | nil => simp [process1_loop, successCount, Nat.min_eq_right h]
  | cons env rest ih =>
    obtain ⟨e1, e2, e3⟩ := process1_body_counts cfg env s
    have hm := process1_body_MAF cfg env s
    have hle : (process1_body cfg env s).BENCH_DATA.samples ≤ 10001 := by
      rw [e1]
      split <;> omega
    obtain ⟨i1, i2, i3⟩ := ih (process1_body cfg env s) hle
    rw [hm, e1] at i1
    rw [e1, e2] at i2
    rw [e1, e3] at i3
    simp only [successCount]
    exact loop_arith (env.ok s.MAF_COUNT = true) _ _ _ _ _ _ _ h i1 i2 i3

theorem genEnv_ok_iff (env : GenEnv) :
    env.ok = true ↔ env.t0.2 = NO_ERROR ∧ env.t1.2 = NO_ERROR := by
  simp [GenEnv.ok]

theorem genSkeleton_counts (cfg : Config) (TYPE : DumpType) (trigger : Call) (PARTID : Nat)
    (TRIGGER : World → World) (t0 t1 : Nat × Nat) (s : SamplingState)
    (htrig : isDump trigger = false ∧ isCapNotice trigger = false) :
    (genSkeleton cfg TYPE trigger PARTID TRIGGER t0 t1 s).BENCH_DATA.samples =
      (if (t0.2 = NO_ERROR ∧ t1.2 = NO_ERROR) ∧ s.BENCH_DATA.samples < 10000 then
        (s.BENCH_DATA.samples + 1) % 2 ^ 32 else s.BENCH_DATA.samples) ∧
    (genSkeleton cfg TYPE trigger PARTID TRIGGER t0 t1 s).calls.countP isDump =
      s.calls.countP isDump +
        (if (t0.2 = NO_ERROR ∧ t1.2 = NO_ERROR) ∧ s.BENCH_DATA.samples < 10000 then 1 else 0) ∧
    (genSkeleton cfg TYPE trigger PARTID TRIGGER t0 t1 s).calls.countP isCapNotice =
      s.calls.countP isCapNotice := by
  obtain ⟨ht1, ht2⟩ := htrig
  unfold genSkeleton
  simp only [INT_BENCH_SAMPLE_COUNT]
  by_cases h0 : t0.2 = NO_ERROR
  · by_cases h1 : t1.2 = NO_ERROR
    · by_cases h2 : s.BENCH_DATA.samples < 10000
      · have h5 : 10000 > s.BENCH_DATA.samples := h2
        simp only [h0, h1, h2, h5, if_true, true_and, and_self, List.countP_append,
          List.countP_cons, List.countP_nil, ht1, ht2]
        simp [isDump, isCapNotice]
      · have h5 : ¬ 10000 > s.BENCH_DATA.samples := h2
        simp only [h0, h1, h2, h5, if_true, if_false, true_and, and_self, and_false,
          List.countP_append, List.countP_cons, List.countP_nil, ht1, ht2]
        simp [isDump, isCapNotice]
    · simp only [h0, h1, if_true, if_false, true_and, and_false, false_and,
        List.countP_append, List.countP_cons, List.countP_nil, ht1, ht2]
      simp [isDump, isCapNotice]
  · simp [h0, List.countP_append, List.countP_cons, isDump, isCapNotice]

theorem trigger_plain (g : Stimulus) (DSTID : Nat) :
    isDump (g.trigger DSTID) = false ∧ isCapNotice (g.trigger DSTID) = false := by
  cases g <;> exact ⟨rfl, rfl⟩

theorem genCall_counts (cfg : Config) (g : Stimulus) (COREID PARTID DSTID : Nat) (env : GenEnv)
    (s : SamplingState) :
    (genCall cfg g COREID PARTID DSTID env s).BENCH_DATA.samples =
      (if env.ok = true ∧ s.BENCH_DATA.samples < 10000 then
        (s.BENCH_DATA.samples + 1) % 2 ^ 32 else s.BENCH_DATA.samples) ∧
    (genCall cfg g COREID PARTID DSTID env s).calls.countP isDump =
      s.calls.countP isDump +
        (if env.ok = true ∧ s.BENCH_DATA.samples < 10000 then 1 else 0) ∧
    (genCall cfg g COREID PARTID DSTID env s).calls.countP isCapNotice =
      s.calls.countP isCapNotice := by
  simp only [genCall_eq, genEnv_ok_iff]
  exact genSkeleton_counts cfg g.region (g.trigger DSTID) PARTID env.TRIGGER env.t0 env.t1 s
    (trigger_plain g DSTID)

theorem gen_arith (ok : Prop) [Decidable ok] (n k rs rd sd : Nat) (hn : n ≤ 10000)
    (i1 : rs = min 10000 ((if ok ∧ n < 10000 then (n + 1) % 2 ^ 32 else n) + k))
    (i2 : rd + (if ok ∧ n < 10000 then (n + 1) % 2 ^ 32 else n) =
      (sd + if ok ∧ n < 10000 then 1 else 0) + rs) :
    rs = min 10000 (n + ((if ok then 1 else 0) + k)) ∧ rd + n = sd + rs := by
  by_cases hok : ok
  · simp only [hok, true_and, if_true] at i1 i2 ⊢
    split_ifs at i1 i2 ⊢ <;> omega
  · simp only [hok, false_and, if_false] at i1 i2 ⊢
    omega

/-- The sample count and the number of appends of successive calls of one generator. -/
theorem genRun_counts (cfg : Config) (g : Stimulus) (COREID PARTID DSTID : Nat)
    (envs : List GenEnv) (s : SamplingState) (h : s.BENCH_DATA.samples ≤ 10000) :
    (genRun cfg g COREID PARTID DSTID envs s).BENCH_DATA.samples =
      min 10000 (s.BENCH_DATA.samples + envs.countP GenEnv.ok) ∧
    (genRun cfg g COREID PARTID DSTID envs s).calls.countP isDump + s.BENCH_DATA.samples =
      s.calls.countP isDump + (genRun cfg g COREID PARTID DSTID envs s).BENCH_DATA.samples ∧
    (genRun cfg g COREID PARTID DSTID envs s).calls.countP isCapNotice =
      s.calls.countP isCapNotice := by
  induction envs generalizing s with
  | nil => simp [genRun, Nat.min_eq_right h]
  | cons env rest ih =>
    obtain ⟨e1, e2, e3⟩ := genCall_counts cfg g COREID PARTID DSTID env s
    have hle : (genCall cfg g COREID PARTID DSTID env s).BENCH_DATA.samples ≤ 10000 := by
      rw [e1]
      split <;> omega
    obtain ⟨i1, i2, i3⟩ := ih (genCall cfg g COREID PARTID DSTID env s) hle
    rw [e1] at i1
    rw [e1, e2] at i2
    rw [e3] at i3
    simp only [genRun, List.countP_cons]
    have := gen_arith (env.ok = true) _ _ _ _ _ h i1 i2
    refine ⟨?_, this.2, i3⟩
    rw [this.1]
    congr 1
    omega

theorem epilogueBody_error (cfg : Config) (CORE PARTID : Nat) (t1 : Nat × Nat)
    (s : SamplingState) (h : t1.2 ≠ NO_ERROR) :
    (epilogueBody cfg CORE PARTID t1 s).world = s.world := by
  unfold epilogueBody
  simp only []
  rw [if_neg h]

theorem samplingIteration_error_world (cfg : Config) (CORE PARTID : Nat)
    (PAYLOAD : World → World) (t0 t1 : Nat × Nat) (s : SamplingState)
    (hact : 0 < s.MAF_COUNT ∧ 9 > s.MAF_COUNT) (herr : t0.2 ≠ NO_ERROR ∨ t1.2 ≠ NO_ERROR) :
    (samplingIteration cfg CORE PARTID PAYLOAD t0 t1 s).world =
      if t0.2 = NO_ERROR then PAYLOAD (prologueBody t0 s).world else (prologueBody t0 s).world := by
  unfold samplingIteration
  simp only [if_pos hact]
  by_cases he : t0.2 = NO_ERROR
  · have he2 : (prologueBody t0 s).BENCH_DATA.errCode = NO_ERROR := he
    have h1 : t1.2 ≠ NO_ERROR := by
      rcases herr with h | h
      · exact absurd he h
      · exact h
    simp only [if_pos he2, if_pos he]
    rw [epilogueBody_error _ _ _ _ _ h1]
    rfl
  · have he2 : ¬(prologueBody t0 s).BENCH_DATA.errCode = NO_ERROR := he
    simp only [if_neg he2, if_neg he]

theorem process1_body_world (cfg : Config) (env : IterEnv) (s : SamplingState) :
    (process1_body cfg env s).world =
      (samplingIteration cfg 0 0 env.PAYLOAD env.t0 env.t1 s).world := by
  unfold process1_body
  simp only []
  split <;> rfl

theorem genSkeleton_below (cfg : Config) (TYPE : DumpType) (trigger : Call) (PARTID : Nat)
    (TRIGGER : World → World) (t0 t1 : Nat × Nat) (s : SamplingState)
    (h0 : t0.2 = NO_ERROR) (h1 : t1.2 = NO_ERROR) (h2 : s.BENCH_DATA.samples < 10000) :
    (genSkeleton cfg TYPE trigger PARTID TRIGGER t0 t1 s).calls =
      s.calls ++ measuredCalls trigger ++ [.INT_BENCH_DUMP TYPE PARTID] ∧
    (genSkeleton cfg TYPE trigger PARTID TRIGGER t0 t1 s).BENCH_DATA.samples =
      s.BENCH_DATA.samples + 1 ∧
    ∃ (w0 : World) (d : int_bench_measure_t),
      (genSkeleton cfg TYPE trigger PARTID TRIGGER t0 t1 s).world.mem =
        INT_BENCH_DUMP cfg PARTID d TYPE (TRIGGER w0).mem ∧
      w0.mem = s.world.mem ∧ d.startTime = t0.1 % 2 ^ 64 ∧ d.endTime = t1.1 % 2 ^ 64 := by
  have h5 : 10000 > s.BENCH_DATA.samples := h2
  have h6 : (s.BENCH_DATA.samples + 1) % 2 ^ 32 = s.BENCH_DATA.samples + 1 :=
    Nat.mod_eq_of_lt (by omega)
  unfold genSkeleton
  simp only [INT_BENCH_SAMPLE_COUNT]
  simp only [h0, h1, h5, if_true]
  exact ⟨by simp [measuredCalls], h6, _, _, rfl, rfl, rfl, rfl⟩

theorem genSkeleton_at_cap (cfg : Config) (TYPE : DumpType) (trigger : Call) (PARTID : Nat)
    (TRIGGER : World → World) (t0 t1 : Nat × Nat) (s : SamplingState)
    (h0 : t0.2 = NO_ERROR) (h1 : t1.2 = NO_ERROR) (h2 : 10000 ≤ s.BENCH_DATA.samples) :
    (genSkeleton cfg TYPE trigger PARTID TRIGGER t0 t1 s).calls =
      s.calls ++ measuredCalls trigger ∧
    (genSkeleton cfg TYPE trigger PARTID TRIGGER t0 t1 s).BENCH_DATA.samples =
      s.BENCH_DATA.samples ∧
    ∃ w0 : World,
      (genSkeleton cfg TYPE trigger PARTID TRIGGER t0 t1 s).world.mem = (TRIGGER w0).mem ∧
      w0.mem = s.world.mem := by
  have h5 : ¬ 10000 > s.BENCH_DATA.samples := by omega
  unfold genSkeleton
  simp only [INT_BENCH_SAMPLE_COUNT]
  simp only [h0, h1, h5, if_true, if_false]
  exact ⟨by simp [measuredCalls], trivial, _, rfl, rfl⟩

/-! ## Claims about the frame counter and the sample cap -/

/-- C11. Every iteration of the sampling loop leaves the frame counter at
`(frame + 1) mod 10` (computed on the `uint32_t` counter), whatever the frame, the results of
the two timestamp captures and the sample count.  In a run of the loop that starts with the
frame counter at 0, the frame after `n` iterations is `n mod 10`: it stays in 0..9, each
iteration moves it from `f` to `(f + 1) mod 10`, the first ten iterations find it at
0, 1, ..., 9 in this order, and ten more iterations bring it back to the same value. -/
theorem frame_counter_cycle (cfg : Config) (s : SamplingState) (h0 : s.MAF_COUNT = 0) :
    (∀ (CORE PARTID : Nat) (PAYLOAD : World → World) (t0 t1 : Nat × Nat) (s2 : SamplingState),
      (samplingIteration cfg CORE PARTID PAYLOAD t0 t1 s2).MAF_COUNT =
        (s2.MAF_COUNT + 1) % 2 ^ 32 % 10 ∧
      (s2.MAF_COUNT + 1 < 2 ^ 32 →
        (samplingIteration cfg CORE PARTID PAYLOAD t0 t1 s2).MAF_COUNT =
          (s2.MAF_COUNT + 1) % 10)) ∧
    (∀ envs : List IterEnv,
      (process1_loop cfg envs s).MAF_COUNT = envs.length % 10 ∧
      (process1_loop cfg envs s).MAF_COUNT ≤ 9) ∧
    (∀ (envs : List IterEnv) (env : IterEnv),
      (process1_loop cfg (envs ++ [env]) s).MAF_COUNT =
        ((process1_loop cfg envs s).MAF_COUNT + 1) % 10) ∧
    (∀ (envs : List IterEnv) (k : Nat), k < 10 → k ≤ envs.length →
      (process1_loop cfg (envs.take k) s).MAF_COUNT = k) ∧
    (∀ envs more : List IterEnv, more.length = 10 →
      (process1_loop cfg (envs ++ more) s).MAF_COUNT = (process1_loop cfg envs s).MAF_COUNT) := by
  have hlt : s.MAF_COUNT < 10 := by omega
  have hloop : ∀ envs : List IterEnv, (process1_loop cfg envs s).MAF_COUNT = envs.length % 10 := by
    intro envs
    rw [process1_loop_MAF cfg envs s hlt, h0, Nat.zero_add]
  refine ⟨?_, ?_, ?_, ?_, ?_⟩
  · intro CORE PARTID PAYLOAD t0 t1 s2
    have h := samplingIteration_MAF cfg CORE PARTID PAYLOAD t0 t1 s2
    refine ⟨h, fun hs => ?_⟩
    rw [h, Nat.mod_eq_of_lt hs]
  · intro envs
    rw [hloop]
    exact ⟨rfl, by omega⟩
  · intro envs env
    rw [hloop, hloop, List.length_append, List.length_singleton]
    omega
  · intro envs k hk hle
    rw [hloop, List.length_take, Nat.min_eq_left hle, Nat.mod_eq_of_lt hk]
  · intro envs more hm
    rw [hloop, hloop, List.length_append, hm]
    omega

theorem frame_counter_cycle_witness :
    (zeroSampling 0).MAF_COUNT = 0 ∧
    (process1_loop sourceConfig [okEnv, okEnv, okEnv] (zeroSampling 0)).MAF_COUNT = 3 :=
  ⟨rfl, ((frame_counter_cycle sourceConfig (zeroSampling 0) rfl).2.1 [okEnv, okEnv, okEnv]).1⟩

/-- C12. Starting from a sample count of 0, a run of the sampling loop of any length appends
exactly `min n 10000` records, where `n` is the number of its successful ACTIVE iterations,
and successive calls of any one of the four stimulus generators append exactly
`min n 10000` records, where `n` is the number of calls in which both timestamps are
obtained: the number of records appended by the instance never exceeds the cap of 10000. -/
theorem sample_cap (cfg : Config) (s : SamplingState) (hs : s.BENCH_DATA.samples = 0) :
    (∀ envs : List IterEnv,
      (process1_loop cfg envs s).calls.countP isDump =
        s.calls.countP isDump + min (successCount envs s.MAF_COUNT) INT_BENCH_SAMPLE_COUNT ∧
      (process1_loop cfg envs s).calls.countP isDump ≤
        s.calls.countP isDump + INT_BENCH_SAMPLE_COUNT) ∧
    (∀ (g : Stimulus) (COREID PARTID DSTID : Nat) (envs : List GenEnv),
      (genRun cfg g COREID PARTID DSTID envs s).calls.countP isDump =
        s.calls.countP isDump + min (envs.countP GenEnv.ok) INT_BENCH_SAMPLE_COUNT ∧
      (genRun cfg g COREID PARTID DSTID envs s).calls.countP isDump ≤
        s.calls.countP isDump + INT_BENCH_SAMPLE_COUNT) := by
  constructor
  · intro envs
    obtain ⟨i1, i2, -⟩ := process1_loop_counts cfg envs s (by omega)
    rw [hs] at i1 i2
    simp only [INT_BENCH_SAMPLE_COUNT]
    omega
  · intro g COREID PARTID DSTID envs
    obtain ⟨i1, i2, -⟩ := genRun_counts cfg g COREID PARTID DSTID envs s (by omega)
    rw [hs] at i1 i2
    simp only [INT_BENCH_SAMPLE_COUNT]
    omega

theorem sample_cap_witness :
    (zeroSampling 1).BENCH_DATA.samples = 0 ∧
    (process1_loop sourceConfig [okEnv, okEnv] (zeroSampling 1)).calls.countP isDump ≤
      (zeroSampling 1).calls.countP isDump + INT_BENCH_SAMPLE_COUNT :=
  ⟨rfl, ((sample_cap sourceConfig (zeroSampling 1) rfl).1 [okEnv, okEnv]).2⟩

/-- C13. In a run of the sampling loop that starts from a sample count of 0 the notice that
the sample count is reached is printed once and only once: no run prefix holds it before the
10001st successful ACTIVE iteration, and every prefix that contains that iteration holds it
exactly once.  The iteration that prints it is the successful ACTIVE iteration that finds the
count equal to 10000; that iteration appends no record and leaves the count at 10001. -/
theorem cap_notice_once (cfg : Config) (s : SamplingState) (hs : s.BENCH_DATA.samples = 0) :
    (∀ envs : List IterEnv,
      (process1_loop cfg envs s).calls.countP isCapNotice =
        s.calls.countP isCapNotice +
          (if INT_BENCH_SAMPLE_COUNT < successCount envs s.MAF_COUNT then 1 else 0)) ∧
    (∀ (envs : List IterEnv) (env : IterEnv),
      (process1_body cfg env (process1_loop cfg envs s)).calls.countP isCapNotice =
        (process1_loop cfg envs s).calls.countP isCapNotice +
          (if env.ok (process1_loop cfg envs s).MAF_COUNT = true ∧
              (process1_loop cfg envs s).BENCH_DATA.samples = INT_BENCH_SAMPLE_COUNT
            then 1 else 0)) ∧
    (∀ (envs : List IterEnv) (env : IterEnv),
      env.ok (process1_loop cfg envs s).MAF_COUNT = true →
      (process1_loop cfg envs s).BENCH_DATA.samples = INT_BENCH_SAMPLE_COUNT →
      (process1_body cfg env (process1_loop cfg envs s)).calls.countP isDump =
        (process1_loop cfg envs s).calls.countP isDump ∧
      (process1_body cfg env (process1_loop cfg envs s)).BENCH_DATA.samples =
        INT_BENCH_SAMPLE_COUNT + 1) ∧
    (∀ envs : List IterEnv,
      (process1_loop cfg envs s).BENCH_DATA.samples =
        min (INT_BENCH_SAMPLE_COUNT + 1) (successCount envs s.MAF_COUNT)) := by
  refine ⟨?_, ?_, ?_, ?_⟩
  · intro envs
    obtain ⟨i1, -, i3⟩ := process1_loop_counts cfg envs s (by omega)
    rw [i1, hs, Nat.zero_add] at i3
    simp only [INT_BENCH_SAMPLE_COUNT]
    by_cases h : 10000 < successCount envs s.MAF_COUNT
    · have h2 : min 10001 (successCount envs s.MAF_COUNT) = 10001 := by omega
      rw [h2] at i3
      rw [if_pos h]
      simpa using i3
    · have h2 : ¬ min 10001 (successCount envs s.MAF_COUNT) = 10001 := by omega
      rw [if_neg h2] at i3
      rw [if_neg h]
      simpa using i3
  · intro envs env
    exact (process1_body_counts cfg env (process1_loop cfg envs s)).2.2
  · intro envs env hok hc
    obtain ⟨e1, e2, -⟩ := process1_body_counts cfg env (process1_loop cfg envs s)
    simp only [INT_BENCH_SAMPLE_COUNT] at hc ⊢
    rw [e1, e2, hc]
    simp [hok]
  · intro envs
    obtain ⟨i1, -, -⟩ := process1_loop_counts cfg envs s (by omega)
    rw [hs] at i1
    simp only [INT_BENCH_SAMPLE_COUNT]
    omega

theorem cap_notice_once_witness :
    (zeroSampling 1).BENCH_DATA.samples = 0 ∧
    (process1_loop sourceConfig [okEnv, okEnv] (zeroSampling 1)).BENCH_DATA.samples =
      min (INT_BENCH_SAMPLE_COUNT + 1) (successCount [okEnv, okEnv] (zeroSampling 1).MAF_COUNT) :=
  ⟨rfl, (cap_notice_once sourceConfig (zeroSampling 1) rfl).2.2.2 [okEnv, okEnv]⟩

/-- C14 as stated fails: called with a sample count of exactly 10000 and both timestamps
obtained, each of the four generators prints no notice and leaves the count at 10000, whereas
the epilogue of the sampling loop in the same situation prints the notice and leaves the
count at 10001. -/
theorem generators_silent_at_cap :
    (genCall sourceConfig .INT_INT 0 0 0 okGenEnv (sampledState 1 10000)).BENCH_DATA.samples
      = 10000 ∧
    (genCall sourceConfig .INT_INT 0 0 0 okGenEnv (sampledState 1 10000)).calls.countP isCapNotice
      = 0 ∧
    (genCall sourceConfig .SC 0 0 0 okGenEnv (sampledState 1 10000)).BENCH_DATA.samples
      = 10000 ∧
    (genCall sourceConfig .SC 0 0 0 okGenEnv (sampledState 1 10000)).calls.countP isCapNotice
      = 0 ∧
    (genCall sourceConfig .IPI 0 0 0 okGenEnv (sampledState 1 10000)).BENCH_DATA.samples
      = 10000 ∧
    (genCall sourceConfig .IPI 0 0 0 okGenEnv (sampledState 1 10000)).calls.countP isCapNotice
      = 0 ∧
    (genCall sourceConfig .EXT_INT 0 0 0 okGenEnv (sampledState 1 10000)).BENCH_DATA.samples
      = 10000 ∧
    (genCall sourceConfig .EXT_INT 0 0 0 okGenEnv (sampledState 1 10000)).calls.countP isCapNotice
      = 0 ∧
    (samplingIteration sourceConfig 0 0 id (1000, 0) (6000, 0)
      (sampledState 1 10000)).BENCH_DATA.samples = 10001 ∧
    (samplingIteration sourceConfig 0 0 id (1000, 0) (6000, 0)
      (sampledState 1 10000)).calls.countP isCapNotice = 1 := by
  decide

/-- C14 amended. For each of the four generators, in a call in which both timestamps are
obtained: if the sample count is below 10000 the generator appends one record to the region
of its stimulus type and increments the count; if the count is 10000 or more it appends
nothing, prints nothing and leaves the count unchanged, so the count of a generator never
goes past the cap and no notice is ever printed. -/
theorem generator_cap_policy (cfg : Config) (g : Stimulus) (COREID PARTID DSTID : Nat)
    (env : GenEnv) (s : SamplingState)
    (hok : env.t0.2 = NO_ERROR ∧ env.t1.2 = NO_ERROR) :
    (s.BENCH_DATA.samples < INT_BENCH_SAMPLE_COUNT →
      (genCall cfg g COREID PARTID DSTID env s).calls =
        s.calls ++ measuredCalls (g.trigger DSTID) ++ [.INT_BENCH_DUMP g.region PARTID] ∧
      (genCall cfg g COREID PARTID DSTID env s).BENCH_DATA.samples = s.BENCH_DATA.samples + 1 ∧
      ∃ (w0 : World) (d : int_bench_measure_t),
        (genCall cfg g COREID PARTID DSTID env s).world.mem =
          INT_BENCH_DUMP cfg PARTID d g.region (env.TRIGGER w0).mem ∧
        w0.mem = s.world.mem ∧
        d.startTime = env.t0.1 % 2 ^ 64 ∧ d.endTime = env.t1.1 % 2 ^ 64) ∧
    (INT_BENCH_SAMPLE_COUNT ≤ s.BENCH_DATA.samples →
      (genCall cfg g COREID PARTID DSTID env s).calls =
        s.calls ++ measuredCalls (g.trigger DSTID) ∧
      (genCall cfg g COREID PARTID DSTID env s).BENCH_DATA.samples = s.BENCH_DATA.samples ∧
      (genCall cfg g COREID PARTID DSTID env s).calls.countP isCapNotice =
        s.calls.countP isCapNotice ∧
      ∃ w0 : World,
        (genCall cfg g COREID PARTID DSTID env s).world.mem = (env.TRIGGER w0).mem ∧
        w0.mem = s.world.mem) := by
  rw [genCall_eq]
  constructor
  · intro h
    exact genSkeleton_below cfg g.region (g.trigger DSTID) PARTID env.TRIGGER env.t0 env.t1 s
      hok.1 hok.2 h
  · intro h
    obtain ⟨a, b, c⟩ := genSkeleton_at_cap cfg g.region (g.trigger DSTID) PARTID env.TRIGGER
      env.t0 env.t1 s hok.1 hok.2 h
    exact ⟨a, b, (genSkeleton_counts cfg g.region (g.trigger DSTID) PARTID env.TRIGGER env.t0
      env.t1 s (trigger_plain g DSTID)).2.2, c⟩

theorem generator_cap_policy_witness :
    (okGenEnv.t0.2 = NO_ERROR ∧ okGenEnv.t1.2 = NO_ERROR) ∧
    (INT_BENCH_SAMPLE_COUNT ≤ (sampledState 1 10000).BENCH_DATA.samples →
      (genCall sourceConfig .SC 1 1 0 okGenEnv (sampledState 1 10000)).calls =
        (sampledState 1 10000).calls ++ measuredCalls (Stimulus.trigger 0 .SC) ∧
      (genCall sourceConfig .SC 1 1 0 okGenEnv (sampledState 1 10000)).BENCH_DATA.samples =
        (sampledState 1 10000).BENCH_DATA.samples ∧
      (genCall sourceConfig .SC 1 1 0 okGenEnv (sampledState 1 10000)).calls.countP isCapNotice =
        (sampledState 1 10000).calls.countP isCapNotice ∧
      ∃ w0 : World,
        (genCall sourceConfig .SC 1 1 0 okGenEnv (sampledState 1 10000)).world.mem =
          (okGenEnv.TRIGGER w0).mem ∧
        w0.mem = (sampledState 1 10000).world.mem) :=
  ⟨⟨rfl, rfl⟩,
    (generator_cap_policy sourceConfig .SC 1 1 0 okGenEnv (sampledState 1 10000) ⟨rfl, rfl⟩).2⟩

/-- C15. In an ACTIVE frame of the sampling loop, if the start or the end timestamp is not
obtained, the iteration appends no record and leaves the sample count unchanged; it performs
no store of its own, so the memory is the one the payload left (or, if the start timestamp
failed, the memory at entry: the payload is not run) and the size field of every dump region
that the payload does not touch is unchanged; the frame counter advances to
`(frame + 1) mod 10`, and the loop goes on with the next iteration. -/
theorem timestamp_error_forfeits_sample (cfg : Config) (env : IterEnv) (s : SamplingState)
    (hact : 0 < s.MAF_COUNT ∧ 9 > s.MAF_COUNT)
    (herr : env.t0.2 ≠ NO_ERROR ∨ env.t1.2 ≠ NO_ERROR) :
    (process1_body cfg env s).calls.countP isDump = s.calls.countP isDump ∧
    (process1_body cfg env s).BENCH_DATA.samples = s.BENCH_DATA.samples ∧
    (∃ w0 : World, w0.mem = s.world.mem ∧
      (process1_body cfg env s).world.mem =
        if env.t0.2 = NO_ERROR then (env.PAYLOAD w0).mem else s.world.mem) ∧
    (∀ T : DumpType,
      (∀ w : World, load32 (env.PAYLOAD w).mem (INT_BENCH_DUMP_SIZE_ADDR cfg T) =
        load32 w.mem (INT_BENCH_DUMP_SIZE_ADDR cfg T)) →
      load32 (process1_body cfg env s).world.mem (INT_BENCH_DUMP_SIZE_ADDR cfg T) =
        load32 s.world.mem (INT_BENCH_DUMP_SIZE_ADDR cfg T)) ∧
    (process1_body cfg env s).MAF_COUNT = (s.MAF_COUNT + 1) % 10 ∧
    (∀ rest : List IterEnv,
      process1_loop cfg (env :: rest) s = process1_loop cfg rest (process1_body cfg env s)) := by
  obtain ⟨e1, e2, -⟩ := process1_body_counts cfg env s
  have hnok : ¬ env.ok s.MAF_COUNT = true := by
    rw [iterEnv_ok_iff]
    rintro ⟨-, h0, h1⟩
    rcases herr with h | h
    · exact h h0
    · exact h h1
  have hw : (process1_body cfg env s).world =
      if env.t0.2 = NO_ERROR then env.PAYLOAD (prologueBody env.t0 s).world
      else (prologueBody env.t0 s).world := by
    rw [process1_body_world]
    exact samplingIteration_error_world cfg 0 0 env.PAYLOAD env.t0 env.t1 s hact herr
  refine ⟨?_, ?_, ?_, ?_, ?_, fun _ => rfl⟩
  · rw [e2]
    simp [hnok]
  · rw [e1]
    simp [hnok]
  · refine ⟨(prologueBody env.t0 s).world, rfl, ?_⟩
    rw [hw]
    split <;> rfl
  · intro T hT
    rw [hw]
    split
    · rw [hT]
      rfl
    · rfl
  · rw [process1_body_MAF, Nat.mod_eq_of_lt (by omega : s.MAF_COUNT + 1 < 2 ^ 32)]

theorem timestamp_error_forfeits_sample_witness :
    (0 < (zeroSampling 3).MAF_COUNT ∧ 9 > (zeroSampling 3).MAF_COUNT) ∧
    (process1_body sourceConfig { okEnv with t1 := (0, 5) } (zeroSampling 3)).BENCH_DATA.samples
      = (zeroSampling 3).BENCH_DATA.samples :=
  ⟨by decide,
    (timestamp_error_forfeits_sample sourceConfig { okEnv with t1 := (0, 5) } (zeroSampling 3)
      (by decide) (Or.inr (by decide))).2.1⟩

/-! ## Appends to a dump region -/

theorem load32_store32_ne (m : Mem) (a b v : Nat) (h : a + 4 ≤ b ∨ b + 4 ≤ a) :
    load32 (store32 m a v) b = load32 m b :=
  load32_congr _ _ _ fun x h1 h2 => store32_outside _ _ _ _ (by omega)

theorem load32_store64_ne (m : Mem) (a b v : Nat) (h : a + 8 ≤ b ∨ b + 4 ≤ a) :
    load32 (store64 m a v) b = load32 m b :=
  load32_congr _ _ _ fun x h1 h2 => store64_outside _ _ _ _ (by omega)

theorem load64_store32_ne (m : Mem) (a b v : Nat) (h : a + 4 ≤ b ∨ b + 8 ≤ a) :
    load64 (store32 m a v) b = load64 m b :=
  load64_congr _ _ _ fun x h1 h2 => store32_outside _ _ _ _ (by omega)

/-- The eight stores of an append, written out for a size field at `sz` that holds `s` and a
record address `R` above it: what a later load finds, and which bytes differ. -/
theorem record_stores (m : Mem) (sz R P e l2 tlb v1 v2 v3 v4 : Nat) (h : sz + 4 ≤ R) :
    load32 (store32 (store32 (store32 (store32 (store32 (store64 (store32 (store32 m R P)
      sz v1) (R + 4) e) sz v2) (R + 12) l2) sz v3) (R + 16) tlb) sz v4) R = P % 2 ^ 32 ∧
    load64 (store32 (store32 (store32 (store32 (store32 (store64 (store32 (store32 m R P)
      sz v1) (R + 4) e) sz v2) (R + 12) l2) sz v3) (R + 16) tlb) sz v4) (R + 4) = e % 2 ^ 64 ∧
    load32 (store32 (store32 (store32 (store32 (store32 (store64 (store32 (store32 m R P)
      sz v1) (R + 4) e) sz v2) (R + 12) l2) sz v3) (R + 16) tlb) sz v4) (R + 12) = l2 % 2 ^ 32 ∧
    load32 (store32 (store32 (store32 (store32 (store32 (store64 (store32 (store32 m R P)
      sz v1) (R + 4) e) sz v2) (R + 12) l2) sz v3) (R + 16) tlb) sz v4) (R + 16)
      = tlb % 2 ^ 32 ∧
    load32 (store32 (store32 (store32 (store32 (store32 (store64 (store32 (store32 m R P)
      sz v1) (R + 4) e) sz v2) (R + 12) l2) sz v3) (R + 16) tlb) sz v4) sz = v4 % 2 ^ 32 ∧
    ∀ x, (x < sz ∨ sz + 4 ≤ x) → (x < R ∨ R + 20 ≤ x) →
      store32 (store32 (store32 (store32 (store32 (store64 (store32 (store32 m R P)
        sz v1) (R + 4) e) sz v2) (R + 12) l2) sz v3) (R + 16) tlb) sz v4 x = m x := by
  refine ⟨?_, ?_, ?_, ?_, ?_, ?_⟩
  · rw [load32_store32_ne _ _ _ _ (by omega), load32_store32_ne _ _ _ _ (by omega),
      load32_store32_ne _ _ _ _ (by omega), load32_store32_ne _ _ _ _ (by omega),
      load32_store32_ne _ _ _ _ (by omega), load32_store64_ne _ _ _ _ (by omega),
      load32_store32_ne _ _ _ _ (by omega), load32_store32]
  · rw [load64_store32_ne _ _ _ _ (by omega), load64_store32_ne _ _ _ _ (by omega),
      load64_store32_ne _ _ _ _ (by omega), load64_store32_ne _ _ _ _ (by omega),
      load64_store32_ne _ _ _ _ (by omega), load64_store64]
  · rw [load32_store32_ne _ _ _ _ (by omega), load32_store32_ne _ _ _ _ (by omega),
      load32_store32_ne _ _ _ _ (by omega), load32_store32]
  · rw [load32_store32_ne _ _ _ _ (by omega), load32_store32]
  · rw [load32_store32]
  · intro x h1 h2
    rw [store32_outside _ _ _ _ (by omega), store32_outside _ _ _ _ (by omega),
      store32_outside _ _ _ _ (by omega), store32_outside _ _ _ _ (by omega),
      store32_outside _ _ _ _ (by omega), store64_outside _ _ _ _ (by omega),
      store32_outside _ _ _ _ (by omega), store32_outside _ _ _ _ (by omega)]

/-- An append whose record lies below the end of the 32-bit address space is the eight
stores written out: the record fields at `R`, `R + 4`, `R + 12`, `R + 16` with
`R = CURSOR_ADDR + s`, and the size field set to `s + 4`, `s + 12`, `s + 16`, `s + 20`. -/
theorem INT_BENCH_DUMP_eq (cfg : Config) (PARTID : Nat) (d : int_bench_measure_t)
    (T : DumpType) (m : Mem) (s : Nat)
    (hs : load32 m (INT_BENCH_DUMP_SIZE_ADDR cfg T) = s)
    (hfit : INT_BENCH_DUMP_CURSOR_ADDR cfg T + s + 20 ≤ 2 ^ 32) :
    INT_BENCH_DUMP cfg PARTID d T m =
      store32 (store32 (store32 (store32 (store32 (store64 (store32 (store32 m
        (INT_BENCH_DUMP_CURSOR_ADDR cfg T + s) PARTID)
        (INT_BENCH_DUMP_SIZE_ADDR cfg T) (s + 4))
        (INT_BENCH_DUMP_CURSOR_ADDR cfg T + s + 4) (elapsed d))
        (INT_BENCH_DUMP_SIZE_ADDR cfg T) (s + 12))
        (INT_BENCH_DUMP_CURSOR_ADDR cfg T + s + 12) d.l2Miss)
        (INT_BENCH_DUMP_SIZE_ADDR cfg T) (s + 16))
        (INT_BENCH_DUMP_CURSOR_ADDR cfg T + s + 16) d.tlbMiss)
        (INT_BENCH_DUMP_SIZE_ADDR cfg T) (s + 20) := by
  have hca : INT_BENCH_DUMP_CURSOR_ADDR cfg T = INT_BENCH_DUMP_SIZE_ADDR cfg T + 4 := rfl
  generalize hsz : INT_BENCH_DUMP_SIZE_ADDR cfg T = sz at *
  unfold INT_BENCH_DUMP INT_BENCH_DUMP_CURSOR_PTR
  simp only [hsz, hca]
  rw [hca] at hfit
  have e1 : (sz + 4 + s) % 2 ^ 32 = sz + 4 + s := Nat.mod_eq_of_lt (by omega)
  rw [hs, e1]
  have l1 : load32 (store32 m (sz + 4 + s) PARTID) sz = s := by
    rw [load32_store32_ne _ _ _ _ (by omega), hs]
  rw [l1, load32_store32]
  have e2 : (s + 4) % 2 ^ 32 = s + 4 := Nat.mod_eq_of_lt (by omega)
  have e3 : (sz + 4 + (s + 4)) % 2 ^ 32 = sz + 4 + s + 4 := by
    rw [Nat.mod_eq_of_lt (by omega)]
    omega
  rw [e2, e3]
  rw [load32_store64_ne _ _ _ _ (by omega), load32_store32, e2, load32_store32]
  have e4 : (s + 4 + 8) % 2 ^ 32 = s + 12 := by
    rw [Nat.mod_eq_of_lt (by omega)]
  have e5 : (sz + 4 + (s + 12)) % 2 ^ 32 = sz + 4 + s + 12 := by
    rw [Nat.mod_eq_of_lt (by omega)]
    omega
  rw [e4, e5]
  rw [load32_store32_ne _ _ _ _ (by omega), load32_store32]
  have e6 : (s + 12) % 2 ^ 32 = s + 12 := Nat.mod_eq_of_lt (by omega)
  rw [e6, load32_store32]
  have e7 : (s + 12 + 4) % 2 ^ 32 = s + 16 := by
    rw [Nat.mod_eq_of_lt (by omega)]
  have e8 : (sz + 4 + (s + 16)) % 2 ^ 32 = sz + 4 + s + 16 := by
    rw [Nat.mod_eq_of_lt (by omega)]
    omega
  rw [e7, e8]
  rw [load32_store32_ne _ _ _ _ (by omega), load32_store32]
  have e9 : (s + 16) % 2 ^ 32 = s + 16 := Nat.mod_eq_of_lt (by omega)
  rw [e9]

theorem elapsed_lt (d : int_bench_measure_t) : elapsed d < 2 ^ 64 :=
  Nat.mod_lt _ (by norm_num)

/-- What an append leaves in memory when its record lies below the end of the 32-bit address
space: the four fields of the record, the size field, and every other byte as it was. -/
theorem INT_BENCH_DUMP_spec (cfg : Config) (PARTID : Nat) (d : int_bench_measure_t)
    (T : DumpType) (m : Mem) (s : Nat)
    (hs : load32 m (INT_BENCH_DUMP_SIZE_ADDR cfg T) = s)
    (hfit : INT_BENCH_DUMP_CURSOR_ADDR cfg T + s + 20 ≤ 2 ^ 32) :
    load32 (INT_BENCH_DUMP cfg PARTID d T m) (INT_BENCH_DUMP_CURSOR_ADDR cfg T + s)
      = PARTID % 2 ^ 32 ∧
    load64 (INT_BENCH_DUMP cfg PARTID d T m) (INT_BENCH_DUMP_CURSOR_ADDR cfg T + s + 4)
      = elapsed d ∧
    load32 (INT_BENCH_DUMP cfg PARTID d T m) (INT_BENCH_DUMP_CURSOR_ADDR cfg T + s + 12)
      = d.l2Miss % 2 ^ 32 ∧
    load32 (INT_BENCH_DUMP cfg PARTID d T m) (INT_BENCH_DUMP_CURSOR_ADDR cfg T + s + 16)
      = d.tlbMiss % 2 ^ 32 ∧
    load32 (INT_BENCH_DUMP cfg PARTID d T m) (INT_BENCH_DUMP_SIZE_ADDR cfg T) = s + 20 ∧
    ∀ x, (x < INT_BENCH_DUMP_SIZE_ADDR cfg T ∨ INT_BENCH_DUMP_SIZE_ADDR cfg T + 4 ≤ x) →
      (x < INT_BENCH_DUMP_CURSOR_ADDR cfg T + s ∨
        INT_BENCH_DUMP_CURSOR_ADDR cfg T + s + 20 ≤ x) →
      INT_BENCH_DUMP cfg PARTID d T m x = m x := by
  rw [INT_BENCH_DUMP_eq cfg PARTID d T m s hs hfit]
  have hca : INT_BENCH_DUMP_SIZE_ADDR cfg T + 4 ≤ INT_BENCH_DUMP_CURSOR_ADDR cfg T + s := by
    show _ ≤ INT_BENCH_DUMP_SIZE_ADDR cfg T + 4 + s
    omega
  obtain ⟨a, b, c, e, f, g⟩ := record_stores m (INT_BENCH_DUMP_SIZE_ADDR cfg T)
    (INT_BENCH_DUMP_CURSOR_ADDR cfg T + s) PARTID (elapsed d) d.l2Miss d.tlbMiss
    (s + 4) (s + 12) (s + 16) (s + 20) hca
  have hca2 : INT_BENCH_DUMP_CURSOR_ADDR cfg T = INT_BENCH_DUMP_SIZE_ADDR cfg T + 4 := rfl
  refine ⟨a, ?_, c, e, ?_, g⟩
  · rw [b, Nat.mod_eq_of_lt (elapsed_lt d)]
  · rw [f, Nat.mod_eq_of_lt (by omega : s + 20 < 2 ^ 32)]

theorem appendN_size (cfg : Config) (T : DumpType) (recs : List (Nat × int_bench_measure_t))
    (m : Mem) (s : Nat) (hs : load32 m (INT_BENCH_DUMP_SIZE_ADDR cfg T) = s)
    (hfit : INT_BENCH_DUMP_CURSOR_ADDR cfg T + s + 20 * recs.length ≤ 2 ^ 32) :
    load32 (appendN cfg T recs m) (INT_BENCH_DUMP_SIZE_ADDR cfg T) = s + 20 * recs.length := by
  induction recs generalizing m s with
  | nil => simpa [appendN] using hs
  | cons r rest ih =>
    obtain ⟨P, d⟩ := r
    rw [List.length_cons] at hfit ⊢
    have h1 := (INT_BENCH_DUMP_spec cfg P d T m s hs (by omega)).2.2.2.2.1
    show load32 (appendN cfg T rest (INT_BENCH_DUMP cfg P d T m)) _ = _
    rw [ih _ (s + 20) h1 (by omega)]
    omega

theorem bytesAt_20 (m : Mem) (a : Nat) :
    bytesAt m a 20 =
      [load8 m a, load8 m (a + 1), load8 m (a + 2), load8 m (a + 3), load8 m (a + 4),
       load8 m (a + 5), load8 m (a + 6), load8 m (a + 7), load8 m (a + 8), load8 m (a + 9),
       load8 m (a + 10), load8 m (a + 11), load8 m (a + 12), load8 m (a + 13),
       load8 m (a + 14), load8 m (a + 15), load8 m (a + 16), load8 m (a + 17),
       load8 m (a + 18), load8 m (a + 19)] := rfl

theorem beValue_4 (b0 b1 b2 b3 : Nat) :
    beValue [b0, b1, b2, b3] = b0 * 2 ^ 24 + b1 * 2 ^ 16 + b2 * 2 ^ 8 + b3 := by
  simp only [beValue, List.foldl]
  omega

theorem beValue_8 (b0 b1 b2 b3 b4 b5 b6 b7 : Nat) :
    beValue [b0, b1, b2, b3, b4, b5, b6, b7] =
      (b0 * 2 ^ 24 + b1 * 2 ^ 16 + b2 * 2 ^ 8 + b3) * 2 ^ 32 +
        (b4 * 2 ^ 24 + b5 * 2 ^ 16 + b6 * 2 ^ 8 + b7) := by
  simp only [beValue, List.foldl]
  omega

theorem decodeRecord_of_length (bs : List Nat) (h : bs.length = 20) :
    decodeRecord bs =
      some (beValue (bs.take 4), beValue ((bs.drop 4).take 8), beValue ((bs.drop 12).take 4),
        beValue ((bs.drop 16).take 4)) := by
  unfold decodeRecord
  rw [if_pos h]

/-- Decoding the 20 bytes at `a` yields the four fields read as big-endian words. -/
theorem decodeRecord_bytesAt (m : Mem) (a : Nat) :
    decodeRecord (bytesAt m a 20) =
      some (load32 m a, load64 m (a + 4), load32 m (a + 12), load32 m (a + 16)) := by
  rw [decodeRecord_of_length (bytesAt m a 20) (by simp [bytesAt]), bytesAt_20]
  show some (beValue [load8 m a, load8 m (a + 1), load8 m (a + 2), load8 m (a + 3)],
    beValue [load8 m (a + 4), load8 m (a + 5), load8 m (a + 6), load8 m (a + 7),
      load8 m (a + 8), load8 m (a + 9), load8 m (a + 10), load8 m (a + 11)],
    beValue [load8 m (a + 12), load8 m (a + 13), load8 m (a + 14), load8 m (a + 15)],
    beValue [load8 m (a + 16), load8 m (a + 17), load8 m (a + 18), load8 m (a + 19)]) = _
  rw [beValue_4, beValue_8, beValue_4, beValue_4]
  rfl

/-! ## Claims about the dump regions -/

/-- C16. For every dump type, starting from a size field of 0, after `N` appends
(`INT_BENCH_DUMP`) of that type whose records lie below the end of the 32-bit address space
the size field equals `20 * N`; this holds after each of the appends (after the first `k` the
field is `20 * k`), and an append that finds the field at `s` leaves it at `s + 20`, so no
append decreases it. -/
theorem dump_size_accounting (cfg : Config) (T : DumpType)
    (recs : List (Nat × int_bench_measure_t)) (m : Mem)
    (h0 : load32 m (INT_BENCH_DUMP_SIZE_ADDR cfg T) = 0)
    (hfit : INT_BENCH_DUMP_CURSOR_ADDR cfg T + 20 * recs.length ≤ 2 ^ 32) :
    load32 (appendN cfg T recs m) (INT_BENCH_DUMP_SIZE_ADDR cfg T) = 20 * recs.length ∧
    (∀ k, k ≤ recs.length →
      load32 (appendN cfg T (recs.take k) m) (INT_BENCH_DUMP_SIZE_ADDR cfg T) = 20 * k) ∧
    (∀ (k : Nat) (r : Nat × int_bench_measure_t), recs[k]? = some r →
      load32 (INT_BENCH_DUMP cfg r.1 r.2 T (appendN cfg T (recs.take k) m))
          (INT_BENCH_DUMP_SIZE_ADDR cfg T) =
        load32 (appendN cfg T (recs.take k) m) (INT_BENCH_DUMP_SIZE_ADDR cfg T) + 20 ∧
      load32 (appendN cfg T (recs.take k) m) (INT_BENCH_DUMP_SIZE_ADDR cfg T) ≤
        load32 (INT_BENCH_DUMP cfg r.1 r.2 T (appendN cfg T (recs.take k) m))
          (INT_BENCH_DUMP_SIZE_ADDR cfg T)) := by
  have hk : ∀ k, k ≤ recs.length →
      load32 (appendN cfg T (recs.take k) m) (INT_BENCH_DUMP_SIZE_ADDR cfg T) = 20 * k := by
    intro k hk
    have := appendN_size cfg T (recs.take k) m 0 h0
      (by rw [List.length_take, Nat.min_eq_left hk]; omega)
    rw [this, List.length_take, Nat.min_eq_left hk]
    omega
  refine ⟨?_, hk, ?_⟩
  · have := hk recs.length (Nat.le_refl _)
    rwa [List.take_length] at this
  · intro k r hr
    have hlt : k < recs.length := by
      rcases Nat.lt_or_ge k recs.length with h | h
      · exact h
      · rw [List.getElem?_eq_none h] at hr
        exact absurd hr (by simp)
    have h1 := hk k (Nat.le_of_lt hlt)
    have h2 := (INT_BENCH_DUMP_spec cfg r.1 r.2 T (appendN cfg T (recs.take k) m) (20 * k) h1
      (by omega)).2.2.2.2.1
    rw [h2, h1]
    exact ⟨rfl, by omega⟩

theorem dump_size_accounting_witness :
    load32 (fun _ => 0) (INT_BENCH_DUMP_SIZE_ADDR sourceConfig .SC) = 0 ∧
    load32 (appendN sourceConfig .SC [(1, ⟨0, 1000, 6000, 3, 7, 0⟩), (1, ⟨0, 7000, 9000, 0, 1, 1⟩)]
      (fun _ => 0)) (INT_BENCH_DUMP_SIZE_ADDR sourceConfig .SC) = 20 * 2 :=
  ⟨rfl, (dump_size_accounting sourceConfig .SC
    [(1, ⟨0, 1000, 6000, 3, 7, 0⟩), (1, ⟨0, 7000, 9000, 0, 1, 1⟩)] (fun _ => 0) rfl
    (by decide)).1⟩

/-- C17. An append of type `T` that finds the size field equal to `s`, its record lying below
the end of the 32-bit address space, writes one 20-byte record that starts at
`region_base(T) + 8 + s` (`region_base(T)` is the address of the magic of `T`): the 4-byte
partition id at offset 0, the 8-byte interval `endTime - startTime` at offset 4, the 4-byte
L2-miss count at offset 12 and the 4-byte TLB-miss count at offset 16; afterwards the size
field equals `s + 20`. -/
theorem record_layout (cfg : Config) (PARTID : Nat) (d : int_bench_measure_t) (T : DumpType)
    (m : Mem) (s : Nat)
    (hs : load32 m (INT_BENCH_DUMP_SIZE_ADDR cfg T) = s)
    (hfit : INT_BENCH_DUMP_MAGIC_ADDR cfg T + 8 + s + 20 ≤ 2 ^ 32) :
    INT_BENCH_DUMP_CURSOR_PTR cfg T m = INT_BENCH_DUMP_MAGIC_ADDR cfg T + 8 + s ∧
    load32 (INT_BENCH_DUMP cfg PARTID d T m) (INT_BENCH_DUMP_MAGIC_ADDR cfg T + 8 + s)
      = PARTID % 2 ^ 32 ∧
    load64 (INT_BENCH_DUMP cfg PARTID d T m) (INT_BENCH_DUMP_MAGIC_ADDR cfg T + 8 + s + 4)
      = (d.endTime % 2 ^ 64 + 2 ^ 64 - d.startTime % 2 ^ 64) % 2 ^ 64 ∧
    load32 (INT_BENCH_DUMP cfg PARTID d T m) (INT_BENCH_DUMP_MAGIC_ADDR cfg T + 8 + s + 12)
      = d.l2Miss % 2 ^ 32 ∧
    load32 (INT_BENCH_DUMP cfg PARTID d T m) (INT_BENCH_DUMP_MAGIC_ADDR cfg T + 8 + s + 16)
      = d.tlbMiss % 2 ^ 32 ∧
    load32 (INT_BENCH_DUMP cfg PARTID d T m) (INT_BENCH_DUMP_SIZE_ADDR cfg T) = s + 20 ∧
    (∀ x, INT_BENCH_DUMP cfg PARTID d T m x ≠ m x →
      (INT_BENCH_DUMP_SIZE_ADDR cfg T ≤ x ∧ x < INT_BENCH_DUMP_SIZE_ADDR cfg T + 4) ∨
      (INT_BENCH_DUMP_MAGIC_ADDR cfg T + 8 + s ≤ x ∧
        x < INT_BENCH_DUMP_MAGIC_ADDR cfg T + 8 + s + 20)) := by
  have hca : INT_BENCH_DUMP_CURSOR_ADDR cfg T = INT_BENCH_DUMP_MAGIC_ADDR cfg T + 8 := rfl
  have hsz : INT_BENCH_DUMP_SIZE_ADDR cfg T = INT_BENCH_DUMP_MAGIC_ADDR cfg T + 4 := rfl
  obtain ⟨a, b, c, e, f, g⟩ := INT_BENCH_DUMP_spec cfg PARTID d T m s hs (by rw [hca]; exact hfit)
  rw [hca] at a b c e g
  refine ⟨?_, a, b, c, e, f, ?_⟩
  · unfold INT_BENCH_DUMP_CURSOR_PTR
    rw [hs, hca, Nat.mod_eq_of_lt (by omega)]
  · intro x hx
    by_contra hcon
    apply hx
    apply g x
    · rw [hsz] at hcon ⊢
      omega
    · rw [hsz] at hcon
      omega

theorem record_layout_witness :
    load32 (fun _ => 0) (INT_BENCH_DUMP_SIZE_ADDR sourceConfig .PART) = 0 ∧
    load64 (INT_BENCH_DUMP sourceConfig 1 ⟨0, 1000, 6000, 3, 7, 0⟩ .PART (fun _ => 0))
      (INT_BENCH_DUMP_MAGIC_ADDR sourceConfig .PART + 8 + 0 + 4) = 5000 :=
  ⟨rfl, (record_layout sourceConfig 1 ⟨0, 1000, 6000, 3, 7, 0⟩ .PART (fun _ => 0) 0 rfl
    (by decide)).2.2.1⟩

/-- C18. For every partition id, L2-miss count and TLB-miss count that fit their 32-bit fields
and every pair of timestamps with elapsed interval `endTime - startTime = interval`, decoding
with the documented layout (4B id, 8B interval, 4B L2, 4B TLB, most significant byte first)
the 20 bytes that an append writes at `region_base(T) + 8 + s` returns exactly the partition
id, the interval and the two counts that were written. -/
theorem record_round_trip (cfg : Config) (PARTID interval : Nat) (d : int_bench_measure_t)
    (T : DumpType) (m : Mem) (s : Nat)
    (hs : load32 m (INT_BENCH_DUMP_SIZE_ADDR cfg T) = s)
    (hfit : INT_BENCH_DUMP_MAGIC_ADDR cfg T + 8 + s + 20 ≤ 2 ^ 32)
    (hP : PARTID < 2 ^ 32) (hl2 : d.l2Miss < 2 ^ 32) (htlb : d.tlbMiss < 2 ^ 32)
    (hint : elapsed d = interval) :
    decodeRecord (bytesAt (INT_BENCH_DUMP cfg PARTID d T m)
      (INT_BENCH_DUMP_MAGIC_ADDR cfg T + 8 + s) 20) =
      some (PARTID, interval, d.l2Miss, d.tlbMiss) := by
  have hca : INT_BENCH_DUMP_CURSOR_ADDR cfg T = INT_BENCH_DUMP_MAGIC_ADDR cfg T + 8 := rfl
  obtain ⟨a, b, c, e, -, -⟩ := INT_BENCH_DUMP_spec cfg PARTID d T m s hs (by rw [hca]; exact hfit)
  rw [hca] at a b c e
  rw [decodeRecord_bytesAt, a, b, c, e, Nat.mod_eq_of_lt hP, Nat.mod_eq_of_lt hl2,
    Nat.mod_eq_of_lt htlb, hint]

theorem record_round_trip_witness :
    decodeRecord (bytesAt (INT_BENCH_DUMP sourceConfig 1 ⟨0, 1000, 6000, 3, 7, 0⟩ .PART
      (fun _ => 0)) (INT_BENCH_DUMP_MAGIC_ADDR sourceConfig .PART + 8 + 0) 20) =
      some (1, 5000, 3, 7) :=
  record_round_trip sourceConfig 1 5000 ⟨0, 1000, 6000, 3, 7, 0⟩ .PART (fun _ => 0) 0 rfl
    (by decide) (by decide) (by decide) (by decide) (by decide)

/-- C19. An append of type `T` that finds the size field equal to `s`, its record lying inside
the record area of `T` (`s + 20 ≤ REGION_SIZE - 8`) and the dump regions lying in the 32-bit
address space, changes no byte outside the size field of `T` and the 20 bytes at offsets
`[s, s + 20)` of the record area of `T`: the records written before (offsets below `s`), the
magic of `T`, the top-level magic, the ready mask, the lock and the wait flag, and every byte
of the regions of the other four types are unchanged. -/
theorem append_only (cfg : Config) (PARTID : Nat) (d : int_bench_measure_t) (T : DumpType)
    (m : Mem) (s : Nat)
    (hs : load32 m (INT_BENCH_DUMP_SIZE_ADDR cfg T) = s)
    (hfit : s + 20 ≤ INT_BENCH_DUMP_REG_SIZE - 8)
    (h32 : INT_BENCH_DUMP_REG_ADDR cfg + 5 * INT_BENCH_DUMP_REG_SIZE ≤ 2 ^ 32) :
    (∀ x, INT_BENCH_DUMP cfg PARTID d T m x ≠ m x →
      (INT_BENCH_DUMP_SIZE_ADDR cfg T ≤ x ∧ x < INT_BENCH_DUMP_SIZE_ADDR cfg T + 4) ∨
      (INT_BENCH_DUMP_CURSOR_ADDR cfg T + s ≤ x ∧
        x < INT_BENCH_DUMP_CURSOR_ADDR cfg T + s + 20)) ∧
    (∀ x, INT_BENCH_DUMP_CURSOR_ADDR cfg T ≤ x → x < INT_BENCH_DUMP_CURSOR_ADDR cfg T + s →
      INT_BENCH_DUMP cfg PARTID d T m x = m x) ∧
    (∀ x, INT_BENCH_DUMP_MAGIC_ADDR cfg T ≤ x → x < INT_BENCH_DUMP_MAGIC_ADDR cfg T + 4 →
      INT_BENCH_DUMP cfg PARTID d T m x = m x) ∧
    (∀ x, INT_BENCH_DUMP_REG_HEADER_MAGIC cfg ≤ x → x < INT_BENCH_DUMP_REG_HEADER_MAGIC cfg + 8 →
      INT_BENCH_DUMP cfg PARTID d T m x = m x) ∧
    (∀ x, INT_BENCH_RDYMASK_PTR cfg ≤ x → x < INT_BENCH_INT_WAIT_PTR cfg + 4 →
      INT_BENCH_DUMP cfg PARTID d T m x = m x) ∧
    (∀ (T2 : DumpType) (x : Nat), T2 ≠ T → INT_BENCH_DUMP_MAGIC_ADDR cfg T2 ≤ x →
      x < INT_BENCH_DUMP_MAGIC_ADDR cfg T2 + INT_BENCH_DUMP_REG_SIZE →
      INT_BENCH_DUMP cfg PARTID d T m x = m x) := by
  have hca : INT_BENCH_DUMP_CURSOR_ADDR cfg T = INT_BENCH_DUMP_MAGIC_ADDR cfg T + 8 := rfl
  have hsz : INT_BENCH_DUMP_SIZE_ADDR cfg T = INT_BENCH_DUMP_MAGIC_ADDR cfg T + 4 := rfl
  have hreg : INT_BENCH_DUMP_REG_SIZE = 0x200000 := rfl
  have hbase : INT_BENCH_DUMP_REG_ADDR cfg = cfg.INT_BENCH_SHARED_MEM_BASE + 0x1100 := rfl
  have hmag : INT_BENCH_DUMP_REG_ADDR cfg ≤ INT_BENCH_DUMP_MAGIC_ADDR cfg T ∧
      INT_BENCH_DUMP_MAGIC_ADDR cfg T + INT_BENCH_DUMP_REG_SIZE ≤
        INT_BENCH_DUMP_REG_ADDR cfg + 5 * INT_BENCH_DUMP_REG_SIZE := by
    cases T <;> simp only [INT_BENCH_DUMP_MAGIC_ADDR] <;> omega
  rw [hreg] at hfit h32 hmag
  obtain ⟨-, -, -, -, -, g⟩ := INT_BENCH_DUMP_spec cfg PARTID d T m s hs (by rw [hca]; omega)
  rw [hca, hsz] at g
  rw [hca, hsz]
  refine ⟨?_, ?_, ?_, ?_, ?_, ?_⟩
  · intro x hx
    by_contra hcon
    exact hx (g x (by omega) (by omega))
  · intro x h1 h2
    exact g x (by omega) (by omega)
  · intro x h1 h2
    exact g x (by omega) (by omega)
  · intro x h1 h2
    have : INT_BENCH_DUMP_REG_HEADER_MAGIC cfg = cfg.INT_BENCH_SHARED_MEM_BASE + 0x1000 := rfl
    exact g x (by omega) (by omega)
  · intro x h1 h2
    have e1 : INT_BENCH_RDYMASK_PTR cfg = cfg.INT_BENCH_SHARED_MEM_BASE := rfl
    have e2 : INT_BENCH_INT_WAIT_PTR cfg = cfg.INT_BENCH_SHARED_MEM_BASE + 12 := rfl
    exact g x (by omega) (by omega)
  · intro T2 x hne h1 h2
    rw [hreg] at h2
    have hsep : INT_BENCH_DUMP_MAGIC_ADDR cfg T2 + 0x200000 ≤ INT_BENCH_DUMP_MAGIC_ADDR cfg T ∨
        INT_BENCH_DUMP_MAGIC_ADDR cfg T + 0x200000 ≤ INT_BENCH_DUMP_MAGIC_ADDR cfg T2 := by
      cases T <;> cases T2 <;> simp only [INT_BENCH_DUMP_MAGIC_ADDR, hreg] <;>
        first | (exfalso; exact hne rfl) | omega
    exact g x (by omega) (by omega)

theorem append_only_witness :
    load32 (fun _ => 0) (INT_BENCH_DUMP_SIZE_ADDR sourceConfig .PART) = 0 ∧
    (∀ (T2 : DumpType) (x : Nat), T2 ≠ .PART → INT_BENCH_DUMP_MAGIC_ADDR sourceConfig T2 ≤ x →
      x < INT_BENCH_DUMP_MAGIC_ADDR sourceConfig T2 + INT_BENCH_DUMP_REG_SIZE →
      INT_BENCH_DUMP sourceConfig 1 ⟨0, 1000, 6000, 3, 7, 0⟩ .PART (fun _ => 0) x =
        (fun _ => 0 : Mem) x) :=
  ⟨rfl, (append_only sourceConfig 1 ⟨0, 1000, 6000, 3, 7, 0⟩ .PART (fun _ => 0) 0 rfl
    (by decide) (by decide)).2.2.2.2.2⟩

/-! ## The dump header -/

theorem memcpy_apply (m : Mem) (dst : Nat) (src : List Nat) (n x : Nat) :
    memcpy m dst src n x = if dst ≤ x ∧ x < dst + n then src.getD (x - dst) 0 % 256 else m x := by
  induction n with
  | zero =>
    have : ¬(dst ≤ x ∧ x < dst + 0) := by omega
    rw [if_neg this]
    rfl
  | succ k ih =>
    simp only [memcpy, store8_apply]
    by_cases hx : x = dst + k
    · have h1 : dst ≤ x ∧ x < dst + (k + 1) := by omega
      have h2 : x - dst = k := by omega
      rw [if_pos hx, if_pos h1, h2]
    · rw [if_neg hx, ih]
      by_cases h1 : dst ≤ x ∧ x < dst + k
      · have h2 : dst ≤ x ∧ x < dst + (k + 1) := by omega
        rw [if_pos h1, if_pos h2]
      · have h2 : ¬(dst ≤ x ∧ x < dst + (k + 1)) := by omega
        rw [if_neg h1, if_neg h2]

theorem magic_addr_eq (cfg : Config) (T : DumpType) :
    INT_BENCH_DUMP_MAGIC_ADDR cfg T =
      cfg.INT_BENCH_SHARED_MEM_BASE + 0x1100 + T.index * INT_BENCH_DUMP_REG_SIZE := by
  cases T <;> simp [INT_BENCH_DUMP_MAGIC_ADDR, INT_BENCH_DUMP_REG_ADDR, DumpType.index,
    INT_BENCH_DUMP_REG_SIZE]

/-- The byte that `INT_BENCH_DUMP_HADER` leaves at offset `i` of the magic of region `T`. -/
theorem hader_magic_byte (cfg : Config) (m : Mem) (T : DumpType) (i : Nat) (hi : i < 4) :
    INT_BENCH_DUMP_HADER cfg m (INT_BENCH_DUMP_MAGIC_ADDR cfg T + i) =
      (INT_BENCH_DUMP_HEADER_MAGIC_VAL T).getD i 0 % 256 := by
  unfold INT_BENCH_DUMP_HADER
  simp only [memcpy_apply]
  cases T <;>
    simp only [INT_BENCH_DUMP_MAGIC_ADDR, INT_BENCH_DUMP_REG_ADDR, INT_BENCH_DUMP_REG_SIZE,
      INT_BENCH_DUMP_REG_HEADER_MAGIC, INT_BENCH_DUMP_REG_HEADER_ADDR,
      INT_BENCH_DUMP_HEADER_MAGIC_VAL] <;>
    split_ifs <;> first | (exfalso; omega) | rw [Nat.add_sub_cancel_left]

/-- The byte that `INT_BENCH_DUMP_HADER` leaves at offset `i` of the top-level magic. -/
theorem hader_top_byte (cfg : Config) (m : Mem) (i : Nat) (hi : i < 8) :
    INT_BENCH_DUMP_HADER cfg m (INT_BENCH_DUMP_REG_HEADER_MAGIC cfg + i) =
      INT_BENCH_DUMP_REG_HEADER_MAGIC_VAL.getD i 0 % 256 := by
  unfold INT_BENCH_DUMP_HADER
  simp only [memcpy_apply]
  simp only [INT_BENCH_DUMP_MAGIC_ADDR, INT_BENCH_DUMP_REG_ADDR, INT_BENCH_DUMP_REG_SIZE,
      INT_BENCH_DUMP_REG_HEADER_MAGIC, INT_BENCH_DUMP_REG_HEADER_ADDR]
  split_ifs <;> first | (exfalso; omega) | rw [Nat.add_sub_cancel_left]

theorem bytesAt_4 (m : Mem) (a : Nat) :
    bytesAt m a 4 = [load8 m (a + 0), load8 m (a + 1), load8 m (a + 2), load8 m (a + 3)] := rfl

theorem bytesAt_8 (m : Mem) (a : Nat) :
    bytesAt m a 8 = [load8 m (a + 0), load8 m (a + 1), load8 m (a + 2), load8 m (a + 3),
      load8 m (a + 4), load8 m (a + 5), load8 m (a + 6), load8 m (a + 7)] := rfl

/-- After `INT_BENCH_DUMP_HADER` the six magic values are in memory. -/
theorem hader_written (cfg : Config) (m : Mem) : headerWritten cfg (INT_BENCH_DUMP_HADER cfg m) := by
  constructor
  · rw [bytesAt_8]
    simp only [load8]
    rw [hader_top_byte _ _ _ (by omega), hader_top_byte _ _ _ (by omega),
      hader_top_byte _ _ _ (by omega), hader_top_byte _ _ _ (by omega),
      hader_top_byte _ _ _ (by omega), hader_top_byte _ _ _ (by omega),
      hader_top_byte _ _ _ (by omega), hader_top_byte _ _ _ (by omega)]
    rfl
  · intro T
    rw [bytesAt_4]
    simp only [load8]
    rw [hader_magic_byte _ _ _ _ (by omega), hader_magic_byte _ _ _ _ (by omega),
      hader_magic_byte _ _ _ _ (by omega), hader_magic_byte _ _ _ _ (by omega)]
    cases T <;> rfl

/-- The magic values stay in memory as long as no byte from the top-level magic on changes. -/
theorem headerWritten_congr (cfg : Config) (m1 m2 : Mem)
    (h : ∀ x, INT_BENCH_DUMP_REG_HEADER_MAGIC cfg ≤ x → m2 x = m1 x)
    (hw : headerWritten cfg m1) : headerWritten cfg m2 := by
  have hb : ∀ a n, INT_BENCH_DUMP_REG_HEADER_MAGIC cfg ≤ a → bytesAt m2 a n = bytesAt m1 a n := by
    intro a n ha
    unfold bytesAt load8
    apply List.map_congr_left
    intro i _
    rw [h (a + i) (by omega)]
  obtain ⟨h1, h2⟩ := hw
  constructor
  · rw [hb _ _ (Nat.le_refl _)]
    exact h1
  · intro T
    rw [hb _ _ ?_]
    · exact h2 T
    · cases T <;>
        simp only [INT_BENCH_DUMP_MAGIC_ADDR, INT_BENCH_DUMP_REG_ADDR, INT_BENCH_DUMP_REG_SIZE,
          INT_BENCH_DUMP_REG_HEADER_MAGIC, INT_BENCH_DUMP_REG_HEADER_ADDR] <;> omega

theorem readyBit_testBit_one (c p : Nat) (h : (readyBit c p).testBit 1 = true) :
    c = 0 ∧ p = 1 := by
  by_cases hlt : c * 16 + p < 64
  · rw [readyBit_eq c p hlt, Nat.testBit_two_pow] at h
    have : c * 16 + p = 1 := by simpa using h
    omega
  · exfalso
    have hz : readyBit c p = 0 := by
      unfold readyBit
      rw [Nat.shiftLeft_eq, Nat.shiftLeft_eq, Nat.one_mul]
      by_cases hp : p < 64
      · rw [Nat.mod_eq_of_lt (Nat.pow_lt_pow_right (by norm_num) hp), ← Nat.pow_add]
        have : 2 ^ (p + c * 16) = 2 ^ 64 * 2 ^ (p + c * 16 - 64) := by
          rw [← Nat.pow_add]
          congr 1
          omega
        rw [this, Nat.mul_mod_right]
      · have : 2 ^ p = 2 ^ 64 * 2 ^ (p - 64) := by
          rw [← Nat.pow_add]
          congr 1
          omega
        rw [this, Nat.mul_mod_right, Nat.zero_mul, Nat.zero_mod]
    rw [hz] at h
    simp at h

theorem step_mem_high (cfg : Config) (c p e : Nat) (s : BarrierState) (x : Nat)
    (hx : INT_BENCH_RDYMASK_LOCK cfg + 4 ≤ x)
    (hne : ¬((s.loc c p).pc = .L95 ∧ 0 = c ∧ p = 1)) :
    (INT_BENCH_INIT_step cfg c p e s).mem x = s.mem x := by
  have h8 : cfg.INT_BENCH_SHARED_MEM_BASE + 8 + 4 ≤ x := hx
  cases hpc : (s.loc c p).pc
  case L95 =>
    simp only [INT_BENCH_INIT_step, hpc]
    rw [if_neg (fun h => hne ⟨hpc, h⟩)]
  all_goals
    simp only [INT_BENCH_INIT_step, hpc, __TestAndSet, __LockRelease, INT_BENCH_RDYMASK_LOCK,
      INT_BENCH_RDYMASK_PTR]
  case L101 => split <;> rfl
  case L103 => exact store64_outside _ _ _ _ (by omega)
  all_goals exact store32_outside _ _ _ _ (by omega)

theorem step_L95_elector_header (cfg : Config) (e : Nat) (s : BarrierState)
    (hpc : (s.loc 0 1).pc = .L95) :
    headerWritten cfg (INT_BENCH_INIT_step cfg 0 1 e s).mem := by
  have hm : (INT_BENCH_INIT_step cfg 0 1 e s).mem =
      store64 (INT_BENCH_DUMP_HADER cfg s.mem) (INT_BENCH_RDYMASK_PTR cfg) 0x0000000000000001 := by
    simp only [INT_BENCH_INIT_step, hpc]
    rfl
  rw [hm]
  apply headerWritten_congr cfg (INT_BENCH_DUMP_HADER cfg s.mem) _ _ (hader_written cfg s.mem)
  intro x hx
  have : INT_BENCH_DUMP_REG_HEADER_MAGIC cfg = cfg.INT_BENCH_SHARED_MEM_BASE + 0x1000 := rfl
  exact store64_outside _ _ _ _ (Or.inr (by
    show cfg.INT_BENCH_SHARED_MEM_BASE + 8 ≤ x
    omega))

theorem releasesAfterHeader_split (tr : List Ev) (h : releasesAfterHeader tr)
    (newer older : List Ev) (heq : tr = newer ++ ⟨0, 1, .LockRelease⟩ :: older) :
    ⟨0, 1, .DUMP_HADER⟩ ∈ older := by
  induction newer generalizing tr with
  | nil =>
    subst heq
    exact h.1 rfl
  | cons ev rest ih =>
    subst heq
    exact ih _ h.2 rfl

theorem stepActions_release (c p e : Nat) (pc : PC) (lock : Nat)
    (h : Action.LockRelease ∈ stepActions c p e pc lock) :
    stepActions c p e pc lock = [.LockRelease] ∧ (pc = .L105 ∨ pc = .L115) := by
  cases pc <;> simp only [stepActions] at h ⊢ <;>
    first
      | (split at h <;> simp at h)
      | (simp at h; done)
      | simp

/-- In a run from an initial state: the elector releases the lock only after it has written
the headers, the headers stay in memory once written, a ready mask with bit 1 set shows that
the elector is past line 95, and so does a participant that is out of the wait loop when the
target mask names the elector. -/
theorem header_inv (cfg : Config) (ps : List (Nat × Nat)) (s0 s : BarrierState)
    (h0 : BarrierStart cfg s0) (hr : Reach cfg ps s0 s) :
    releasesAfterHeader s.trace ∧
    (⟨0, 1, .DUMP_HADER⟩ ∈ s.trace → headerWritten cfg s.mem) ∧
    ((rdyMask cfg s.mem).testBit 1 = true → ⟨0, 1, .DUMP_HADER⟩ ∈ s.trace) ∧
    (cfg.INT_BENCH_RDYMASK_VAL.testBit 1 = true →
      ∀ c p, pastBarrier (s.loc c p).pc = true → ⟨0, 1, .DUMP_HADER⟩ ∈ s.trace) := by
  induction hr with
  | start =>
    obtain ⟨hm, -, hpc, htr⟩ := h0
    rw [htr, hm]
    refine ⟨trivial, by simp, by simp, ?_⟩
    intro _ c p hp
    rw [hpc c p] at hp
    exact absurd hp (by decide)
  | step s c p e hreach _ ih =>
    obtain ⟨ih1, ih2, ih3, ih4⟩ := ih
    obtain ⟨-, hpast, hboth⟩ := seed_inv cfg ps s0 s h0 hreach
    have htr := step_trace cfg c p e s
    have hold : ⟨0, 1, .DUMP_HADER⟩ ∈ s.trace →
        ⟨0, 1, .DUMP_HADER⟩ ∈ (INT_BENCH_INIT_step cfg c p e s).trace := by
      intro h
      rw [htr]
      exact List.mem_append_right _ h
    have hel : (s.loc 0 1).pc ≠ .L94 ∧ (s.loc 0 1).pc ≠ .L95 → ⟨0, 1, .DUMP_HADER⟩ ∈ s.trace :=
      fun h => hboth.1 (hpast.1 h)
    refine ⟨?_, ?_, ?_, ?_⟩
    · rw [htr]
      by_cases hrel : Action.LockRelease ∈ stepActions c p e (s.loc c p).pc (lockWord cfg s.mem)
      · obtain ⟨hact, hpc⟩ := stepActions_release c p e _ _ hrel
        rw [hact]
        refine ⟨?_, ih1⟩
        intro hev
        have hc : c = 0 := congrArg Ev.core hev
        have hp : p = 1 := congrArg Ev.partid hev
        subst hc hp
        apply hel
        rcases hpc with h | h <;> rw [h] <;> exact ⟨by decide, by decide⟩
      · generalize stepActions c p e (s.loc c p).pc (lockWord cfg s.mem) = acts at hrel
        induction acts with
        | nil => exact ih1
        | cons a rest iha =>
          refine ⟨?_, iha (fun h => hrel (List.mem_cons_of_mem _ h))⟩
          intro hev
          exfalso
          apply hrel
          have ha : a = .LockRelease := congrArg Ev.act hev
          rw [ha]
          exact List.mem_cons_self _ _
    · intro hmem
      by_cases h95 : (s.loc c p).pc = .L95 ∧ 0 = c ∧ p = 1
      · obtain ⟨hpc, hc, hp⟩ := h95
        subst hc hp
        exact step_L95_elector_header cfg e s hpc
      · have hin : ⟨0, 1, .DUMP_HADER⟩ ∈ s.trace := by
          rw [htr, List.mem_append, List.mem_map] at hmem
          rcases hmem with ⟨a, ha, hev⟩ | hmem
          · exfalso
            have hc : c = 0 := congrArg Ev.core hev
            have hp : p = 1 := congrArg Ev.partid hev
            have ha2 : a = .DUMP_HADER := congrArg Ev.act hev
            obtain ⟨hpc, hc2, hp2⟩ := stepActions_seed c p e _ _ a ha (Or.inl ha2)
            exact h95 ⟨hpc, hc2, hp2⟩
          · exact hmem
        apply headerWritten_congr cfg s.mem _ _ (ih2 hin)
        intro x hx
        apply step_mem_high cfg c p e s x _ h95
        have e1 : INT_BENCH_DUMP_REG_HEADER_MAGIC cfg = cfg.INT_BENCH_SHARED_MEM_BASE + 0x1000 :=
          rfl
        have e2 : INT_BENCH_RDYMASK_LOCK cfg = cfg.INT_BENCH_SHARED_MEM_BASE + 8 := rfl
        omega
    · intro hbit
      rw [step_mask] at hbit
      apply hold
      cases hpc : (s.loc c p).pc <;> rw [hpc] at hbit <;> simp only [nextMask] at hbit <;>
        try exact ih3 hbit
      · split at hbit
        · exact absurd hbit (by decide)
        · exact ih3 hbit
      · rw [Nat.testBit_or, Bool.or_eq_true] at hbit
        rcases hbit with hbit | hbit
        · exact ih3 hbit
        · obtain ⟨hc, hp⟩ := readyBit_testBit_one c p hbit
          subst hc hp
          apply hel
          rw [hpc]
          exact ⟨by decide, by decide⟩
    · intro htarget c2 p2 hp2
      by_cases hcp : c2 = c ∧ p2 = p
      · obtain ⟨rfl, rfl⟩ := hcp
        rw [step_pc] at hp2
        apply hold
        by_cases hwas : pastBarrier (s.loc c2 p2).pc = true
        · exact ih4 htarget c2 p2 hwas
        · apply ih3
          cases hpc : (s.loc c2 p2).pc <;> rw [hpc] at hp2 hwas <;>
            simp only [nextPC] at hp2 <;>
            first
              | (exfalso; exact hwas rfl)
              | (exfalso; revert hp2; split <;> decide)
              | (exfalso; revert hp2; decide)
              | skip
          by_cases hfull : cfg.INT_BENCH_RDYMASK_VAL ≠ rdyMask cfg s.mem
          · rw [if_pos hfull] at hp2
            exact absurd hp2 (by decide)
          · have : cfg.INT_BENCH_RDYMASK_VAL = rdyMask cfg s.mem := not_not.mp hfull
            rw [← this]
            exact htarget
      · rw [step_loc_other cfg c p e s c2 p2 hcp] at hp2
        exact hold (ih4 htarget c2 p2 hp2)

/-! ## Claim about the dump header -/

/-- C20. `INT_BENCH_DUMP_HADER` leaves the 8 bytes "INTBDUMP" at `base + 0x1000` and the five
4-byte magics "PART", "SC  ", "IINT", "EINT", "IPI " at `base + 0x1100 + k * REGION_SIZE` for
`k = 0, 1, 2, 3, 4`, which are the magic addresses of the regions PART, SC, INTINT, EXTINT and
IPI.  In every run of the barrier from an initial state, each release of the lock by the
elector comes after the elector's `INT_BENCH_DUMP_HADER`, the magics stay in memory once
written, and, the target mask naming the elector (bit 1), every participant that has left the
wait loop finds them written. -/
theorem dump_header (cfg : Config) (ps : List (Nat × Nat)) (s0 s : BarrierState) (m : Mem)
    (h0 : BarrierStart cfg s0) (hr : Reach cfg ps s0 s)
    (hnamed : cfg.INT_BENCH_RDYMASK_VAL.testBit 1 = true) :
    bytesAt (INT_BENCH_DUMP_HADER cfg m) (cfg.INT_BENCH_SHARED_MEM_BASE + 0x1000) 8 =
      "INTBDUMP".toList.map Char.toNat ∧
    bytesAt (INT_BENCH_DUMP_HADER cfg m)
      (cfg.INT_BENCH_SHARED_MEM_BASE + 0x1100 + 0 * INT_BENCH_DUMP_REG_SIZE) 4 =
      "PART".toList.map Char.toNat ∧
    bytesAt (INT_BENCH_DUMP_HADER cfg m)
      (cfg.INT_BENCH_SHARED_MEM_BASE + 0x1100 + 1 * INT_BENCH_DUMP_REG_SIZE) 4 =
      "SC  ".toList.map Char.toNat ∧
    bytesAt (INT_BENCH_DUMP_HADER cfg m)
      (cfg.INT_BENCH_SHARED_MEM_BASE + 0x1100 + 2 * INT_BENCH_DUMP_REG_SIZE) 4 =
      "IINT".toList.map Char.toNat ∧
    bytesAt (INT_BENCH_DUMP_HADER cfg m)
      (cfg.INT_BENCH_SHARED_MEM_BASE + 0x1100 + 3 * INT_BENCH_DUMP_REG_SIZE) 4 =
      "EINT".toList.map Char.toNat ∧
    bytesAt (INT_BENCH_DUMP_HADER cfg m)
      (cfg.INT_BENCH_SHARED_MEM_BASE + 0x1100 + 4 * INT_BENCH_DUMP_REG_SIZE) 4 =
      "IPI ".toList.map Char.toNat ∧
    (∀ T : DumpType, INT_BENCH_DUMP_MAGIC_ADDR cfg T =
      cfg.INT_BENCH_SHARED_MEM_BASE + 0x1100 + T.index * INT_BENCH_DUMP_REG_SIZE) ∧
    (∀ newer older : List Ev, s.trace = newer ++ ⟨0, 1, .LockRelease⟩ :: older →
      ⟨0, 1, .DUMP_HADER⟩ ∈ older) ∧
    (⟨0, 1, .DUMP_HADER⟩ ∈ s.trace → headerWritten cfg s.mem) ∧
    (∀ c p, pastBarrier (s.loc c p).pc = true →
      ⟨0, 1, .DUMP_HADER⟩ ∈ s.trace ∧ headerWritten cfg s.mem) := by
  obtain ⟨hw1, hw2⟩ := hader_written cfg m
  obtain ⟨i1, i2, -, i4⟩ := header_inv cfg ps s0 s h0 hr
  have hT : ∀ T : DumpType, bytesAt (INT_BENCH_DUMP_HADER cfg m)
      (cfg.INT_BENCH_SHARED_MEM_BASE + 0x1100 + T.index * INT_BENCH_DUMP_REG_SIZE) 4 =
      INT_BENCH_DUMP_HEADER_MAGIC_VAL T := by
    intro T
    rw [← magic_addr_eq]
    exact hw2 T
  refine ⟨hw1, hT .PART, hT .SC, hT .INTINT, hT .EXTINT, hT .IPI, magic_addr_eq cfg, ?_, i2, ?_⟩
  · intro newer older heq
    exact releasesAfterHeader_split s.trace i1 newer older heq
  · intro c p hp
    have := i4 hnamed c p hp
    exact ⟨this, i2 this⟩

theorem dump_header_witness :
    BarrierStart sourceConfig zeroState ∧
    sourceConfig.INT_BENCH_RDYMASK_VAL.testBit 1 = true ∧
    (⟨0, 1, .DUMP_HADER⟩ ∈ (runBarrier sourceConfig [(0, 1, 0), (0, 1, 0)] zeroState).trace →
      headerWritten sourceConfig (runBarrier sourceConfig [(0, 1, 0), (0, 1, 0)] zeroState).mem) :=
  ⟨⟨by decide, by decide, fun _ _ => rfl, rfl⟩, by decide,
    (dump_header sourceConfig [(0, 1)] zeroState
      (runBarrier sourceConfig [(0, 1, 0), (0, 1, 0)] zeroState) (fun _ => 0)
      ⟨by decide, by decide, fun _ _ => rfl, rfl⟩
      (reach_run sourceConfig [(0, 1)] [(0, 1, 0), (0, 1, 0)] zeroState (by decide))
      (by decide)).2.2.2.2.2.2.2.2.1⟩

/-! ## The performance-monitor driver -/

theorem mtpmr_apply (pmr : Pmr) (rn v r : Nat) :
    mtpmr pmr rn v r = if r = rn then v % 2 ^ 32 else pmr r := rfl

theorem writePMR_pmc (pmr : Pmr) (id v : Nat) (h : id ≤ 5) :
    __PMCDrvWritePMR pmr (PMR_PMC + id) v = mtpmr pmr (PMR_PMC + id) v := by
  interval_cases id <;> rfl

theorem writePMR_pmlca (pmr : Pmr) (id v : Nat) (h : id ≤ 5) :
    __PMCDrvWritePMR pmr (PMR_PMLCA + id) v = mtpmr pmr (PMR_PMLCA + id) v := by
  interval_cases id <;> rfl

theorem writePMR_pmlcb (pmr : Pmr) (id v : Nat) (h : id ≤ 5) :
    __PMCDrvWritePMR pmr (PMR_PMLCB + id) v = mtpmr pmr (PMR_PMLCB + id) v := by
  interval_cases id <;> rfl

theorem writePMR_pmgc0 (pmr : Pmr) (v : Nat) :
    __PMCDrvWritePMR pmr PMR_PMGC0 v = mtpmr pmr PMR_PMGC0 v := rfl

theorem readPMR_pmc (pmr : Pmr) (id : Nat) (h : id ≤ 5) :
    __PMCDrvReadPMR pmr (PMR_PMC + id) = mfpmr pmr (PMR_PMC + id) := by
  interval_cases id <;> rfl

theorem readPMR_pmgc0 (pmr : Pmr) : __PMCDrvReadPMR pmr PMR_PMGC0 = mfpmr pmr PMR_PMGC0 := rfl

/-- The register file after `__PMCDrvWrite` on a valid channel. -/
theorem PMCDrvWrite_valid (pmr : Pmr) (id v : Nat) (h : id ≤ 5) :
    __PMCDrvWrite pmr id v = (NO_ERROR, mtpmr pmr (PMR_PMC + id) v) := by
  unfold __PMCDrvWrite
  rw [if_neg (by simp only [E6500_PMC_ID_MAX_VALUE]; omega), writePMR_pmc pmr id v h]

/-- The result of `__PMCDrvRead` on a valid channel. -/
theorem PMCDrvRead_valid (pmr : Pmr) (id out : Nat) (h : id ≤ 5) :
    __PMCDrvRead pmr id out = (NO_ERROR, pmr (PMR_PMC + id) % 2 ^ 32) := by
  unfold __PMCDrvRead
  rw [if_neg (by simp only [E6500_PMC_ID_MAX_VALUE]; omega), readPMR_pmc pmr id h]
  rfl

/-- The register file after `__PMCDrvDisable` on a valid channel. -/
theorem PMCDrvDisable_valid (pmr : Pmr) (id : Nat) (h : id ≤ 5) :
    __PMCDrvDisable pmr id = (NO_ERROR, mtpmr pmr (PMR_PMLCA + id) PMR_PMLCAX_FC) := by
  unfold __PMCDrvDisable
  rw [if_neg (by simp only [E6500_PMC_ID_MAX_VALUE]; omega), writePMR_pmlca pmr id _ h]

/-- The register file after `__PMCDrvEnable` on a valid channel: control word A, then control
word B, then the global register computed from its previous value. -/
theorem PMCDrvEnable_valid (pmr : Pmr) (id event : Nat) (te : PMC_TRACE_ENTITY_E)
    (intEnabled : Nat) (h : id ≤ 5) :
    __PMCDrvEnable pmr id event te intEnabled =
      (NO_ERROR,
        mtpmr (mtpmr (mtpmr pmr (PMR_PMLCA + id) (enableWordA event te intEnabled))
          (PMR_PMLCB + id) 0) PMR_PMGC0
          (((pmr PMR_PMGC0 % 2 ^ 32) &&& not32 PMR_PMGC0_FAC) ||| PMR_PMGC0_PMIE |||
            PMR_PMGC0_FCECE)) := by
  unfold __PMCDrvEnable
  rw [if_neg (by simp only [E6500_PMC_ID_MAX_VALUE]; omega)]
  simp only [writePMR_pmlca pmr id _ h, writePMR_pmlcb _ id _ h, writePMR_pmgc0, readPMR_pmgc0]
  have hg : mfpmr (mtpmr (mtpmr pmr (PMR_PMLCA + id) (enableWordA event te intEnabled))
      (PMR_PMLCB + id) 0) PMR_PMGC0 = pmr PMR_PMGC0 % 2 ^ 32 := by
    unfold mfpmr
    rw [mtpmr_apply, mtpmr_apply]
    have h1 : ¬ PMR_PMGC0 = PMR_PMLCB + id := by
      simp only [PMR_PMGC0, PMR_PMLCB]
      omega
    have h2 : ¬ PMR_PMGC0 = PMR_PMLCA + id := by
      simp only [PMR_PMGC0, PMR_PMLCA]
      omega
    rw [if_neg h1, if_neg h2]
  rw [hg]

theorem enableWordA_nonzero (e : Nat) (te : PMC_TRACE_ENTITY_E) (f : Nat) (hf : f ≠ 0) :
    enableWordA e te f = enableWordA e te 1 := by
  have h1 : 0 ≠ f := fun h => hf h.symm
  unfold enableWordA
  simp only [if_pos h1, if_pos (show (0 : Nat) ≠ 1 by decide)]

set_option maxRecDepth 100000 in
theorem enableWordA_table :
    ∀ e < 512,
      (enableWordA e .PMC_SUPERVISOR 0 = e * 65536 ∧
        enableWordA e .PMC_SUPERVISOR 1 = e * 65536 + 67108864) ∧
      (enableWordA e .PMC_USER 0 = e * 65536 ∧
        enableWordA e .PMC_USER 1 = e * 65536 + 67108864) ∧
      (enableWordA e .PMC_ALL 0 = e * 65536 ∧
        enableWordA e .PMC_ALL 1 = e * 65536 + 67108864) := by
  decide!

set_option maxRecDepth 100000 in
theorem eventField_table :
    ∀ e < 512,
      ((e * 65536) &&& 0x01FF0000) >>> 16 = e ∧
      ((e * 65536 + 67108864) &&& 0x01FF0000) >>> 16 = e ∧
      (e * 65536).testBit 31 = false ∧ (e * 65536 + 67108864).testBit 31 = false ∧
      (e * 65536).testBit 30 = false ∧ (e * 65536 + 67108864).testBit 30 = false ∧
      (e * 65536).testBit 29 = false ∧ (e * 65536 + 67108864).testBit 29 = false ∧
      (e * 65536).testBit 28 = false ∧ (e * 65536 + 67108864).testBit 28 = false ∧
      (e * 65536).testBit 27 = false ∧ (e * 65536 + 67108864).testBit 27 = false ∧
      (e * 65536).testBit 26 = false ∧ (e * 65536 + 67108864).testBit 26 = true ∧
      e * 65536 + 67108864 < 2 ^ 32 := by
  decide!

/-- The control word A computed by `__PMCDrvEnable` for an event code below 512. -/
theorem enableWordA_eq (e : Nat) (te : PMC_TRACE_ENTITY_E) (f : Nat) (he : e < 512) :
    enableWordA e te f = e * 65536 + (if f ≠ 0 then 67108864 else 0) := by
  obtain ⟨h1, h2, h3⟩ := enableWordA_table e he
  by_cases hf : f = 0
  · subst hf
    rw [if_neg (by simp), Nat.add_zero]
    cases te
    · exact h1.1
    · exact h2.1
    · exact h3.1
  · rw [enableWordA_nonzero e te f hf, if_pos hf]
    cases te
    · exact h1.2
    · exact h2.2
    · exact h3.2

/-! ## Claims about the memory layout and the driver -/

/-- C21. For every base `B` the address macros put the ready mask at `B`, the lock at
`B + 8`, the wait flag at `B + 12`, the top-level magic at `B + 0x1000`, and for the region of
index `k` (0 PART, 1 SC, 2 INTINT, 3 EXTINT, 4 IPI) the magic at `B + 0x1100 + k * 0x200000`,
the size field 4 bytes and the records 8 bytes above it.  With the repository's base
`0x70001000` the five magics are at `0x70002100`, `0x70202100`, `0x70402100`, `0x70602100`
and `0x70802100`, and the end of the last region is `0x70A02100`. -/
theorem layout_arithmetic :
    (∀ cfg : Config,
      INT_BENCH_RDYMASK_PTR cfg = cfg.INT_BENCH_SHARED_MEM_BASE ∧
      INT_BENCH_RDYMASK_LOCK cfg = cfg.INT_BENCH_SHARED_MEM_BASE + 8 ∧
      INT_BENCH_INT_WAIT_PTR cfg = cfg.INT_BENCH_SHARED_MEM_BASE + 12 ∧
      INT_BENCH_DUMP_REG_HEADER_MAGIC cfg = cfg.INT_BENCH_SHARED_MEM_BASE + 0x1000 ∧
      ∀ T : DumpType,
        INT_BENCH_DUMP_MAGIC_ADDR cfg T =
          cfg.INT_BENCH_SHARED_MEM_BASE + 0x1100 + T.index * 0x200000 ∧
        INT_BENCH_DUMP_SIZE_ADDR cfg T =
          cfg.INT_BENCH_SHARED_MEM_BASE + 0x1100 + T.index * 0x200000 + 4 ∧
        INT_BENCH_DUMP_CURSOR_ADDR cfg T =
          cfg.INT_BENCH_SHARED_MEM_BASE + 0x1100 + T.index * 0x200000 + 8) ∧
    [DumpType.PART, DumpType.SC, DumpType.INTINT, DumpType.EXTINT, DumpType.IPI].map
      DumpType.index = [0, 1, 2, 3, 4] ∧
    INT_BENCH_DUMP_REG_SIZE = 0x200000 ∧
    sourceConfig.INT_BENCH_SHARED_MEM_BASE = 0x70001000 ∧
    INT_BENCH_DUMP_MAGIC_ADDR sourceConfig .PART = 0x70002100 ∧
    INT_BENCH_DUMP_MAGIC_ADDR sourceConfig .SC = 0x70202100 ∧
    INT_BENCH_DUMP_MAGIC_ADDR sourceConfig .INTINT = 0x70402100 ∧
    INT_BENCH_DUMP_MAGIC_ADDR sourceConfig .EXTINT = 0x70602100 ∧
    INT_BENCH_DUMP_MAGIC_ADDR sourceConfig .IPI = 0x70802100 ∧
    INT_BENCH_DUMP_MAGIC_ADDR sourceConfig .IPI + INT_BENCH_DUMP_REG_SIZE = 0x70A02100 := by
  refine ⟨?_, rfl, rfl, rfl, by decide, by decide, by decide, by decide, by decide, by decide⟩
  intro cfg
  refine ⟨rfl, rfl, rfl, rfl, ?_⟩
  intro T
  have h := magic_addr_eq cfg T
  have hreg : INT_BENCH_DUMP_REG_SIZE = 0x200000 := rfl
  rw [hreg] at h
  refine ⟨h, ?_, ?_⟩
  · show INT_BENCH_DUMP_MAGIC_ADDR cfg T + 4 = _
    rw [h]
  · show INT_BENCH_DUMP_MAGIC_ADDR cfg T + 4 + 4 = _
    rw [h]

theorem not32_FAC : not32 PMR_PMGC0_FAC = 0x7FFFFFFF := by decide

theorem code_cases (id : Nat) (x : Nat)
    (h : x = if E6500_PMC_ID_MAX_VALUE < id then INVALID_PARAM else NO_ERROR) :
    (x = INVALID_PARAM ↔ 5 < id) ∧ (x = NO_ERROR ↔ id ≤ 5) := by
  subst h
  by_cases h5 : 5 < id
  · have h6 : E6500_PMC_ID_MAX_VALUE < id := h5
    rw [if_pos h6]
    exact ⟨⟨fun _ => h5, fun _ => rfl⟩, ⟨fun h => absurd h (by decide), fun h => by omega⟩⟩
  · have h6 : ¬ E6500_PMC_ID_MAX_VALUE < id := h5
    rw [if_neg h6]
    exact ⟨⟨fun h => absurd h (by decide), fun h => absurd h h5⟩,
      ⟨fun _ => by omega, fun _ => rfl⟩⟩

theorem PMCDrvEnable_code (pmr : Pmr) (id e : Nat) (te : PMC_TRACE_ENTITY_E) (f : Nat) :
    (__PMCDrvEnable pmr id e te f).1 =
      if E6500_PMC_ID_MAX_VALUE < id then INVALID_PARAM else NO_ERROR := by
  unfold __PMCDrvEnable
  split <;> rfl

theorem PMCDrvDisable_code (pmr : Pmr) (id : Nat) :
    (__PMCDrvDisable pmr id).1 =
      if E6500_PMC_ID_MAX_VALUE < id then INVALID_PARAM else NO_ERROR := by
  unfold __PMCDrvDisable
  split <;> rfl

theorem PMCDrvRead_code (pmr : Pmr) (id out : Nat) :
    (__PMCDrvRead pmr id out).1 =
      if E6500_PMC_ID_MAX_VALUE < id then INVALID_PARAM else NO_ERROR := by
  unfold __PMCDrvRead
  split <;> rfl

theorem PMCDrvWrite_code (pmr : Pmr) (id v : Nat) :
    (__PMCDrvWrite pmr id v).1 =
      if E6500_PMC_ID_MAX_VALUE < id then INVALID_PARAM else NO_ERROR := by
  unfold __PMCDrvWrite
  split <;> rfl

/-- C23. Each of `__PMCDrvEnable`, `__PMCDrvDisable`, `__PMCDrvRead` and `__PMCDrvWrite`
returns `INVALID_PARAM` if and only if the channel id is greater than 5 and `NO_ERROR` if and
only if it is at most 5, whatever the register state and the other arguments; enable, then
disable, then read on the same id all return `NO_ERROR` exactly when the id is at most 5. -/
theorem channel_validation (pmr : Pmr) (pmcID event pmcValue out intEnabled : Nat)
    (traceEntity : PMC_TRACE_ENTITY_E) :
    (((__PMCDrvEnable pmr pmcID event traceEntity intEnabled).1 = INVALID_PARAM ↔ 5 < pmcID) ∧
      ((__PMCDrvEnable pmr pmcID event traceEntity intEnabled).1 = NO_ERROR ↔ pmcID ≤ 5)) ∧
    (((__PMCDrvDisable pmr pmcID).1 = INVALID_PARAM ↔ 5 < pmcID) ∧
      ((__PMCDrvDisable pmr pmcID).1 = NO_ERROR ↔ pmcID ≤ 5)) ∧
    (((__PMCDrvRead pmr pmcID out).1 = INVALID_PARAM ↔ 5 < pmcID) ∧
      ((__PMCDrvRead pmr pmcID out).1 = NO_ERROR ↔ pmcID ≤ 5)) ∧
    (((__PMCDrvWrite pmr pmcID pmcValue).1 = INVALID_PARAM ↔ 5 < pmcID) ∧
      ((__PMCDrvWrite pmr pmcID pmcValue).1 = NO_ERROR ↔ pmcID ≤ 5)) ∧
    (((__PMCDrvEnable pmr pmcID event traceEntity intEnabled).1 = NO_ERROR ∧
      (__PMCDrvDisable (__PMCDrvEnable pmr pmcID event traceEntity intEnabled).2 pmcID).1
        = NO_ERROR ∧
      (__PMCDrvRead
        (__PMCDrvDisable (__PMCDrvEnable pmr pmcID event traceEntity intEnabled).2 pmcID).2
        pmcID out).1 = NO_ERROR) ↔ pmcID ≤ 5) := by
  have hE := fun q => code_cases pmcID _ (PMCDrvEnable_code q pmcID event traceEntity intEnabled)
  have hD := fun q => code_cases pmcID _ (PMCDrvDisable_code q pmcID)
  have hR := fun q => code_cases pmcID _ (PMCDrvRead_code q pmcID out)
  have hW := code_cases pmcID _ (PMCDrvWrite_code pmr pmcID pmcValue)
  refine ⟨hE pmr, hD pmr, hR pmr, hW, ?_⟩
  constructor
  · intro h
    exact (hE pmr).2.1 h.1
  · intro h
    exact ⟨(hE pmr).2.2 h, (hD _).2.2 h, (hR _).2.2 h⟩

/-- C24. For every channel id greater than 5, `__PMCDrvEnable`, `__PMCDrvDisable` and
`__PMCDrvWrite` return the register file they were given (every counter, control word A,
control word B and the global control register as before), and `__PMCDrvRead`, which returns
no register file at all, leaves the caller's output value as it was. -/
theorem invalid_channel_no_effect (pmr : Pmr) (pmcID event pmcValue out intEnabled : Nat)
    (traceEntity : PMC_TRACE_ENTITY_E) (h : 5 < pmcID) :
    (__PMCDrvEnable pmr pmcID event traceEntity intEnabled).2 = pmr ∧
    (__PMCDrvDisable pmr pmcID).2 = pmr ∧
    (__PMCDrvWrite pmr pmcID pmcValue).2 = pmr ∧
    (__PMCDrvRead pmr pmcID out).2 = out ∧
    (∀ r, (__PMCDrvEnable pmr pmcID event traceEntity intEnabled).2 r = pmr r ∧
      (__PMCDrvDisable pmr pmcID).2 r = pmr r ∧ (__PMCDrvWrite pmr pmcID pmcValue).2 r = pmr r) := by
  have h6 : E6500_PMC_ID_MAX_VALUE < pmcID := h
  have e1 : (__PMCDrvEnable pmr pmcID event traceEntity intEnabled).2 = pmr := by
    unfold __PMCDrvEnable
    rw [if_pos h6]
  have e2 : (__PMCDrvDisable pmr pmcID).2 = pmr := by
    unfold __PMCDrvDisable
    rw [if_pos h6]
  have e3 : (__PMCDrvWrite pmr pmcID pmcValue).2 = pmr := by
    unfold __PMCDrvWrite
    rw [if_pos h6]
  have e4 : (__PMCDrvRead pmr pmcID out).2 = out := by
    unfold __PMCDrvRead
    rw [if_pos h6]
  refine ⟨e1, e2, e3, e4, fun r => ?_⟩
  rw [e1, e2, e3]
  exact ⟨rfl, rfl, rfl⟩

theorem invalid_channel_no_effect_witness :
    (5 : Nat) < 6 ∧
    (__PMCDrvRead (fun _ => 0) 6 42).2 = 42 :=
  ⟨by decide,
    (invalid_channel_no_effect (fun _ => 0) 6 E6500_PMC_EVENT_THREAD_L2_MISS 0 42 0 .PMC_ALL
      (by decide)).2.2.2.1⟩

/-- C25. For every valid channel `ch`, event code `e < 512`, scope and flag `f`,
`__PMCDrvEnable` writes to the control word A of `ch` the word `e * 2^16`, plus `2^26` when
`f != 0`: its event field (mask `0x01FF0000`, bits 16..24) equals `e`, the freeze bit 31 and
the freeze-on-mode bits 28 and 27 are clear, and the interrupt-enable bit 26 is set if and
only if `f != 0`.  The next write sets the control word B of `ch` to 0 (the third and last
write is to the global register), and both words are still there when the function
returns. -/
theorem enable_control_word (pmr : Pmr) (ch e f : Nat) (traceEntity : PMC_TRACE_ENTITY_E)
    (hch : ch ≤ 5) (he : e < 512) :
    (__PMCDrvEnable pmr ch e traceEntity f).2 =
      __PMCDrvWritePMR
        (__PMCDrvWritePMR (__PMCDrvWritePMR pmr (PMR_PMLCA + ch) (enableWordA e traceEntity f))
          (PMR_PMLCB + ch) 0)
        PMR_PMGC0 ((__PMCDrvEnable pmr ch e traceEntity f).2 PMR_PMGC0) ∧
    enableWordA e traceEntity f = e * 2 ^ 16 + (if f ≠ 0 then 2 ^ 26 else 0) ∧
    (__PMCDrvEnable pmr ch e traceEntity f).2 (PMR_PMLCA + ch) = enableWordA e traceEntity f ∧
    ((__PMCDrvEnable pmr ch e traceEntity f).2 (PMR_PMLCA + ch) &&& PMR_PMLCaX_EVENT_MASK) >>>
      PMR_PMLCaX_EVENT_SHIFT = e ∧
    ((__PMCDrvEnable pmr ch e traceEntity f).2 (PMR_PMLCA + ch)).testBit 31 = false ∧
    ((__PMCDrvEnable pmr ch e traceEntity f).2 (PMR_PMLCA + ch)).testBit 28 = false ∧
    ((__PMCDrvEnable pmr ch e traceEntity f).2 (PMR_PMLCA + ch)).testBit 27 = false ∧
    (((__PMCDrvEnable pmr ch e traceEntity f).2 (PMR_PMLCA + ch)).testBit 26 = true ↔ f ≠ 0) ∧
    (__PMCDrvEnable pmr ch e traceEntity f).2 (PMR_PMLCB + ch) = 0 := by
  have hv := PMCDrvEnable_valid pmr ch e traceEntity f hch
  have hw := enableWordA_eq e traceEntity f he
  obtain ⟨t1, t2, t3, t4, -, -, -, -, t9, t10, t11, t12, t13, t14, t15⟩ := eventField_table e he
  have hA : (__PMCDrvEnable pmr ch e traceEntity f).2 (PMR_PMLCA + ch) =
      enableWordA e traceEntity f := by
    rw [hv]
    simp only [mtpmr_apply]
    have h1 : ¬ PMR_PMLCA + ch = PMR_PMGC0 := by
      simp only [PMR_PMGC0, PMR_PMLCA]
      omega
    have h2 : ¬ PMR_PMLCA + ch = PMR_PMLCB + ch := by
      simp only [PMR_PMLCB, PMR_PMLCA]
      omega
    rw [if_neg h1, if_neg h2, if_true, hw]
    apply Nat.mod_eq_of_lt
    split <;> omega
  have hB : (__PMCDrvEnable pmr ch e traceEntity f).2 (PMR_PMLCB + ch) = 0 := by
    rw [hv]
    simp only [mtpmr_apply]
    have h1 : ¬ PMR_PMLCB + ch = PMR_PMGC0 := by
      simp only [PMR_PMGC0, PMR_PMLCB]
      omega
    rw [if_neg h1, if_true, Nat.zero_mod]
  have hG : (__PMCDrvEnable pmr ch e traceEntity f).2 PMR_PMGC0 =
      (((pmr PMR_PMGC0 % 2 ^ 32) &&& not32 PMR_PMGC0_FAC) ||| PMR_PMGC0_PMIE |||
        PMR_PMGC0_FCECE) % 2 ^ 32 := by
    rw [hv]
    simp only [mtpmr_apply, if_true]
  refine ⟨?_, ?_, hA, ?_, ?_, ?_, ?_, ?_, hB⟩
  · rw [writePMR_pmlca pmr ch _ hch, writePMR_pmlcb _ ch _ hch, writePMR_pmgc0, hG]
    rw [hv]
    funext r
    simp only [mtpmr_apply]
    split
    · rw [Nat.mod_mod]
    · rfl
  · rw [hw]
    norm_num
  all_goals rw [hA, hw]
  · simp only [PMR_PMLCaX_EVENT_MASK, PMR_PMLCaX_EVENT_SHIFT]
    split
    · exact t2
    · rw [Nat.add_zero]
      exact t1
  · split
    · exact t4
    · rw [Nat.add_zero]
      exact t3
  · split
    · exact t10
    · rw [Nat.add_zero]
      exact t9
  · split
    · exact t12
    · rw [Nat.add_zero]
      exact t11
  · by_cases hf : f ≠ 0
    · rw [if_pos hf]
      exact ⟨fun _ => hf, fun _ => t14⟩
    · rw [if_neg hf]
      constructor
      · intro h
        rw [Nat.add_zero, t13] at h
        exact absurd h (by decide)
      · intro h
        exact absurd h hf

theorem enable_control_word_witness :
    (3 : Nat) ≤ 5 ∧ E6500_PMC_EVENT_THREAD_L2_MISS < 512 ∧
    ((__PMCDrvEnable (fun _ => 0) 3 E6500_PMC_EVENT_THREAD_L2_MISS .PMC_ALL 0).2 (PMR_PMLCA + 3)
      &&& PMR_PMLCaX_EVENT_MASK) >>> PMR_PMLCaX_EVENT_SHIFT = E6500_PMC_EVENT_THREAD_L2_MISS :=
  ⟨by decide, by decide,
    (enable_control_word (fun _ => 0) 3 E6500_PMC_EVENT_THREAD_L2_MISS 0 .PMC_ALL
      (by decide) (by decide)).2.2.2.1⟩

theorem global_word (g : Nat) (hg : g < 2 ^ 32) :
    (g &&& not32 PMR_PMGC0_FAC) ||| PMR_PMGC0_PMIE ||| PMR_PMGC0_FCECE =
      (g &&& 0x7FFFFFFF) ||| 0x60000000 ∧
    (g &&& 0x7FFFFFFF) ||| 0x60000000 < 2 ^ 32 := by
  have h1 : not32 PMR_PMGC0_FAC = 0x7FFFFFFF := by decide
  have h2 : PMR_PMGC0_PMIE ||| PMR_PMGC0_FCECE = 0x60000000 := by decide
  constructor
  · rw [h1, Nat.lor_assoc, h2]
  · exact Nat.or_lt_two_pow (Nat.lt_of_le_of_lt Nat.and_le_left hg) (by norm_num)

theorem global_word_bits (g : Nat) :
    ((g &&& 0x7FFFFFFF) ||| 0x60000000).testBit 31 = false ∧
    ((g &&& 0x7FFFFFFF) ||| 0x60000000).testBit 30 = true ∧
    ((g &&& 0x7FFFFFFF) ||| 0x60000000).testBit 29 = true ∧
    ∀ i, i < 29 → ((g &&& 0x7FFFFFFF) ||| 0x60000000).testBit i = g.testBit i := by
  have e1 : (0x7FFFFFFF : Nat) = 2 ^ 31 - 1 := by norm_num
  have e2 : (0x60000000 : Nat) = 2 ^ 30 ||| 2 ^ 29 := by decide
  have key : ∀ i, ((g &&& 0x7FFFFFFF) ||| 0x60000000).testBit i =
      ((g.testBit i && decide (i < 31)) || (decide (30 = i) || decide (29 = i))) := by
    intro i
    rw [Nat.testBit_or, Nat.testBit_and, e1, e2, Nat.testBit_two_pow_sub_one, Nat.testBit_or,
      Nat.testBit_two_pow, Nat.testBit_two_pow]
  refine ⟨?_, ?_, ?_, ?_⟩
  · rw [key]
    simp
  · rw [key]
    simp
  · rw [key]
    simp
  · intro i hi
    rw [key]
    have h1 : i < 31 := by omega
    have h2 : ¬ 30 = i := by omega
    have h3 : ¬ 29 = i := by omega
    simp [h1, h2, h3]

/-- C26. For every valid channel, after `__PMCDrvEnable` the global control register holds
`(g & 0x7FFFFFFF) | 0x60000000`, where `g` is the 32-bit value it held before: bit 31 is
clear, bits 30 and 29 are set, and bits 0..28 are those of `g`. -/
theorem enable_global_register (pmr : Pmr) (ch e f : Nat) (traceEntity : PMC_TRACE_ENTITY_E)
    (hch : ch ≤ 5) :
    (__PMCDrvEnable pmr ch e traceEntity f).2 PMR_PMGC0 =
      (mfpmr pmr PMR_PMGC0 &&& 0x7FFFFFFF) ||| 0x60000000 ∧
    ((__PMCDrvEnable pmr ch e traceEntity f).2 PMR_PMGC0).testBit 31 = false ∧
    ((__PMCDrvEnable pmr ch e traceEntity f).2 PMR_PMGC0).testBit 30 = true ∧
    ((__PMCDrvEnable pmr ch e traceEntity f).2 PMR_PMGC0).testBit 29 = true ∧
    (∀ i, i < 29 →
      ((__PMCDrvEnable pmr ch e traceEntity f).2 PMR_PMGC0).testBit i =
        (mfpmr pmr PMR_PMGC0).testBit i) ∧
    (pmr PMR_PMGC0 < 2 ^ 32 → mfpmr pmr PMR_PMGC0 = pmr PMR_PMGC0) := by
  have hv := PMCDrvEnable_valid pmr ch e traceEntity f hch
  have hlt : mfpmr pmr PMR_PMGC0 < 2 ^ 32 := Nat.mod_lt _ (by norm_num)
  obtain ⟨w1, w2⟩ := global_word (mfpmr pmr PMR_PMGC0) hlt
  have hG : (__PMCDrvEnable pmr ch e traceEntity f).2 PMR_PMGC0 =
      (mfpmr pmr PMR_PMGC0 &&& 0x7FFFFFFF) ||| 0x60000000 := by
    rw [hv]
    simp only [mtpmr_apply, if_true]
    rw [← w1] at w2 ⊢
    exact Nat.mod_eq_of_lt w2
  obtain ⟨b1, b2, b3, b4⟩ := global_word_bits (mfpmr pmr PMR_PMGC0)
  rw [hG]
  exact ⟨rfl, b1, b2, b3, b4, fun h => Nat.mod_eq_of_lt h⟩

theorem enable_global_register_witness :
    (1 : Nat) ≤ 5 ∧
    (__PMCDrvEnable (fun _ => 0x80000001) 1 E6500_PMC_EVENT_THREAD_L2_MISS .PMC_ALL 0).2
      PMR_PMGC0 = (mfpmr (fun _ => 0x80000001) PMR_PMGC0 &&& 0x7FFFFFFF) ||| 0x60000000 :=
  ⟨by decide,
    (enable_global_register (fun _ => 0x80000001) 1 E6500_PMC_EVENT_THREAD_L2_MISS 0 .PMC_ALL
      (by decide)).1⟩

/-- C27. For every valid channel `ch`, `__PMCDrvDisable(ch)` stores the word `0x80000000` in
the control word A of `ch`, so its freeze bit 31 is set, and changes no other register: the
global control register, every control word B, every counter and the control words A of the
other channels are as before. -/
theorem disable_frame (pmr : Pmr) (ch : Nat) (hch : ch ≤ 5) :
    (__PMCDrvDisable pmr ch).2 (PMR_PMLCA + ch) = 0x80000000 ∧
    ((__PMCDrvDisable pmr ch).2 (PMR_PMLCA + ch)).testBit 31 = true ∧
    (∀ r, r ≠ PMR_PMLCA + ch → (__PMCDrvDisable pmr ch).2 r = pmr r) ∧
    (__PMCDrvDisable pmr ch).2 PMR_PMGC0 = pmr PMR_PMGC0 ∧
    (∀ k, k ≤ 5 → (__PMCDrvDisable pmr ch).2 (PMR_PMLCB + k) = pmr (PMR_PMLCB + k)) ∧
    (∀ k, k ≤ 5 → (__PMCDrvDisable pmr ch).2 (PMR_PMC + k) = pmr (PMR_PMC + k)) ∧
    (∀ k, k ≤ 5 → k ≠ ch → (__PMCDrvDisable pmr ch).2 (PMR_PMLCA + k) = pmr (PMR_PMLCA + k)) := by
  have hv := PMCDrvDisable_valid pmr ch hch
  have hA : (__PMCDrvDisable pmr ch).2 (PMR_PMLCA + ch) = 0x80000000 := by
    rw [hv]
    simp only [mtpmr_apply, if_true]
    decide
  have hframe : ∀ r, r ≠ PMR_PMLCA + ch → (__PMCDrvDisable pmr ch).2 r = pmr r := by
    intro r hr
    rw [hv]
    simp only [mtpmr_apply, if_neg hr]
  refine ⟨hA, ?_, hframe, ?_, ?_, ?_, ?_⟩
  · rw [hA]
    decide
  · apply hframe
    simp only [PMR_PMGC0, PMR_PMLCA]
    omega
  · intro k hk
    apply hframe
    simp only [PMR_PMLCB, PMR_PMLCA]
    omega
  · intro k hk
    apply hframe
    simp only [PMR_PMC, PMR_PMLCA]
    omega
  · intro k hk hne
    apply hframe
    simp only [PMR_PMLCA]
    omega

theorem disable_frame_witness :
    (4 : Nat) ≤ 5 ∧
    ((__PMCDrvDisable (fun _ => 0) 4).2 (PMR_PMLCA + 4)).testBit 31 = true :=
  ⟨by decide, (disable_frame (fun _ => 0) 4 (by decide)).2.1⟩

/-! ## Registers and calls of the generators and of the sampling loop -/

theorem PMCDrvWrite_frame (pmr : Pmr) (id v r : Nat) (hid : id ≤ 5) (hr : r ≠ PMR_PMC + id) :
    (__PMCDrvWrite pmr id v).2 r = pmr r := by
  rw [PMCDrvWrite_valid pmr id v hid]
  simp only [mtpmr_apply, if_neg hr]

theorem PMCDrvDisable_frame (pmr : Pmr) (id r : Nat) (hid : id ≤ 5) (hr : r ≠ PMR_PMLCA + id) :
    (__PMCDrvDisable pmr id).2 r = pmr r := by
  rw [PMCDrvDisable_valid pmr id hid]
  simp only [mtpmr_apply, if_neg hr]

theorem PMCDrvEnable_frame (pmr : Pmr) (id e f r : Nat) (te : PMC_TRACE_ENTITY_E) (hid : id ≤ 5)
    (h1 : r ≠ PMR_PMLCA + id) (h2 : r ≠ PMR_PMLCB + id) (h3 : r ≠ PMR_PMGC0) :
    (__PMCDrvEnable pmr id e te f).2 r = pmr r := by
  rw [PMCDrvEnable_valid pmr id e te f hid]
  simp only [mtpmr_apply, if_neg h1, if_neg h2, if_neg h3]

theorem armCounters_frame (a b r : Nat) (pmr : Pmr) (ha : a ≤ 5) (hb : b ≤ 5)
    (hu : untouched a b r) : armCounters a b pmr r = pmr r := by
  obtain ⟨u1, u2, u3, u4, u5, u6, u7⟩ := hu
  unfold armCounters
  rw [PMCDrvEnable_frame _ b _ _ r _ hb u4 u6 u7, PMCDrvEnable_frame _ a _ _ r _ ha u3 u5 u7,
    PMCDrvWrite_frame _ b _ r hb u2, PMCDrvWrite_frame _ a _ r ha u1]

theorem freezeCounters_frame (a b r : Nat) (pmr : Pmr) (ha : a ≤ 5) (hb : b ≤ 5)
    (h1 : r ≠ PMR_PMLCA + a) (h2 : r ≠ PMR_PMLCA + b) : freezeCounters a b pmr r = pmr r := by
  unfold freezeCounters
  rw [PMCDrvDisable_frame _ b r hb h2, PMCDrvDisable_frame _ a r ha h1]

/-- Reading a valid counter after the two disabling calls yields the value the counter had
before them. -/
theorem read_after_freeze (a b ch out : Nat) (pmr : Pmr) (ha : a ≤ 5) (hb : b ≤ 5)
    (hch : ch ≤ 5) :
    (__PMCDrvRead (freezeCounters a b pmr) ch out).2 = pmr (PMR_PMC + ch) % 2 ^ 32 := by
  rw [PMCDrvRead_valid _ ch out hch]
  show freezeCounters a b pmr (PMR_PMC + ch) % 2 ^ 32 = _
  rw [freezeCounters_frame a b _ pmr ha hb]
  · simp only [PMR_PMC, PMR_PMLCA]
    omega
  · simp only [PMR_PMC, PMR_PMLCA]
    omega

/-- A register of channel 0, 1, 2 or 5 is none of those a measurement on channels 3 and 4
writes; a register of channel 0, 3, 4 or 5 none of those a measurement on 1 and 2 writes. -/
theorem channelReg_untouched (ch r : Nat) (hr : channelReg ch r) :
    ((ch = 0 ∨ ch = 1 ∨ ch = 2 ∨ ch = 5) → untouched 3 4 r) ∧
    ((ch = 0 ∨ ch = 3 ∨ ch = 4 ∨ ch = 5) → untouched 1 2 r) := by
  unfold channelReg at hr
  unfold untouched
  simp only [PMR_PMC, PMR_PMLCA, PMR_PMLCB, PMR_PMGC0] at hr ⊢
  constructor <;> intro h <;> omega

/-- The world of a generator call in terms of the two register helpers. -/
theorem genSkeleton_world (cfg : Config) (TYPE : DumpType) (trigger : Call) (PARTID : Nat)
    (TRIGGER : World → World) (t0 t1 : Nat × Nat) (s : SamplingState) :
    (genSkeleton cfg TYPE trigger PARTID TRIGGER t0 t1 s).world.pmr =
      (if t0.2 = NO_ERROR then
        if t1.2 = NO_ERROR then
          freezeCounters 3 4
            (TRIGGER { mem := s.world.mem, pmr := armCounters 3 4 s.world.pmr }).pmr
        else (TRIGGER { mem := s.world.mem, pmr := armCounters 3 4 s.world.pmr }).pmr
      else armCounters 3 4 s.world.pmr) := by
  unfold genSkeleton
  simp only []
  split
  · split
    · split <;> rfl
    · rfl
  · rfl

theorem genSkeleton_pmr_frame (cfg : Config) (TYPE : DumpType) (trigger : Call) (PARTID : Nat)
    (TRIGGER : World → World) (t0 t1 : Nat × Nat) (s : SamplingState) (r : Nat)
    (hu : untouched 3 4 r) (hT : ∀ w : World, (TRIGGER w).pmr r = w.pmr r) :
    (genSkeleton cfg TYPE trigger PARTID TRIGGER t0 t1 s).world.pmr r = s.world.pmr r := by
  rw [genSkeleton_world]
  have ha := armCounters_frame 3 4 r s.world.pmr (by decide) (by decide) hu
  split
  · split
    · rw [freezeCounters_frame 3 4 r _ (by decide) (by decide) hu.2.2.1 hu.2.2.2.1, hT]
      exact ha
    · rw [hT]
      exact ha
  · exact ha

theorem genSkeleton_new_calls (cfg : Config) (TYPE : DumpType) (trigger : Call) (PARTID : Nat)
    (TRIGGER : World → World) (t0 t1 : Nat × Nat) (s : SamplingState)
    (htrig : pmcChannel trigger = none) :
    ∃ new, (genSkeleton cfg TYPE trigger PARTID TRIGGER t0 t1 s).calls = s.calls ++ new ∧
      ∀ call ∈ new, ∀ ch, pmcChannel call = some ch → ch = 3 ∨ ch = 4 := by
  unfold genSkeleton
  simp only []
  split
  · split
    · split
      · refine ⟨_, by simp only [List.append_assoc]; rfl, ?_⟩
        intro call hc ch hch
        simp only [List.cons_append, List.nil_append, List.mem_cons, List.mem_singleton,
          List.not_mem_nil, or_false] at hc
        rcases hc with rfl | rfl | rfl | rfl | rfl | rfl | rfl | rfl | rfl | rfl | rfl | rfl <;>
          first
            | (rw [htrig] at hch; exact absurd hch (by simp))
            | (simp only [pmcChannel, Option.some.injEq] at hch; omega)
            | (simp [pmcChannel] at hch)
      · refine ⟨_, by simp only [List.append_assoc]; rfl, ?_⟩
        intro call hc ch hch
        simp only [List.cons_append, List.nil_append, List.mem_cons, List.mem_singleton,
          List.not_mem_nil, or_false] at hc
        rcases hc with rfl | rfl | rfl | rfl | rfl | rfl | rfl | rfl | rfl | rfl | rfl <;>
          first
            | (rw [htrig] at hch; exact absurd hch (by simp))
            | (simp only [pmcChannel, Option.some.injEq] at hch; omega)
            | (simp [pmcChannel] at hch)
    · refine ⟨_, by simp only [List.append_assoc]; rfl, ?_⟩
      intro call hc ch hch
      simp only [List.cons_append, List.nil_append, List.mem_cons, List.mem_singleton,
        List.not_mem_nil, or_false] at hc
      rcases hc with rfl | rfl | rfl | rfl | rfl | rfl | rfl | rfl <;>
        first
          | (rw [htrig] at hch; exact absurd hch (by simp))
          | (simp only [pmcChannel, Option.some.injEq] at hch; omega)
          | (simp [pmcChannel] at hch)
  · refine ⟨_, by simp only [List.append_assoc]; rfl, ?_⟩
    intro call hc ch hch
    simp only [List.cons_append, List.nil_append, List.mem_cons, List.mem_singleton,
      List.not_mem_nil, or_false] at hc
    rcases hc with rfl | rfl | rfl | rfl | rfl | rfl <;>
      first
        | (simp only [pmcChannel, Option.some.injEq] at hch; omega)
        | (simp [pmcChannel] at hch)

theorem epilogueBody_new_calls (cfg : Config) (CORE PARTID : Nat) (t1 : Nat × Nat)
    (s : SamplingState) :
    ∃ new, (epilogueBody cfg CORE PARTID t1 s).calls = s.calls ++ new ∧
      ∀ call ∈ new, ∀ ch, pmcChannel call = some ch → ch = 1 ∨ ch = 2 := by
  unfold epilogueBody
  simp only []
  split
  · split
    · refine ⟨_, by simp only [List.append_assoc]; rfl, ?_⟩
      intro call hc ch hch
      simp only [List.cons_append, List.nil_append, List.mem_cons, List.mem_singleton,
        List.not_mem_nil, or_false] at hc
      rcases hc with rfl | rfl | rfl | rfl | rfl | rfl | rfl <;>
        first
          | (simp only [pmcChannel, Option.some.injEq] at hch; omega)
          | (simp [pmcChannel] at hch)
    · split
      · refine ⟨_, by simp only [List.append_assoc]; rfl, ?_⟩
        intro call hc ch hch
        simp only [List.cons_append, List.nil_append, List.mem_cons, List.mem_singleton,
          List.not_mem_nil, or_false] at hc
        rcases hc with rfl | rfl | rfl | rfl | rfl | rfl <;>
          first
            | (simp only [pmcChannel, Option.some.injEq] at hch; omega)
            | (simp [pmcChannel] at hch)
      · refine ⟨_, rfl, ?_⟩
        intro call hc ch hch
        simp only [List.mem_cons, List.mem_singleton, List.not_mem_nil, or_false] at hc
        rcases hc with rfl | rfl | rfl | rfl | rfl <;>
          first
            | (simp only [pmcChannel, Option.some.injEq] at hch; omega)
            | (simp [pmcChannel] at hch)
  · refine ⟨_, rfl, ?_⟩
    intro call hc ch hch
    simp only [List.mem_cons, List.mem_singleton, List.not_mem_nil, or_false] at hc
    rcases hc with rfl | rfl <;> simp [pmcChannel] at hch

theorem samplingIteration_new_calls (cfg : Config) (CORE PARTID : Nat)
    (PAYLOAD : World → World) (t0 t1 : Nat × Nat) (s : SamplingState) :
    ∃ new, (samplingIteration cfg CORE PARTID PAYLOAD t0 t1 s).calls = s.calls ++ new ∧
      ∀ call ∈ new, ∀ ch, pmcChannel call = some ch → ch = 1 ∨ ch = 2 := by
  have hpro : ∀ call ∈ prologueCalls, ∀ ch, pmcChannel call = some ch → ch = 1 ∨ ch = 2 := by
    intro call hc ch hch
    simp only [prologueCalls, List.mem_cons, List.mem_singleton, List.not_mem_nil,
      or_false] at hc
    rcases hc with rfl | rfl | rfl | rfl | rfl <;>
      first
        | (simp only [pmcChannel, Option.some.injEq] at hch; omega)
        | (simp [pmcChannel] at hch)
  unfold samplingIteration
  simp only []
  split
  · split
    · obtain ⟨new, hnew, hch⟩ := epilogueBody_new_calls cfg CORE PARTID t1
        (INT_BENCH_EXEC_PAYLOAD PAYLOAD (prologueBody t0 s))
      refine ⟨prologueCalls ++ (Call.PAYLOAD :: new), ?_, ?_⟩
      · show (epilogueBody cfg CORE PARTID t1
          (INT_BENCH_EXEC_PAYLOAD PAYLOAD (prologueBody t0 s))).calls = _
        rw [hnew]
        simp [INT_BENCH_EXEC_PAYLOAD, prologueBody, prologueCalls]
      · intro call hc ch h
        rw [List.mem_append, List.mem_cons] at hc
        rcases hc with hc | rfl | hc
        · exact hpro call hc ch h
        · simp [pmcChannel] at h
        · exact hch call hc ch h
    · refine ⟨prologueCalls ++
        [Call.printf "Cannot get initial execution time: %d\n\r"
          [(prologueBody t0 s).BENCH_DATA.errCode]], ?_, ?_⟩
      · show (prologueBody t0 s).calls ++ _ = _
        simp only [prologueBody, prologueCalls, List.append_assoc]
      · intro call hc ch h
        rw [List.mem_append, List.mem_singleton] at hc
        rcases hc with hc | rfl
        · exact hpro call hc ch h
        · simp [pmcChannel] at h
  · exact ⟨[], by simp, by simp⟩

/-- The memory after a generator call that obtains both timestamps below the cap: one append
to the region `TYPE` of the record measured around the trigger. -/
theorem genSkeleton_record (cfg : Config) (TYPE : DumpType) (trigger : Call) (PARTID : Nat)
    (TRIGGER : World → World) (t0 t1 : Nat × Nat) (s : SamplingState)
    (h0 : t0.2 = NO_ERROR) (h1 : t1.2 = NO_ERROR) (h2 : s.BENCH_DATA.samples < 10000) :
    ∃ d : int_bench_measure_t,
      (genSkeleton cfg TYPE trigger PARTID TRIGGER t0 t1 s).world.mem =
        INT_BENCH_DUMP cfg PARTID d TYPE
          (TRIGGER { mem := s.world.mem, pmr := armCounters 3 4 s.world.pmr }).mem ∧
      d.startTime = t0.1 % 2 ^ 64 ∧ d.endTime = t1.1 % 2 ^ 64 ∧
      d.l2Miss = (__PMCDrvRead (freezeCounters 3 4
        (TRIGGER { mem := s.world.mem, pmr := armCounters 3 4 s.world.pmr }).pmr) 3
          s.BENCH_DATA.l2Miss).2 ∧
      d.tlbMiss = (__PMCDrvRead (freezeCounters 3 4
        (TRIGGER { mem := s.world.mem, pmr := armCounters 3 4 s.world.pmr }).pmr) 4
          s.BENCH_DATA.tlbMiss).2 := by
  have h5 : 10000 > s.BENCH_DATA.samples := h2
  unfold genSkeleton
  simp only [INT_BENCH_SAMPLE_COUNT]
  simp only [h0, h1, h5, if_true]
  exact ⟨_, rfl, rfl, rfl, rfl, rfl⟩

/-- The memory after a sampling iteration in an ACTIVE frame that obtains both timestamps
below the cap: one append to the region PART of the record measured around the payload. -/
theorem samplingIteration_record (cfg : Config) (CORE PARTID : Nat) (PAYLOAD : World → World)
    (t0 t1 : Nat × Nat) (s : SamplingState) (hact : 0 < s.MAF_COUNT ∧ 9 > s.MAF_COUNT)
    (h0 : t0.2 = NO_ERROR) (h1 : t1.2 = NO_ERROR) (h2 : s.BENCH_DATA.samples < 10000) :
    ∃ d : int_bench_measure_t,
      (samplingIteration cfg CORE PARTID PAYLOAD t0 t1 s).world.mem =
        INT_BENCH_DUMP cfg PARTID d .PART
          (PAYLOAD { mem := s.world.mem, pmr := armCounters 1 2 s.world.pmr }).mem ∧
      d.startTime = t0.1 % 2 ^ 64 ∧ d.endTime = t1.1 % 2 ^ 64 ∧
      d.l2Miss = (__PMCDrvRead (freezeCounters 1 2
        (PAYLOAD { mem := s.world.mem, pmr := armCounters 1 2 s.world.pmr }).pmr) 1
          s.BENCH_DATA.l2Miss).2 ∧
      d.tlbMiss = (__PMCDrvRead (freezeCounters 1 2
        (PAYLOAD { mem := s.world.mem, pmr := armCounters 1 2 s.world.pmr }).pmr) 2
          s.BENCH_DATA.tlbMiss).2 := by
  have h5 : 10000 > s.BENCH_DATA.samples := h2
  unfold samplingIteration
  simp only [if_pos hact]
  have he2 : (prologueBody t0 s).BENCH_DATA.errCode = NO_ERROR := h0
  simp only [if_pos he2]
  unfold epilogueBody
  simp only [INT_BENCH_SAMPLE_COUNT]
  have he3 : t1.2 = NO_ERROR := h1
  have h6 : 10000 > (INT_BENCH_EXEC_PAYLOAD PAYLOAD (prologueBody t0 s)).BENCH_DATA.samples := h2
  simp only [he3, h6, if_true]
  exact ⟨_, rfl, rfl, rfl, rfl, rfl⟩

/-! ## Claims about the destination regions and the counter channels -/

theorem samplingIteration_dump_call (cfg : Config) (CORE PARTID : Nat) (PAYLOAD : World → World)
    (t0 t1 : Nat × Nat) (s : SamplingState) (hact : 0 < s.MAF_COUNT ∧ 9 > s.MAF_COUNT)
    (h0 : t0.2 = NO_ERROR) (h1 : t1.2 = NO_ERROR) (h2 : s.BENCH_DATA.samples < 10000) :
    ∃ (fmt : String) (args : List Int),
      (samplingIteration cfg CORE PARTID PAYLOAD t0 t1 s).calls =
        s.calls ++ (prologueCalls ++
          [.PAYLOAD, .GET_TIME, .PMCDrvDisable 1, .PMCDrvDisable 2, .PMCDrvRead 1,
            .PMCDrvRead 2, .INT_BENCH_DUMP .PART PARTID, .printf fmt args]) := by
  have h5 : 10000 > s.BENCH_DATA.samples := h2
  unfold samplingIteration
  simp only [if_pos hact]
  have he2 : (prologueBody t0 s).BENCH_DATA.errCode = NO_ERROR := h0
  simp only [if_pos he2]
  unfold epilogueBody
  simp only [INT_BENCH_SAMPLE_COUNT]
  have h6 : 10000 > (INT_BENCH_EXEC_PAYLOAD PAYLOAD (prologueBody t0 s)).BENCH_DATA.samples := h2
  simp only [h1, h6, if_true]
  simp only [INT_BENCH_EXEC_PAYLOAD, prologueBody, prologueCalls, List.append_assoc,
    List.cons_append, List.nil_append]
  exact ⟨_, _, rfl⟩

/-- C22. A call of the internal-interrupt, syscall, IPI or external-interrupt generator that
obtains both timestamps with the sample count below the cap makes exactly one append, to the
region INTINT (index 2), SC (index 1), IPI (index 4) or EXTINT (index 3) respectively, and
an iteration of the sampling loop in the same situation makes exactly one append, to the
region PART (index 0).  The appended record holds the caller's `PARTID`, the interval between
the two timestamps, and the values that the two counters (3 and 4 for a generator, 1 and 2
for the loop) held when they were read after having been disabled; it lands at the cursor of
that region, whose size field grows by 20. -/
theorem destination_region (cfg : Config) (g : Stimulus) (COREID PARTID DSTID CORE : Nat)
    (env : GenEnv) (ienv : IterEnv) (s : SamplingState)
    (hgen : env.t0.2 = NO_ERROR ∧ env.t1.2 = NO_ERROR)
    (hloop : (0 < s.MAF_COUNT ∧ 9 > s.MAF_COUNT) ∧ ienv.t0.2 = NO_ERROR ∧ ienv.t1.2 = NO_ERROR)
    (hcap : s.BENCH_DATA.samples < INT_BENCH_SAMPLE_COUNT) :
    (Stimulus.INT_INT.region = .INTINT ∧ Stimulus.SC.region = .SC ∧
      Stimulus.IPI.region = .IPI ∧ Stimulus.EXT_INT.region = .EXTINT ∧
      DumpType.INTINT.index = 2 ∧ DumpType.SC.index = 1 ∧ DumpType.IPI.index = 4 ∧
      DumpType.EXTINT.index = 3 ∧ DumpType.PART.index = 0) ∧
    (genCall cfg g COREID PARTID DSTID env s).calls =
      s.calls ++ measuredCalls (g.trigger DSTID) ++ [.INT_BENCH_DUMP g.region PARTID] ∧
    (genCall cfg g COREID PARTID DSTID env s).calls.countP isDump = s.calls.countP isDump + 1 ∧
    (∃ d : int_bench_measure_t,
      (genCall cfg g COREID PARTID DSTID env s).world.mem =
        INT_BENCH_DUMP cfg PARTID d g.region
          (env.TRIGGER { mem := s.world.mem, pmr := armCounters 3 4 s.world.pmr }).mem ∧
      d.startTime = env.t0.1 % 2 ^ 64 ∧ d.endTime = env.t1.1 % 2 ^ 64 ∧
      d.l2Miss = (__PMCDrvRead (freezeCounters 3 4
        (env.TRIGGER { mem := s.world.mem, pmr := armCounters 3 4 s.world.pmr }).pmr) 3
          s.BENCH_DATA.l2Miss).2 ∧
      d.tlbMiss = (__PMCDrvRead (freezeCounters 3 4
        (env.TRIGGER { mem := s.world.mem, pmr := armCounters 3 4 s.world.pmr }).pmr) 4
          s.BENCH_DATA.tlbMiss).2 ∧
      d.l2Miss =
        (env.TRIGGER { mem := s.world.mem, pmr := armCounters 3 4 s.world.pmr }).pmr PMR_PMC3
          % 2 ^ 32 ∧
      d.tlbMiss =
        (env.TRIGGER { mem := s.world.mem, pmr := armCounters 3 4 s.world.pmr }).pmr PMR_PMC4
          % 2 ^ 32 ∧
      ∀ sz, load32 (env.TRIGGER { mem := s.world.mem, pmr := armCounters 3 4 s.world.pmr }).mem
          (INT_BENCH_DUMP_SIZE_ADDR cfg g.region) = sz →
        INT_BENCH_DUMP_CURSOR_ADDR cfg g.region + sz + 20 ≤ 2 ^ 32 →
        load32 (genCall cfg g COREID PARTID DSTID env s).world.mem
          (INT_BENCH_DUMP_SIZE_ADDR cfg g.region) = sz + 20 ∧
        load32 (genCall cfg g COREID PARTID DSTID env s).world.mem
          (INT_BENCH_DUMP_CURSOR_ADDR cfg g.region + sz) = PARTID % 2 ^ 32 ∧
        load64 (genCall cfg g COREID PARTID DSTID env s).world.mem
          (INT_BENCH_DUMP_CURSOR_ADDR cfg g.region + sz + 4) = elapsed d) ∧
    (∃ post, (samplingIteration cfg CORE PARTID ienv.PAYLOAD ienv.t0 ienv.t1 s).calls =
      s.calls ++ prologueCalls ++
        [.PAYLOAD, .GET_TIME, .PMCDrvDisable 1, .PMCDrvDisable 2, .PMCDrvRead 1, .PMCDrvRead 2] ++
        [.INT_BENCH_DUMP .PART PARTID] ++ post ∧ post.countP isDump = 0) ∧
    (∃ d : int_bench_measure_t,
      (samplingIteration cfg CORE PARTID ienv.PAYLOAD ienv.t0 ienv.t1 s).world.mem =
        INT_BENCH_DUMP cfg PARTID d .PART
          (ienv.PAYLOAD { mem := s.world.mem, pmr := armCounters 1 2 s.world.pmr }).mem ∧
      d.startTime = ienv.t0.1 % 2 ^ 64 ∧ d.endTime = ienv.t1.1 % 2 ^ 64 ∧
      d.l2Miss = (__PMCDrvRead (freezeCounters 1 2
        (ienv.PAYLOAD { mem := s.world.mem, pmr := armCounters 1 2 s.world.pmr }).pmr) 1
          s.BENCH_DATA.l2Miss).2 ∧
      d.tlbMiss = (__PMCDrvRead (freezeCounters 1 2
        (ienv.PAYLOAD { mem := s.world.mem, pmr := armCounters 1 2 s.world.pmr }).pmr) 2
          s.BENCH_DATA.tlbMiss).2 ∧
      d.l2Miss =
        (ienv.PAYLOAD { mem := s.world.mem, pmr := armCounters 1 2 s.world.pmr }).pmr PMR_PMC1
          % 2 ^ 32 ∧
      d.tlbMiss =
        (ienv.PAYLOAD { mem := s.world.mem, pmr := armCounters 1 2 s.world.pmr }).pmr PMR_PMC2
          % 2 ^ 32 ∧
      ∀ sz, load32 (ienv.PAYLOAD { mem := s.world.mem, pmr := armCounters 1 2 s.world.pmr }).mem
          (INT_BENCH_DUMP_SIZE_ADDR cfg .PART) = sz →
        INT_BENCH_DUMP_CURSOR_ADDR cfg .PART + sz + 20 ≤ 2 ^ 32 →
        load32 (samplingIteration cfg CORE PARTID ienv.PAYLOAD ienv.t0 ienv.t1 s).world.mem
          (INT_BENCH_DUMP_SIZE_ADDR cfg .PART) = sz + 20 ∧
        load32 (samplingIteration cfg CORE PARTID ienv.PAYLOAD ienv.t0 ienv.t1 s).world.mem
          (INT_BENCH_DUMP_CURSOR_ADDR cfg .PART + sz) = PARTID % 2 ^ 32 ∧
        load64 (samplingIteration cfg CORE PARTID ienv.PAYLOAD ienv.t0 ienv.t1 s).world.mem
          (INT_BENCH_DUMP_CURSOR_ADDR cfg .PART + sz + 4) = elapsed d) := by
  have hcap2 : s.BENCH_DATA.samples < 10000 := hcap
  refine ⟨⟨rfl, rfl, rfl, rfl, rfl, rfl, rfl, rfl, rfl⟩, ?_, ?_, ?_, ?_, ?_⟩
  · rw [genCall_eq]
    exact (genSkeleton_below cfg g.region (g.trigger DSTID) PARTID env.TRIGGER env.t0 env.t1 s
      hgen.1 hgen.2 hcap2).1
  · rw [(genCall_counts cfg g COREID PARTID DSTID env s).2.1]
    rw [if_pos ⟨(genEnv_ok_iff env).2 hgen, hcap2⟩]
  · rw [genCall_eq]
    obtain ⟨d, hm, hs, he, hl, ht⟩ := genSkeleton_record cfg g.region (g.trigger DSTID) PARTID
      env.TRIGGER env.t0 env.t1 s hgen.1 hgen.2 hcap2
    refine ⟨d, hm, hs, he, hl, ht, ?_, ?_, ?_⟩
    · rw [hl, read_after_freeze 3 4 3 _ _ (by decide) (by decide) (by decide)]
      rfl
    · rw [ht, read_after_freeze 3 4 4 _ _ (by decide) (by decide) (by decide)]
      rfl
    · intro sz hsz hfit
      rw [hm]
      obtain ⟨a, b, -, -, f, -⟩ := INT_BENCH_DUMP_spec cfg PARTID d g.region _ sz hsz hfit
      exact ⟨f, a, b⟩
  · obtain ⟨fmt, args, hc⟩ := samplingIteration_dump_call cfg CORE PARTID ienv.PAYLOAD ienv.t0
      ienv.t1 s hloop.1 hloop.2.1 hloop.2.2 hcap2
    refine ⟨[.printf fmt args], ?_, by simp [isDump]⟩
    rw [hc]
    simp only [List.append_assoc, List.cons_append, List.nil_append]
  · obtain ⟨d, hm, hs, he, hl, ht⟩ := samplingIteration_record cfg CORE PARTID ienv.PAYLOAD
      ienv.t0 ienv.t1 s hloop.1 hloop.2.1 hloop.2.2 hcap2
    refine ⟨d, hm, hs, he, hl, ht, ?_, ?_, ?_⟩
    · rw [hl, read_after_freeze 1 2 1 _ _ (by decide) (by decide) (by decide)]
      rfl
    · rw [ht, read_after_freeze 1 2 2 _ _ (by decide) (by decide) (by decide)]
      rfl
    · intro sz hsz hfit
      rw [hm]
      obtain ⟨a, b, -, -, f, -⟩ := INT_BENCH_DUMP_spec cfg PARTID d .PART _ sz hsz hfit
      exact ⟨f, a, b⟩

theorem destination_region_witness :
    (okGenEnv.t0.2 = NO_ERROR ∧ okGenEnv.t1.2 = NO_ERROR) ∧
    ((0 < (zeroSampling 1).MAF_COUNT ∧ 9 > (zeroSampling 1).MAF_COUNT) ∧
      okEnv.t0.2 = NO_ERROR ∧ okEnv.t1.2 = NO_ERROR) ∧
    (zeroSampling 1).BENCH_DATA.samples < INT_BENCH_SAMPLE_COUNT ∧
    (genCall sourceConfig .IPI 0 0 0 okGenEnv (zeroSampling 1)).calls =
      (zeroSampling 1).calls ++ measuredCalls (Stimulus.trigger 0 .IPI) ++
        [.INT_BENCH_DUMP Stimulus.IPI.region 0] :=
  ⟨⟨rfl, rfl⟩, ⟨by decide, rfl, rfl⟩, by decide,
    (destination_region sourceConfig .IPI 0 0 0 0 okGenEnv okEnv (zeroSampling 1) ⟨rfl, rfl⟩
      ⟨by decide, rfl, rfl⟩ (by decide)).2.1⟩

/-- C29. The driver calls of a stimulus generator all name channel 3 or 4, and those of an
iteration of the sampling loop all name channel 1 or 2.  A generator call leaves every
counter, control word A and control word B of the channels 0, 1, 2 and 5 as it found them
(`r` is any such register; the hardware is assumed not to change `r` while the generator
waits for its interrupt): the four calls that reset and enable the counters and the two that
disable them write none of these registers. -/
theorem channel_separation (cfg : Config) (g : Stimulus) (COREID PARTID DSTID CORE : Nat)
    (env : GenEnv) (ienv : IterEnv) (s : SamplingState) (ch r : Nat)
    (hch : ch = 0 ∨ ch = 1 ∨ ch = 2 ∨ ch = 5) (hr : channelReg ch r)
    (hT : ∀ w : World, (env.TRIGGER w).pmr r = w.pmr r) :
    (∃ new, (genCall cfg g COREID PARTID DSTID env s).calls = s.calls ++ new ∧
      ∀ call ∈ new, ∀ k, pmcChannel call = some k → k = 3 ∨ k = 4) ∧
    (∃ new, (samplingIteration cfg CORE PARTID ienv.PAYLOAD ienv.t0 ienv.t1 s).calls =
        s.calls ++ new ∧
      ∀ call ∈ new, ∀ k, pmcChannel call = some k → k = 1 ∨ k = 2) ∧
    (genCall cfg g COREID PARTID DSTID env s).world.pmr r = s.world.pmr r ∧
    (∀ pmr : Pmr, armCounters 3 4 pmr r = pmr r ∧ freezeCounters 3 4 pmr r = pmr r) := by
  have hu := (channelReg_untouched ch r hr).1 hch
  have htrig : pmcChannel (g.trigger DSTID) = none := by cases g <;> rfl
  refine ⟨?_, ?_, ?_, ?_⟩
  · rw [genCall_eq]
    exact genSkeleton_new_calls cfg g.region (g.trigger DSTID) PARTID env.TRIGGER env.t0 env.t1 s
      htrig
  · exact samplingIteration_new_calls cfg CORE PARTID ienv.PAYLOAD ienv.t0 ienv.t1 s
  · rw [genCall_eq]
    exact genSkeleton_pmr_frame cfg g.region (g.trigger DSTID) PARTID env.TRIGGER env.t0 env.t1 s
      r hu hT
  · intro pmr
    exact ⟨armCounters_frame 3 4 r pmr (by decide) (by decide) hu,
      freezeCounters_frame 3 4 r pmr (by decide) (by decide) hu.2.2.1 hu.2.2.2.1⟩

theorem channel_separation_witness :
    (1 = 0 ∨ 1 = 1 ∨ 1 = 2 ∨ 1 = 5) ∧ channelReg 1 (PMR_PMLCA + 1) ∧
    (genCall sourceConfig .SC 1 1 0 okGenEnv (zeroSampling 1)).world.pmr (PMR_PMLCA + 1) =
      (zeroSampling 1).world.pmr (PMR_PMLCA + 1) :=
  ⟨by decide, Or.inr (Or.inl rfl),
    (channel_separation sourceConfig .SC 1 1 0 0 okGenEnv okEnv (zeroSampling 1) 1
      (PMR_PMLCA + 1) (by decide) (Or.inr (Or.inl rfl)) (fun _ => rfl)).2.2.1⟩

/-! ## The lock of the barrier -/

theorem holdsLock_next (target : Nat) (pc : PC) (mask lock : Nat) :
    holdsLock (nextPC target pc mask lock) =
      ((holdsLock pc && !(decide (pc = .L105) || decide (pc = .L115))) ||
        ((decide (pc = .L94) || decide (pc = .L112)) && decide (lock = 0))) := by
  cases pc <;> simp only [nextPC] <;>
    first
      | rfl
      | (by_cases h : lock = 0
         · have h2 : ¬ (0 ≠ lock) := fun h3 => h3 h.symm
           simp [h, holdsLock]
         · have h2 : 0 ≠ lock := fun h3 => h h3.symm
           simp [h, h2, holdsLock])
      | (split <;> simp [holdsLock])

theorem nextLock_holder (pc : PC) (lock : Nat) (h : holdsLock pc = true)
    (hn : pc ≠ .L105 ∧ pc ≠ .L115) : nextLock pc lock = lock := by
  cases pc <;> simp [holdsLock] at h <;> simp at hn <;> rfl

theorem nextLock_other (pc : PC) (lock : Nat) (h : holdsLock pc = false) (hl : lock = 1) :
    nextLock pc lock = 1 := by
  cases pc <;> simp [holdsLock] at h <;> simp [nextLock, hl]

theorem acquires_append (new tr : List Ev) (c p : Nat) :
    acquires (new ++ tr) c p = acquires new c p + acquires tr c p := by
  unfold acquires
  rw [List.countP_append]

theorem releases_append (new tr : List Ev) (c p : Nat) :
    releases (new ++ tr) c p = releases new c p + releases tr c p := by
  unfold releases
  rw [List.countP_append]

theorem counts_other (acts : List Action) (c p c2 p2 : Nat) (h : ¬(c2 = c ∧ p2 = p)) :
    acquires (acts.map (Ev.mk c p)) c2 p2 = 0 ∧ releases (acts.map (Ev.mk c p)) c2 p2 = 0 := by
  unfold acquires releases
  constructor <;>
  · rw [List.countP_eq_zero]
    intro ev hev
    rw [List.mem_map] at hev
    obtain ⟨a, -, rfl⟩ := hev
    simp only [decide_eq_true_eq]
    intro heq
    have hc : c = c2 := congrArg Ev.core heq
    have hp : p = p2 := congrArg Ev.partid heq
    exact h ⟨hc.symm, hp.symm⟩

theorem counts_own (c p e : Nat) (pc : PC) (lock : Nat) :
    acquires ((stepActions c p e pc lock).map (Ev.mk c p)) c p =
      (if (pc = .L94 ∨ pc = .L112) ∧ lock = 0 then 1 else 0) ∧
    releases ((stepActions c p e pc lock).map (Ev.mk c p)) c p =
      (if pc = .L105 ∨ pc = .L115 then 1 else 0) := by
  unfold acquires releases
  cases pc <;> simp only [stepActions] <;>
    first
      | (by_cases h : lock = 0 <;> simp [h, List.countP_cons]; done)
      | (split <;> simp [List.countP_cons])

theorem hold_balance (target : Nat) (pc : PC) (mask lock : Nat) :
    (if holdsLock (nextPC target pc mask lock) = true then 1 else 0) +
        (if pc = .L105 ∨ pc = .L115 then 1 else 0) =
      (if holdsLock pc = true then 1 else 0) +
        (if (pc = .L94 ∨ pc = .L112) ∧ lock = 0 then 1 else 0) := by
  rw [holdsLock_next]
  cases pc <;> by_cases h : lock = 0 <;> simp [h, holdsLock]

/-- In a run from an initial state at most one participant is inside the critical section,
the lock word is 1 while one is, and each participant has taken the lock once more than it
has released it exactly while it is inside. -/
theorem lock_inv (cfg : Config) (ps : List (Nat × Nat)) (s0 s : BarrierState)
    (h0 : BarrierStart cfg s0) (hr : Reach cfg ps s0 s) :
    (∀ c p c2 p2, holdsLock (s.loc c p).pc = true → holdsLock (s.loc c2 p2).pc = true →
      c = c2 ∧ p = p2) ∧
    (∀ c p, holdsLock (s.loc c p).pc = true → lockWord cfg s.mem = 1) ∧
    (∀ c p, acquires s.trace c p =
      releases s.trace c p + (if holdsLock (s.loc c p).pc = true then 1 else 0)) := by
  induction hr with
  | start =>
    obtain ⟨-, -, hpc, htr⟩ := h0
    refine ⟨?_, ?_, ?_⟩
    · intro c p c2 p2 h
      rw [hpc c p] at h
      exact absurd h (by decide)
    · intro c p h
      rw [hpc c p] at h
      exact absurd h (by decide)
    · intro c p
      rw [htr, hpc c p]
      rfl
  | step s c p e _ _ ih =>
    obtain ⟨i1, i3, i4⟩ := ih
    have hpcx := step_pc cfg c p e s
    have hlock := step_lock cfg c p e s
    have htr := step_trace cfg c p e s
    have hother : ∀ c2 p2, ¬(c2 = c ∧ p2 = p) →
        (INT_BENCH_INIT_step cfg c p e s).loc c2 p2 = s.loc c2 p2 :=
      fun c2 p2 h => step_loc_other cfg c p e s c2 p2 h
    -- what it means for the stepping participant to hold afterwards
    have hxnext : holdsLock ((INT_BENCH_INIT_step cfg c p e s).loc c p).pc = true →
        (holdsLock (s.loc c p).pc = true ∧ (s.loc c p).pc ≠ .L105 ∧ (s.loc c p).pc ≠ .L115) ∨
        (((s.loc c p).pc = .L94 ∨ (s.loc c p).pc = .L112) ∧ lockWord cfg s.mem = 0) := by
      intro h
      rw [hpcx, holdsLock_next] at h
      simp only [Bool.or_eq_true, Bool.and_eq_true, Bool.not_eq_true', Bool.or_eq_false_iff,
        decide_eq_true_eq, decide_eq_false_iff_not] at h
      exact h
    refine ⟨?_, ?_, ?_⟩
    · intro c1 p1 c2 p2 h1 h2
      by_cases e1 : c1 = c ∧ p1 = p
      · by_cases e2 : c2 = c ∧ p2 = p
        · exact ⟨e1.1.trans e2.1.symm, e1.2.trans e2.2.symm⟩
        · rw [hother c2 p2 e2] at h2
          obtain ⟨rfl, rfl⟩ := e1
          rcases hxnext h1 with hx | hx
          · exact i1 _ _ _ _ hx.1 h2
          · have := i3 c2 p2 h2
            rw [hx.2] at this
            exact absurd this (by decide)
      · rw [hother c1 p1 e1] at h1
        by_cases e2 : c2 = c ∧ p2 = p
        · obtain ⟨rfl, rfl⟩ := e2
          rcases hxnext h2 with hx | hx
          · exact i1 _ _ _ _ h1 hx.1
          · have := i3 c1 p1 h1
            rw [hx.2] at this
            exact absurd this (by decide)
        · rw [hother c2 p2 e2] at h2
          exact i1 _ _ _ _ h1 h2
    · intro c1 p1 h1
      rw [hlock]
      by_cases e1 : c1 = c ∧ p1 = p
      · obtain ⟨rfl, rfl⟩ := e1
        rcases hxnext h1 with hx | hx
        · rw [nextLock_holder _ _ hx.1 hx.2]
          exact i3 _ _ hx.1
        · rcases hx.1 with h | h <;> rw [h] <;> rfl
      · rw [hother c1 p1 e1] at h1
        have hl := i3 c1 p1 h1
        have hx : holdsLock (s.loc c p).pc = false := by
          by_contra hcon
          have hh : holdsLock (s.loc c p).pc = true := by
            cases hv : holdsLock (s.loc c p).pc
            · exact absurd hv hcon
            · rfl
          have := i1 c1 p1 c p h1 hh
          exact e1 this
        exact nextLock_other _ _ hx hl
    · intro c1 p1
      rw [htr, acquires_append, releases_append]
      by_cases e1 : c1 = c ∧ p1 = p
      · obtain ⟨rfl, rfl⟩ := e1
        obtain ⟨a1, a2⟩ := counts_own c1 p1 e (s.loc c1 p1).pc (lockWord cfg s.mem)
        rw [a1, a2, hpcx, i4 c1 p1]
        have hb := hold_balance cfg.INT_BENCH_RDYMASK_VAL (s.loc c1 p1).pc (rdyMask cfg s.mem)
          (lockWord cfg s.mem)
        omega
      · obtain ⟨a1, a2⟩ := counts_other
          (stepActions c p e (s.loc c p).pc (lockWord cfg s.mem)) c p c1 p1 e1
        rw [a1, a2, hother c1 p1 e1, i4 c1 p1]
        omega

theorem step_new_events (cfg : Config) (c p e : Nat) (s : BarrierState) (new : List Ev)
    (h : (INT_BENCH_INIT_step cfg c p e s).trace = new ++ s.trace) :
    new = (stepActions c p e (s.loc c p).pc (lockWord cfg s.mem)).map (Ev.mk c p) := by
  rw [step_trace] at h
  exact (List.append_cancel_right h).symm

theorem stepActions_holder (c p e : Nat) (pc : PC) (lock : Nat) (a : Action)
    (ha : a ∈ stepActions c p e pc lock) :
    ((a = .maskSeed ∨ a = .maskOr ∨ a = .DUMP_HADER) → holdsLock pc = true) ∧
    ((∃ w, a = .PERIODIC_WAIT w) → pc = .L106) := by
  constructor
  · intro h
    cases pc <;>
      first
        | rfl
        | (exfalso
           simp only [stepActions] at ha
           rcases h with rfl | rfl | rfl <;> (try split at ha) <;> simp at ha)
  · intro h
    obtain ⟨w, rfl⟩ := h
    cases pc <;>
      first
        | rfl
        | (exfalso
           simp only [stepActions] at ha
           (try split at ha) <;> simp at ha)

/-! ## Claims about the lock and the equality test of the barrier -/

theorem nextMask_holder (c p : Nat) (pc : PC) (mask : Nat) (h : nextMask c p pc mask ≠ mask) :
    holdsLock pc = true := by
  cases pc <;> first | rfl | (exfalso; exact h rfl)

/-- C28. With test-and-set as one atomic step, in every state of a run from an initial state:
at most one participant is inside the critical section (between a test-and-set that found
the lock free and its release), the lock word is 1 while one is, and a participant is inside
exactly when it has taken the lock once more than it has released it.  Every step that
stores to the ready mask (the seed or the OR) is a step of the participant that holds the
lock; a participant that calls `PERIODIC_WAIT` is at line 106, does not hold the lock and has
released it as often as it took it; and so has a participant that has left
`INT_BENCH_INIT`. -/
theorem lock_discipline (cfg : Config) (ps : List (Nat × Nat)) (s0 s : BarrierState)
    (h0 : BarrierStart cfg s0) (hr : Reach cfg ps s0 s) :
    (∀ c p c2 p2, holdsLock (s.loc c p).pc = true → holdsLock (s.loc c2 p2).pc = true →
      c = c2 ∧ p = p2) ∧
    (∀ c p, holdsLock (s.loc c p).pc = true → lockWord cfg s.mem = 1) ∧
    (∀ c p, acquires s.trace c p =
      releases s.trace c p + (if holdsLock (s.loc c p).pc = true then 1 else 0)) ∧
    (∀ c p e, rdyMask cfg (INT_BENCH_INIT_step cfg c p e s).mem ≠ rdyMask cfg s.mem →
      holdsLock (s.loc c p).pc = true ∧ acquires s.trace c p = releases s.trace c p + 1) ∧
    (∀ c p e new, (INT_BENCH_INIT_step cfg c p e s).trace = new ++ s.trace →
      ∀ ev ∈ new, ev.act = .maskSeed ∨ ev.act = .maskOr →
        ev.core = c ∧ ev.partid = p ∧ holdsLock (s.loc c p).pc = true ∧
        acquires s.trace c p = releases s.trace c p + 1 ∧
        ∀ c2 p2, holdsLock (s.loc c2 p2).pc = true → c2 = c ∧ p2 = p) ∧
    (∀ c p e new, (INT_BENCH_INIT_step cfg c p e s).trace = new ++ s.trace →
      ∀ ev ∈ new, (∃ w, ev.act = .PERIODIC_WAIT w) →
        (s.loc c p).pc = .L106 ∧ holdsLock (s.loc c p).pc = false ∧
        acquires s.trace c p = releases s.trace c p) ∧
    (∀ c p, (s.loc c p).pc = .L116 ∨ (s.loc c p).pc = .done →
      holdsLock (s.loc c p).pc = false ∧ acquires s.trace c p = releases s.trace c p) := by
  obtain ⟨i1, i3, i4⟩ := lock_inv cfg ps s0 s h0 hr
  refine ⟨i1, i3, i4, ?_, ?_, ?_, ?_⟩
  · intro c p e hne
    rw [step_mask] at hne
    have hh := nextMask_holder c p _ _ hne
    refine ⟨hh, ?_⟩
    rw [i4 c p, if_pos hh]
  · intro c p e new hnew ev hev hact
    rw [step_new_events cfg c p e s new hnew, List.mem_map] at hev
    obtain ⟨a, ha, rfl⟩ := hev
    have hh : holdsLock (s.loc c p).pc = true := by
      apply (stepActions_holder c p e _ _ a ha).1
      rcases hact with h | h
      · exact Or.inl h
      · exact Or.inr (Or.inl h)
    refine ⟨rfl, rfl, hh, ?_, ?_⟩
    · rw [i4 c p, if_pos hh]
    · intro c2 p2 h2
      exact i1 c2 p2 c p h2 hh
  · intro c p e new hnew ev hev hact
    rw [step_new_events cfg c p e s new hnew, List.mem_map] at hev
    obtain ⟨a, ha, rfl⟩ := hev
    have hpc := (stepActions_holder c p e _ _ a ha).2 hact
    have hh : holdsLock (s.loc c p).pc = false := by
      rw [hpc]
      rfl
    refine ⟨hpc, hh, ?_⟩
    rw [i4 c p, hh]
    rfl
  · intro c p hpc
    have hh : holdsLock (s.loc c p).pc = false := by
      rcases hpc with h | h <;> rw [h] <;> rfl
    refine ⟨hh, ?_⟩
    rw [i4 c p, hh]
    rfl

theorem lock_discipline_witness :
    BarrierStart sourceConfig zeroState ∧
    (holdsLock ((runBarrier sourceConfig [(0, 1, 0), (1, 1, 0)] zeroState).loc 0 1).pc = true →
      lockWord sourceConfig (runBarrier sourceConfig [(0, 1, 0), (1, 1, 0)] zeroState).mem = 1) ∧
    holdsLock ((runBarrier sourceConfig [(0, 1, 0), (1, 1, 0)] zeroState).loc 0 1).pc = true ∧
    holdsLock ((runBarrier sourceConfig [(0, 1, 0), (1, 1, 0)] zeroState).loc 1 1).pc = false :=
  ⟨⟨by decide, by decide, fun _ _ => rfl, rfl⟩,
    (lock_discipline sourceConfig [(0, 1), (1, 1)] zeroState
      (runBarrier sourceConfig [(0, 1, 0), (1, 1, 0)] zeroState)
      ⟨by decide, by decide, fun _ _ => rfl, rfl⟩
      (reach_run sourceConfig [(0, 1), (1, 1)] [(0, 1, 0), (1, 1, 0)] zeroState
        (by decide))).2.1 0 1,
    by decide, by decide⟩

/-- Once the elector has seeded the mask, a set bit that the target does not have keeps the
mask different from the target: nobody leaves the wait loop any more. -/
theorem foreign_bit_blocks (cfg : Config) (ps : List (Nat × Nat)) (s1 s2 : BarrierState)
    (i : Nat) (hpast : (s1.loc 0 1).pc ≠ .L94 ∧ (s1.loc 0 1).pc ≠ .L95)
    (hbit : (rdyMask cfg s1.mem).testBit i = true)
    (hnot : cfg.INT_BENCH_RDYMASK_VAL.testBit i = false)
    (hr : Reach cfg ps s1 s2) :
    ((s2.loc 0 1).pc ≠ .L94 ∧ (s2.loc 0 1).pc ≠ .L95) ∧
    (rdyMask cfg s2.mem).testBit i = true ∧
    ∀ c p, pastBarrier (s2.loc c p).pc = true → pastBarrier (s1.loc c p).pc = true := by
  induction hr with
  | start => exact ⟨hpast, hbit, fun _ _ h => h⟩
  | step s c p e _ _ ih =>
    obtain ⟨ih1, ih2, ih3⟩ := ih
    refine ⟨elector_stays_past_seed cfg c p e s ih1, ?_, ?_⟩
    · apply step_keeps_bits cfg c p e i s _ ih2
      rintro ⟨h95, hc, hp⟩
      subst hc hp
      exact ih1.2 h95
    · intro c2 p2 h2
      by_cases hcp : c2 = c ∧ p2 = p
      · obtain ⟨rfl, rfl⟩ := hcp
        rw [step_pc] at h2
        apply ih3
        have hne : cfg.INT_BENCH_RDYMASK_VAL ≠ rdyMask cfg s.mem := by
          intro heq
          rw [heq, ih2] at hnot
          exact absurd hnot (by decide)
        cases hpc : (s.loc c2 p2).pc <;> rw [hpc] at h2 <;> simp only [nextPC] at h2 <;>
          first
            | rfl
            | (exfalso; revert h2; split <;> decide)
            | (exfalso; revert h2; decide)
      · rw [step_loc_other cfg c p e s c2 p2 hcp] at h2
        exact ih3 c2 p2 h2

/-- C30. The barrier tests equality with the target, not inclusion.  If, the elector having
executed its initialization, a participant `(c, p)` whose bit `c * 16 + p` the target mask
does not have executes the OR step of line 103, then in every state reached afterwards that
bit is set, the ready mask differs from the target, every check of line 101 sends its
participant to the OR step again, and no participant is out of the wait loop that was not
out of it before. -/
theorem equality_not_inclusion (cfg : Config) (ps : List (Nat × Nat)) (s s2 : BarrierState)
    (c p e : Nat) (hel : (s.loc 0 1).pc ≠ .L94 ∧ (s.loc 0 1).pc ≠ .L95)
    (hpc : (s.loc c p).pc = .L103) (hbit : c * 16 + p < 64)
    (hforeign : cfg.INT_BENCH_RDYMASK_VAL.testBit (c * 16 + p) = false)
    (hr : Reach cfg ps (INT_BENCH_INIT_step cfg c p e s) s2) :
    (rdyMask cfg s2.mem).testBit (c * 16 + p) = true ∧
    rdyMask cfg s2.mem ≠ cfg.INT_BENCH_RDYMASK_VAL ∧
    (∀ c2 p2 e2, (s2.loc c2 p2).pc = .L101 →
      ((INT_BENCH_INIT_step cfg c2 p2 e2 s2).loc c2 p2).pc = .L103) ∧
    (∀ c2 p2, pastBarrier (s2.loc c2 p2).pc = true → pastBarrier (s.loc c2 p2).pc = true) := by
  have h1 : (rdyMask cfg (INT_BENCH_INIT_step cfg c p e s).mem).testBit (c * 16 + p) = true := by
    rw [step_L103_mask cfg c p e s hpc, testBit_or_readyBit _ c p _ hbit]
    simp
  have hel1 := elector_stays_past_seed cfg c p e s hel
  obtain ⟨-, k2, k3⟩ := foreign_bit_blocks cfg ps _ s2 (c * 16 + p) hel1 h1 hforeign hr
  have hne : rdyMask cfg s2.mem ≠ cfg.INT_BENCH_RDYMASK_VAL := by
    intro heq
    rw [heq, hforeign] at k2
    exact absurd k2 (by decide)
  refine ⟨k2, hne, ?_, ?_⟩
  · intro c2 p2 e2 h101
    rw [step_pc, h101]
    simp only [nextPC]
    rw [if_pos (fun h => hne h.symm)]
  · intro c2 p2 h2
    have h3 := k3 c2 p2 h2
    by_cases hcp : c2 = c ∧ p2 = p
    · obtain ⟨rfl, rfl⟩ := hcp
      rw [step_pc, hpc] at h3
      simp only [nextPC] at h3
      exact absurd h3 (by decide)
    · rw [step_loc_other cfg c p e s c2 p2 hcp] at h3
      exact h3

theorem equality_not_inclusion_witness :
    ((foreignArrival.loc 0 1).pc ≠ .L94 ∧ (foreignArrival.loc 0 1).pc ≠ .L95) ∧
    (foreignArrival.loc 0 10).pc = .L103 ∧
    sourceConfig.INT_BENCH_RDYMASK_VAL.testBit (0 * 16 + 10) = false ∧
    rdyMask sourceConfig
      (runBarrier sourceConfig (arrive 0 0)
        (INT_BENCH_INIT_step sourceConfig 0 10 0 foreignArrival)).mem ≠
      sourceConfig.INT_BENCH_RDYMASK_VAL :=
  ⟨by decide, by decide, by decide,
    (equality_not_inclusion sourceConfig [(0, 0)]
      foreignArrival
      (runBarrier sourceConfig (arrive 0 0)
        (INT_BENCH_INIT_step sourceConfig 0 10 0 foreignArrival))
      0 10 0 (by decide) (by decide) (by decide) (by decide)
      (reach_run sourceConfig [(0, 0)] (arrive 0 0)
        (INT_BENCH_INIT_step sourceConfig 0 10 0 foreignArrival) (by decide))).2.1⟩

/-! ## The driver: scope, disable word, commutation, round trip, dispatch -/

theorem and_absorb (M y N : Nat) (h : M &&& N = M) : (M &&& y) &&& N = M &&& y := by
  rw [Nat.and_assoc, Nat.and_comm y N, ← Nat.and_assoc, h]

/-- The control word A for any event pattern: the masked event field, with the
interrupt-enable bit when the flag is not zero. -/
theorem enableWordA_general (e : Nat) (te : PMC_TRACE_ENTITY_E) (f : Nat) :
    enableWordA e te f =
      if 0 ≠ f then (PMR_PMLCaX_EVENT_MASK &&& ((e <<< PMR_PMLCaX_EVENT_SHIFT) % 2 ^ 32)) |||
        PMR_PMLCAX_CE
      else PMR_PMLCaX_EVENT_MASK &&& ((e <<< PMR_PMLCaX_EVENT_SHIFT) % 2 ^ 32) := by
  have h1 : PMR_PMLCaX_EVENT_MASK &&& not32 PMR_PMLCAX_FC = PMR_PMLCaX_EVENT_MASK := by decide
  have h2 : PMR_PMLCaX_EVENT_MASK &&& not32 PMR_PMLCAX_FCS = PMR_PMLCaX_EVENT_MASK := by decide
  have h3 : PMR_PMLCaX_EVENT_MASK &&& not32 PMR_PMLCAX_FCU = PMR_PMLCaX_EVENT_MASK := by decide
  have h4 : PMR_PMLCaX_EVENT_MASK &&& not32 PMR_PMLCAX_FCM1 = PMR_PMLCaX_EVENT_MASK := by decide
  have h5 : PMR_PMLCaX_EVENT_MASK &&& not32 PMR_PMLCAX_FCM0 = PMR_PMLCaX_EVENT_MASK := by decide
  have h6 : PMR_PMLCaX_EVENT_MASK &&& not32 PMR_PMLCAX_CE = PMR_PMLCaX_EVENT_MASK := by decide
  unfold enableWordA
  generalize (e <<< PMR_PMLCaX_EVENT_SHIFT) % 2 ^ 32 = y
  cases te <;>
    simp only [reduceCtorEq, or_true, true_or, or_self, if_true, if_false, and_absorb _ _ _ h1,
      and_absorb _ _ _ h2, and_absorb _ _ _ h3, and_absorb _ _ _ h4, and_absorb _ _ _ h5,
      and_absorb _ _ _ h6]

theorem enableWordA_scope (e f : Nat) (te1 te2 : PMC_TRACE_ENTITY_E) :
    enableWordA e te1 f = enableWordA e te2 f := by
  rw [enableWordA_general, enableWordA_general]

theorem enableWordA_bits (e f : Nat) (te : PMC_TRACE_ENTITY_E) :
    enableWordA e te f < 2 ^ 32 ∧ (enableWordA e te f).testBit 31 = false ∧
      (enableWordA e te f).testBit 30 = false ∧ (enableWordA e te f).testBit 29 = false := by
  have hm : ∀ i, i = 29 ∨ i = 30 ∨ i = 31 →
      PMR_PMLCaX_EVENT_MASK.testBit i = false ∧ PMR_PMLCAX_CE.testBit i = false := by
    intro i hi
    rcases hi with h | h | h <;> subst h <;> decide
  have hb : ∀ i, i = 29 ∨ i = 30 ∨ i = 31 → (enableWordA e te f).testBit i = false := by
    intro i hi
    rw [enableWordA_general]
    split
    · rw [Nat.testBit_or, Nat.testBit_and, (hm i hi).1, (hm i hi).2]
      rfl
    · rw [Nat.testBit_and, (hm i hi).1]
      rfl
  refine ⟨?_, hb 31 (by simp), hb 30 (by simp), hb 29 (by simp)⟩
  rw [enableWordA_general]
  have hlt : PMR_PMLCaX_EVENT_MASK &&& ((e <<< PMR_PMLCaX_EVENT_SHIFT) % 2 ^ 32) < 2 ^ 32 :=
    Nat.lt_of_le_of_lt Nat.and_le_left (by decide)
  split
  · exact Nat.or_lt_two_pow hlt (by decide)
  · exact hlt

/-- The register file after `__PMCDrvEnable` on a valid channel, register by register. -/
theorem enable_state (pmr : Pmr) (id e f : Nat) (te : PMC_TRACE_ENTITY_E) (h : id ≤ 5)
    (r : Nat) :
    (__PMCDrvEnable pmr id e te f).2 r =
      if r = PMR_PMGC0 then ((pmr PMR_PMGC0 % 2 ^ 32) &&& 0x7FFFFFFF) ||| 0x60000000
      else if r = PMR_PMLCB + id then 0
      else if r = PMR_PMLCA + id then enableWordA e te f
      else pmr r := by
  rw [PMCDrvEnable_valid pmr id e te f h]
  have hg := global_word (pmr PMR_PMGC0 % 2 ^ 32) (Nat.mod_lt _ (by norm_num))
  simp only [mtpmr_apply]
  rw [hg.1, Nat.mod_eq_of_lt hg.2, Nat.mod_eq_of_lt (enableWordA_bits e f te).1, Nat.zero_mod]

theorem global_word_idem (g : Nat) :
    ((((g &&& 0x7FFFFFFF) ||| 0x60000000) % 2 ^ 32) &&& 0x7FFFFFFF) ||| 0x60000000 =
      (g &&& 0x7FFFFFFF) ||| 0x60000000 := by
  have hlt : (g &&& 0x7FFFFFFF) ||| 0x60000000 < 2 ^ 32 :=
    Nat.or_lt_two_pow (Nat.lt_of_le_of_lt Nat.and_le_right (by norm_num)) (by norm_num)
  rw [Nat.mod_eq_of_lt hlt]
  apply Nat.eq_of_testBit_eq
  intro i
  simp only [Nat.testBit_or, Nat.testBit_and]
  cases g.testBit i <;> cases (0x7FFFFFFF : Nat).testBit i <;>
    cases (0x60000000 : Nat).testBit i <;> rfl

/-- For a register id outside the nineteen cases the `switch` takes its default branch. -/
theorem dispatch_default (pmr : Pmr) (id v : Nat)
    (h1 : ∀ ch, ch ≤ 5 → id ≠ PMR_PMC + ch ∧ id ≠ PMR_PMLCA + ch ∧ id ≠ PMR_PMLCB + ch)
    (h2 : id ≠ PMR_PMGC0) :
    __PMCDrvWritePMR pmr id v = pmr ∧ __PMCDrvReadPMR pmr id = 0xFFFFFFFF := by
  have a0 := h1 0 (by omega)
  have a1 := h1 1 (by omega)
  have a2 := h1 2 (by omega)
  have a3 := h1 3 (by omega)
  have a4 := h1 4 (by omega)
  have a5 := h1 5 (by omega)
  rw [Nat.add_zero, Nat.add_zero, Nat.add_zero] at a0
  unfold __PMCDrvWritePMR __PMCDrvReadPMR
  simp only [if_neg a0.1, if_neg a1.1, if_neg a2.1, if_neg a3.1, if_neg a4.1, if_neg a5.1,
    if_neg a0.2.1, if_neg a1.2.1, if_neg a2.2.1, if_neg a3.2.1, if_neg a4.2.1, if_neg a5.2.1,
    if_neg a0.2.2, if_neg a1.2.2, if_neg a2.2.2, if_neg a3.2.2, if_neg a4.2.2, if_neg a5.2.2,
    if_neg h2, and_self]

theorem readPMR_pmlca (pmr : Pmr) (id : Nat) (h : id ≤ 5) :
    __PMCDrvReadPMR pmr (PMR_PMLCA + id) = mfpmr pmr (PMR_PMLCA + id) := by
  interval_cases id <;> rfl

theorem readPMR_pmlcb (pmr : Pmr) (id : Nat) (h : id ≤ 5) :
    __PMCDrvReadPMR pmr (PMR_PMLCB + id) = mfpmr pmr (PMR_PMLCB + id) := by
  interval_cases id <;> rfl

/-! ## Claims about the driver: scope, disable word, commutation, round trip, dispatch -/

/-- C31. The control word A that `__PMCDrvEnable` writes does not depend on the trace scope:
for every valid channel, every event pattern and interrupt flag and any two scopes, the two
calls write the same word (and leave the same register file), and in that word bit 30
(freeze in supervisor state) and bit 29 (freeze in user state) are clear. -/
theorem enable_word_ignores_scope (pmr : Pmr) (ch e f : Nat) (te1 te2 : PMC_TRACE_ENTITY_E)
    (hch : ch ≤ 5) :
    (__PMCDrvEnable pmr ch e te1 f).2 (PMR_PMLCA + ch) =
        (__PMCDrvEnable pmr ch e te2 f).2 (PMR_PMLCA + ch) ∧
      (__PMCDrvEnable pmr ch e te1 f).2 (PMR_PMLCA + ch) = enableWordA e te1 f ∧
      ((__PMCDrvEnable pmr ch e te1 f).2 (PMR_PMLCA + ch)).testBit 30 = false ∧
      ((__PMCDrvEnable pmr ch e te1 f).2 (PMR_PMLCA + ch)).testBit 29 = false ∧
      __PMCDrvEnable pmr ch e te1 f = __PMCDrvEnable pmr ch e te2 f := by
  have hw : (__PMCDrvEnable pmr ch e te1 f).2 (PMR_PMLCA + ch) = enableWordA e te1 f := by
    rw [enable_state pmr ch e f te1 hch]
    have h1 : ¬ PMR_PMLCA + ch = PMR_PMGC0 := by
      simp only [PMR_PMLCA, PMR_PMGC0]
      omega
    have h2 : ¬ PMR_PMLCA + ch = PMR_PMLCB + ch := by
      simp only [PMR_PMLCA, PMR_PMLCB]
      omega
    rw [if_neg h1, if_neg h2, if_pos rfl]
  have hs : __PMCDrvEnable pmr ch e te1 f = __PMCDrvEnable pmr ch e te2 f := by
    rw [PMCDrvEnable_valid pmr ch e te1 f hch, PMCDrvEnable_valid pmr ch e te2 f hch,
      enableWordA_scope e f te1 te2]
  refine ⟨by rw [hs], hw, ?_, ?_, hs⟩
  · rw [hw]
    exact (enableWordA_bits e f te1).2.2.1
  · rw [hw]
    exact (enableWordA_bits e f te1).2.2.2

theorem enable_word_ignores_scope_witness :
    (__PMCDrvEnable (fun _ => 0) 2 E6500_PMC_EVENT_THREAD_L2_MISS .PMC_SUPERVISOR 1).2
          (PMR_PMLCA + 2) =
        (__PMCDrvEnable (fun _ => 0) 2 E6500_PMC_EVENT_THREAD_L2_MISS .PMC_USER 1).2
          (PMR_PMLCA + 2) ∧
      (__PMCDrvEnable (fun _ => 0) 2 E6500_PMC_EVENT_THREAD_L2_MISS .PMC_SUPERVISOR 1).2
          (PMR_PMLCA + 2) = enableWordA E6500_PMC_EVENT_THREAD_L2_MISS .PMC_SUPERVISOR 1 ∧
      ((__PMCDrvEnable (fun _ => 0) 2 E6500_PMC_EVENT_THREAD_L2_MISS .PMC_SUPERVISOR 1).2
          (PMR_PMLCA + 2)).testBit 30 = false ∧
      ((__PMCDrvEnable (fun _ => 0) 2 E6500_PMC_EVENT_THREAD_L2_MISS .PMC_SUPERVISOR 1).2
          (PMR_PMLCA + 2)).testBit 29 = false ∧
      __PMCDrvEnable (fun _ => 0) 2 E6500_PMC_EVENT_THREAD_L2_MISS .PMC_SUPERVISOR 1 =
        __PMCDrvEnable (fun _ => 0) 2 E6500_PMC_EVENT_THREAD_L2_MISS .PMC_USER 1 :=
  enable_word_ignores_scope (fun _ => 0) 2 E6500_PMC_EVENT_THREAD_L2_MISS 1 .PMC_SUPERVISOR
    .PMC_USER (by decide)

/-- C32. On a valid channel `__PMCDrvDisable` overwrites control word A with exactly
0x80000000, whatever the register file held before, in particular after any
`__PMCDrvEnable` of that channel: the event field and bit 26 (interrupt enable) are zero and
bit 31 (freeze) is the only bit set. -/
theorem disable_overwrites_word (pmr : Pmr) (ch : Nat) (hch : ch ≤ 5) :
    (__PMCDrvDisable pmr ch).2 (PMR_PMLCA + ch) = 0x80000000 ∧
      (∀ e f te, (__PMCDrvDisable (__PMCDrvEnable pmr ch e te f).2 ch).2 (PMR_PMLCA + ch) =
        0x80000000) ∧
      (((__PMCDrvDisable pmr ch).2 (PMR_PMLCA + ch)) &&& PMR_PMLCaX_EVENT_MASK) >>>
        PMR_PMLCaX_EVENT_SHIFT = 0 ∧
      ((__PMCDrvDisable pmr ch).2 (PMR_PMLCA + ch)).testBit 26 = false ∧
      ∀ i, ((__PMCDrvDisable pmr ch).2 (PMR_PMLCA + ch)).testBit i = true ↔ i = 31 := by
  have hw : ∀ p : Pmr, (__PMCDrvDisable p ch).2 (PMR_PMLCA + ch) = 0x80000000 := by
    intro p
    rw [PMCDrvDisable_valid p ch hch]
    simp only [mtpmr_apply, if_true]
    decide
  refine ⟨hw pmr, fun e f te => hw _, ?_, ?_, ?_⟩
  · rw [hw pmr]
    decide
  · rw [hw pmr]
    decide
  · intro i
    rw [hw pmr, show (0x80000000 : Nat) = 2 ^ 31 by norm_num, Nat.testBit_two_pow]
    simp only [decide_eq_true_eq]
    exact eq_comm

theorem disable_overwrites_word_witness :
    (__PMCDrvDisable (fun _ => 0x05D20000) 0).2 (PMR_PMLCA + 0) = 0x80000000 ∧
      (∀ e f te, (__PMCDrvDisable (__PMCDrvEnable (fun _ => 0x05D20000) 0 e te f).2 0).2
        (PMR_PMLCA + 0) = 0x80000000) ∧
      (((__PMCDrvDisable (fun _ => 0x05D20000) 0).2 (PMR_PMLCA + 0)) &&&
        PMR_PMLCaX_EVENT_MASK) >>> PMR_PMLCaX_EVENT_SHIFT = 0 ∧
      ((__PMCDrvDisable (fun _ => 0x05D20000) 0).2 (PMR_PMLCA + 0)).testBit 26 = false ∧
      ∀ i, ((__PMCDrvDisable (fun _ => 0x05D20000) 0).2 (PMR_PMLCA + 0)).testBit i = true ↔
        i = 31 :=
  disable_overwrites_word (fun _ => 0x05D20000) 0 (by decide)

/-- C37. Enable calls on two different valid channels commute: the register file after
enable on `a` then on `b` is the register file after enable on `b` then on `a`, both calls
succeeding in either order; the global control register ends with the same value, which is
the value one enable call gives it, and any further enable call leaves it unchanged. -/
theorem enable_commutes (pmr : Pmr) (a b ea eb fa fb : Nat) (ta tb : PMC_TRACE_ENTITY_E)
    (ha : a ≤ 5) (hb : b ≤ 5) (hab : a ≠ b) :
    (__PMCDrvEnable (__PMCDrvEnable pmr a ea ta fa).2 b eb tb fb).2 =
        (__PMCDrvEnable (__PMCDrvEnable pmr b eb tb fb).2 a ea ta fa).2 ∧
      (__PMCDrvEnable (__PMCDrvEnable pmr a ea ta fa).2 b eb tb fb).1 = NO_ERROR ∧
      (__PMCDrvEnable (__PMCDrvEnable pmr b eb tb fb).2 a ea ta fa).1 = NO_ERROR ∧
      (__PMCDrvEnable (__PMCDrvEnable pmr a ea ta fa).2 b eb tb fb).2 PMR_PMGC0 =
        (__PMCDrvEnable (__PMCDrvEnable pmr b eb tb fb).2 a ea ta fa).2 PMR_PMGC0 ∧
      (__PMCDrvEnable (__PMCDrvEnable pmr a ea ta fa).2 b eb tb fb).2 PMR_PMGC0 =
        (__PMCDrvEnable pmr a ea ta fa).2 PMR_PMGC0 ∧
      (__PMCDrvEnable (__PMCDrvEnable pmr a ea ta fa).2 a ea ta fa).2 PMR_PMGC0 =
        (__PMCDrvEnable pmr a ea ta fa).2 PMR_PMGC0 ∧
      (__PMCDrvEnable (__PMCDrvEnable pmr a ea ta fa).2 a ea ta fa).2 =
        (__PMCDrvEnable pmr a ea ta fa).2 := by
  have hcomm : (__PMCDrvEnable (__PMCDrvEnable pmr a ea ta fa).2 b eb tb fb).2 =
      (__PMCDrvEnable (__PMCDrvEnable pmr b eb tb fb).2 a ea ta fa).2 := by
    funext r
    simp only [enable_state _ a ea fa ta ha, enable_state _ b eb fb tb hb, if_true,
      global_word_idem]
    simp only [PMR_PMGC0, PMR_PMLCA, PMR_PMLCB]
    split_ifs <;> first | rfl | omega
  have hglob : ∀ (p : Pmr) (c e f : Nat) (te : PMC_TRACE_ENTITY_E), c ≤ 5 →
      (__PMCDrvEnable (__PMCDrvEnable pmr a ea ta fa).2 c e te f).2 PMR_PMGC0 =
        (__PMCDrvEnable pmr a ea ta fa).2 PMR_PMGC0 := by
    intro _ c e f te hc
    simp only [enable_state _ a ea fa ta ha, enable_state _ c e f te hc, if_true,
      global_word_idem]
  refine ⟨hcomm, ?_, ?_, by rw [hcomm], hglob pmr b eb fb tb hb, hglob pmr a ea fa ta ha, ?_⟩
  · rw [PMCDrvEnable_valid _ b eb tb fb hb]
  · rw [PMCDrvEnable_valid _ a ea ta fa ha]
  · funext r
    simp only [enable_state _ a ea fa ta ha, if_true, global_word_idem]
    split_ifs <;> rfl

theorem enable_commutes_witness :
    (__PMCDrvEnable (__PMCDrvEnable (fun _ => 0) 0 466 .PMC_ALL 0).2 1 264 .PMC_ALL 0).2 =
        (__PMCDrvEnable (__PMCDrvEnable (fun _ => 0) 1 264 .PMC_ALL 0).2 0 466 .PMC_ALL 0).2 ∧
      (__PMCDrvEnable (__PMCDrvEnable (fun _ => 0) 0 466 .PMC_ALL 0).2 1 264 .PMC_ALL 0).1 =
        NO_ERROR ∧
      (__PMCDrvEnable (__PMCDrvEnable (fun _ => 0) 1 264 .PMC_ALL 0).2 0 466 .PMC_ALL 0).1 =
        NO_ERROR ∧
      (__PMCDrvEnable (__PMCDrvEnable (fun _ => 0) 0 466 .PMC_ALL 0).2 1 264 .PMC_ALL 0).2
          PMR_PMGC0 =
        (__PMCDrvEnable (__PMCDrvEnable (fun _ => 0) 1 264 .PMC_ALL 0).2 0 466 .PMC_ALL 0).2
          PMR_PMGC0 ∧
      (__PMCDrvEnable (__PMCDrvEnable (fun _ => 0) 0 466 .PMC_ALL 0).2 1 264 .PMC_ALL 0).2
          PMR_PMGC0 =
        (__PMCDrvEnable (fun _ => 0) 0 466 .PMC_ALL 0).2 PMR_PMGC0 ∧
      (__PMCDrvEnable (__PMCDrvEnable (fun _ => 0) 0 466 .PMC_ALL 0).2 0 466 .PMC_ALL 0).2
          PMR_PMGC0 =
        (__PMCDrvEnable (fun _ => 0) 0 466 .PMC_ALL 0).2 PMR_PMGC0 ∧
      (__PMCDrvEnable (__PMCDrvEnable (fun _ => 0) 0 466 .PMC_ALL 0).2 0 466 .PMC_ALL 0).2 =
        (__PMCDrvEnable (fun _ => 0) 0 466 .PMC_ALL 0).2 :=
  enable_commutes (fun _ => 0) 0 1 466 264 0 0 .PMC_ALL .PMC_ALL (by decide) (by decide)
    (by decide)

/-- C38. Counter write/read round trip: on a valid channel and for a 32-bit value `v`,
`__PMCDrvWrite` returns NO_ERROR and a following `__PMCDrvRead` of the channel returns
NO_ERROR and `v`; the write changes no register other than the value register of the channel:
no control word A or B, not the global register, no other channel's value register. -/
theorem write_read_round_trip (pmr : Pmr) (ch v out : Nat) (hch : ch ≤ 5) (hv : v < 2 ^ 32) :
    (__PMCDrvWrite pmr ch v).1 = NO_ERROR ∧
      __PMCDrvRead (__PMCDrvWrite pmr ch v).2 ch out = (NO_ERROR, v) ∧
      (∀ r, r ≠ PMR_PMC + ch → (__PMCDrvWrite pmr ch v).2 r = pmr r) ∧
      (∀ c, (__PMCDrvWrite pmr ch v).2 (PMR_PMLCA + c) = pmr (PMR_PMLCA + c) ∧
        (__PMCDrvWrite pmr ch v).2 (PMR_PMLCB + c) = pmr (PMR_PMLCB + c)) ∧
      (__PMCDrvWrite pmr ch v).2 PMR_PMGC0 = pmr PMR_PMGC0 ∧
      ∀ c, c ≠ ch → (__PMCDrvWrite pmr ch v).2 (PMR_PMC + c) = pmr (PMR_PMC + c) := by
  have hf : ∀ r, r ≠ PMR_PMC + ch → (__PMCDrvWrite pmr ch v).2 r = pmr r :=
    fun r hr => PMCDrvWrite_frame pmr ch v r hch hr
  refine ⟨?_, ?_, hf, ?_, ?_, ?_⟩
  · rw [PMCDrvWrite_valid pmr ch v hch]
  · rw [PMCDrvRead_valid _ ch out hch, PMCDrvWrite_valid pmr ch v hch]
    simp only [mtpmr_apply, if_true, Nat.mod_mod, Nat.mod_eq_of_lt hv]
  · intro c
    constructor
    · apply hf
      simp only [PMR_PMLCA, PMR_PMC]
      omega
    · apply hf
      simp only [PMR_PMLCB, PMR_PMC]
      omega
  · apply hf
    simp only [PMR_PMGC0, PMR_PMC]
    omega
  · intro c hc
    apply hf
    omega

theorem write_read_round_trip_witness :
    (__PMCDrvWrite (fun _ => 7) 3 0xDEADBEEF).1 = NO_ERROR ∧
      __PMCDrvRead (__PMCDrvWrite (fun _ => 7) 3 0xDEADBEEF).2 3 0 = (NO_ERROR, 0xDEADBEEF) ∧
      (∀ r, r ≠ PMR_PMC + 3 → (__PMCDrvWrite (fun _ => 7) 3 0xDEADBEEF).2 r = (fun _ => 7) r) ∧
      (∀ c, (__PMCDrvWrite (fun _ => 7) 3 0xDEADBEEF).2 (PMR_PMLCA + c) =
          (fun _ => 7) (PMR_PMLCA + c) ∧
        (__PMCDrvWrite (fun _ => 7) 3 0xDEADBEEF).2 (PMR_PMLCB + c) =
          (fun _ => 7) (PMR_PMLCB + c)) ∧
      (__PMCDrvWrite (fun _ => 7) 3 0xDEADBEEF).2 PMR_PMGC0 = (fun _ => 7) PMR_PMGC0 ∧
      ∀ c, c ≠ 3 → (__PMCDrvWrite (fun _ => 7) 3 0xDEADBEEF).2 (PMR_PMC + c) =
        (fun _ => 7) (PMR_PMC + c) :=
  write_read_round_trip (fun _ => 7) 3 0xDEADBEEF 0 (by decide) (by decide)

/-- C40. Register dispatch: the nineteen register ids 0x010+ch, 0x090+ch, 0x110+ch
(ch in 0..5) and 0x190 are pairwise distinct; on each of them `__PMCDrvWritePMR` moves the
value to the register with that same id and `__PMCDrvReadPMR` reads the register with that
same id, so a write followed by a read gives the value back; on any other id
`__PMCDrvReadPMR` returns 0xFFFFFFFF and `__PMCDrvWritePMR` leaves the register file as it
was. -/
theorem register_dispatch (pmr : Pmr) (v : Nat) :
    ((List.range 6).flatMap
        (fun ch => [PMR_PMC + ch, PMR_PMLCA + ch, PMR_PMLCB + ch]) ++ [PMR_PMGC0]).Nodup ∧
      (∀ ch, ch ≤ 5 → ∀ id, id ∈ [PMR_PMC + ch, PMR_PMLCA + ch, PMR_PMLCB + ch, PMR_PMGC0] →
        __PMCDrvWritePMR pmr id v = mtpmr pmr id v ∧
        __PMCDrvReadPMR pmr id = mfpmr pmr id ∧
        __PMCDrvReadPMR (__PMCDrvWritePMR pmr id v) id = v % 2 ^ 32 ∧
        ∀ r, r ≠ id → __PMCDrvWritePMR pmr id v r = pmr r) ∧
      ∀ id, (∀ ch, ch ≤ 5 → id ≠ PMR_PMC + ch ∧ id ≠ PMR_PMLCA + ch ∧ id ≠ PMR_PMLCB + ch) →
        id ≠ PMR_PMGC0 →
        __PMCDrvWritePMR pmr id v = pmr ∧ __PMCDrvReadPMR pmr id = 0xFFFFFFFF := by
  refine ⟨by decide, ?_, fun id h1 h2 => dispatch_default pmr id v h1 h2⟩
  intro ch hch id hid
  have key : ∀ p : Pmr, __PMCDrvWritePMR p id v = mtpmr p id v ∧
      __PMCDrvReadPMR p id = mfpmr p id := by
    intro p
    simp only [List.mem_cons, List.mem_singleton, List.not_mem_nil, or_false] at hid
    rcases hid with h | h | h | h <;> subst h
    · exact ⟨writePMR_pmc p ch v hch, readPMR_pmc p ch hch⟩
    · exact ⟨writePMR_pmlca p ch v hch, readPMR_pmlca p ch hch⟩
    · exact ⟨writePMR_pmlcb p ch v hch, readPMR_pmlcb p ch hch⟩
    · exact ⟨writePMR_pmgc0 p v, readPMR_pmgc0 p⟩
  refine ⟨(key pmr).1, (key pmr).2, ?_, ?_⟩
  · rw [(key _).2, (key pmr).1]
    unfold mfpmr
    simp only [mtpmr_apply, if_true, Nat.mod_mod]
  · intro r hr
    rw [(key pmr).1, mtpmr_apply, if_neg hr]

/-! ## Size fields, region capacity, counter bounds -/

/-- `INT_BENCH_DUMP_HADER` changes no byte outside the six magic values. -/
theorem hader_frame (cfg : Config) (m : Mem) (x : Nat)
    (h0 : x < INT_BENCH_DUMP_REG_HEADER_MAGIC cfg ∨ INT_BENCH_DUMP_REG_HEADER_MAGIC cfg + 8 ≤ x)
    (h : ∀ T, x < INT_BENCH_DUMP_MAGIC_ADDR cfg T ∨ INT_BENCH_DUMP_MAGIC_ADDR cfg T + 4 ≤ x) :
    INT_BENCH_DUMP_HADER cfg m x = m x := by
  unfold INT_BENCH_DUMP_HADER
  rw [memcpy_outside _ _ _ _ _ (h .IPI), memcpy_outside _ _ _ _ _ (h .EXTINT),
    memcpy_outside _ _ _ _ _ (h .INTINT), memcpy_outside _ _ _ _ _ (h .SC),
    memcpy_outside _ _ _ _ _ (h .PART), memcpy_outside _ _ _ _ _ h0]

/-- The bytes of a size field lie outside the six magic values. -/
theorem size_bytes_off_magic (cfg : Config) (T : DumpType) (x : Nat)
    (h1 : INT_BENCH_DUMP_SIZE_ADDR cfg T ≤ x) (h2 : x < INT_BENCH_DUMP_SIZE_ADDR cfg T + 4) :
    (x < INT_BENCH_DUMP_REG_HEADER_MAGIC cfg ∨ INT_BENCH_DUMP_REG_HEADER_MAGIC cfg + 8 ≤ x) ∧
    (∀ U, x < INT_BENCH_DUMP_MAGIC_ADDR cfg U ∨ INT_BENCH_DUMP_MAGIC_ADDR cfg U + 4 ≤ x) ∧
    INT_BENCH_RDYMASK_LOCK cfg + 4 ≤ x := by
  have hb : INT_BENCH_DUMP_REG_HEADER_MAGIC cfg = cfg.INT_BENCH_SHARED_MEM_BASE + 0x1000 := rfl
  have hl : INT_BENCH_RDYMASK_LOCK cfg = cfg.INT_BENCH_SHARED_MEM_BASE + 8 := rfl
  have hs : INT_BENCH_DUMP_SIZE_ADDR cfg T = INT_BENCH_DUMP_MAGIC_ADDR cfg T + 4 := rfl
  have hi : ∀ U : DumpType, U.index ≤ 4 := by
    intro U
    cases U <;> simp [DumpType.index]
  have hT := hi T
  rw [hb, hl]
  rw [hs, magic_addr_eq] at h1 h2
  simp only [INT_BENCH_DUMP_REG_SIZE] at h1 h2
  refine ⟨by omega, ?_, by omega⟩
  intro U
  have hU := hi U
  have hne : T.index < U.index ∨ T.index = U.index ∨ U.index < T.index := by omega
  rw [magic_addr_eq]
  simp only [INT_BENCH_DUMP_REG_SIZE]
  omega

theorem hader_size_field (cfg : Config) (T : DumpType) (m : Mem) :
    load32 (INT_BENCH_DUMP_HADER cfg m) (INT_BENCH_DUMP_SIZE_ADDR cfg T) =
      load32 m (INT_BENCH_DUMP_SIZE_ADDR cfg T) := by
  apply load32_congr
  intro x h1 h2
  obtain ⟨a, b, -⟩ := size_bytes_off_magic cfg T x h1 h2
  exact hader_frame cfg m x a b

theorem step_size_field (cfg : Config) (T : DumpType) (c p e : Nat) (s : BarrierState) :
    load32 (INT_BENCH_INIT_step cfg c p e s).mem (INT_BENCH_DUMP_SIZE_ADDR cfg T) =
      load32 s.mem (INT_BENCH_DUMP_SIZE_ADDR cfg T) := by
  apply load32_congr
  intro x h1 h2
  obtain ⟨a, b, hl⟩ := size_bytes_off_magic cfg T x h1 h2
  by_cases hel : (s.loc c p).pc = .L95 ∧ 0 = c ∧ p = 1
  · obtain ⟨hpc, hc, hp⟩ := hel
    subst hc
    subst hp
    have hm : (INT_BENCH_INIT_step cfg 0 1 e s).mem =
        store64 (INT_BENCH_DUMP_HADER cfg s.mem) (INT_BENCH_RDYMASK_PTR cfg)
          0x0000000000000001 := by
      simp only [INT_BENCH_INIT_step, hpc]
      rfl
    rw [hm, store64_outside _ _ _ _ (Or.inr (by
      show cfg.INT_BENCH_SHARED_MEM_BASE + 8 ≤ x
      have : INT_BENCH_RDYMASK_LOCK cfg = cfg.INT_BENCH_SHARED_MEM_BASE + 8 := rfl
      omega))]
    exact hader_frame cfg s.mem x a b
  · exact step_mem_high cfg c p e s x hl hel

theorem runBarrier_size_field (cfg : Config) (T : DumpType) (sched : List (Nat × Nat × Nat))
    (s : BarrierState) :
    load32 (runBarrier cfg sched s).mem (INT_BENCH_DUMP_SIZE_ADDR cfg T) =
      load32 s.mem (INT_BENCH_DUMP_SIZE_ADDR cfg T) := by
  induction sched generalizing s with
  | nil => rfl
  | cons ev rest ih =>
    obtain ⟨c, p, e⟩ := ev
    show load32 (runBarrier cfg rest (INT_BENCH_INIT_step cfg c p e s)).mem _ = _
    rw [ih, step_size_field]

/-- Appends change no byte below the size field and none at or above the end of the last
record. -/
theorem appendN_frame (cfg : Config) (T : DumpType) (recs : List (Nat × int_bench_measure_t))
    (m : Mem) (s : Nat) (hs : load32 m (INT_BENCH_DUMP_SIZE_ADDR cfg T) = s)
    (hfit : INT_BENCH_DUMP_CURSOR_ADDR cfg T + s + 20 * recs.length ≤ 2 ^ 32) (x : Nat)
    (hx : x < INT_BENCH_DUMP_SIZE_ADDR cfg T ∨
      INT_BENCH_DUMP_CURSOR_ADDR cfg T + s + 20 * recs.length ≤ x) :
    appendN cfg T recs m x = m x := by
  have hca : INT_BENCH_DUMP_CURSOR_ADDR cfg T = INT_BENCH_DUMP_SIZE_ADDR cfg T + 4 := rfl
  induction recs generalizing m s with
  | nil => rfl
  | cons r rest ih =>
    obtain ⟨PARTID, d⟩ := r
    rw [List.length_cons] at hfit hx
    obtain ⟨-, -, -, -, h5, h6⟩ := INT_BENCH_DUMP_spec cfg PARTID d T m s hs (by omega)
    show appendN cfg T rest (INT_BENCH_DUMP cfg PARTID d T m) x = m x
    rw [ih (INT_BENCH_DUMP cfg PARTID d T m) (s + 20) h5 (by omega) (by omega)]
    exact h6 x (by omega) (by omega)

theorem genRun_append (cfg : Config) (g : Stimulus) (COREID PARTID DSTID : Nat)
    (envs more : List GenEnv) (s : SamplingState) :
    genRun cfg g COREID PARTID DSTID (envs ++ more) s =
      genRun cfg g COREID PARTID DSTID more (genRun cfg g COREID PARTID DSTID envs s) := by
  induction envs generalizing s with
  | nil => rfl
  | cons env rest ih => exact ih (genCall cfg g COREID PARTID DSTID env s)

theorem successCount_single (env : IterEnv) (frame : Nat) : successCount [env] frame ≤ 1 := by
  unfold successCount
  simp only [successCount]
  split <;> omega

/-! ## Claims about size fields, capacity, counter bounds, the mask constant, the doorbell -/

/-- C33. Neither `INT_BENCH_DUMP_HADER` nor any statement of `INT_BENCH_INIT` writes a
per-type size field: each of them, and every run of the barrier, leaves the size field of
every type with its prior content; so after a barrier run followed by `N` appends that stay
below the end of the 32-bit address space, the size field equals its content before the run
plus `20 * N`, and it equals `20 * N` only if that content was 0. -/
theorem size_field_keeps_prior_content (cfg : Config) (T : DumpType)
    (sched : List (Nat × Nat × Nat)) (s : BarrierState)
    (recs : List (Nat × int_bench_measure_t))
    (hfit : INT_BENCH_DUMP_CURSOR_ADDR cfg T + load32 s.mem (INT_BENCH_DUMP_SIZE_ADDR cfg T) +
      20 * recs.length ≤ 2 ^ 32) :
    (∀ (m : Mem) (U : DumpType),
      load32 (INT_BENCH_DUMP_HADER cfg m) (INT_BENCH_DUMP_SIZE_ADDR cfg U) =
        load32 m (INT_BENCH_DUMP_SIZE_ADDR cfg U)) ∧
    (∀ (c p e : Nat) (t : BarrierState) (U : DumpType),
      load32 (INT_BENCH_INIT_step cfg c p e t).mem (INT_BENCH_DUMP_SIZE_ADDR cfg U) =
        load32 t.mem (INT_BENCH_DUMP_SIZE_ADDR cfg U)) ∧
    (∀ U : DumpType,
      load32 (runBarrier cfg sched s).mem (INT_BENCH_DUMP_SIZE_ADDR cfg U) =
        load32 s.mem (INT_BENCH_DUMP_SIZE_ADDR cfg U)) ∧
    load32 (appendN cfg T recs (runBarrier cfg sched s).mem) (INT_BENCH_DUMP_SIZE_ADDR cfg T) =
      load32 s.mem (INT_BENCH_DUMP_SIZE_ADDR cfg T) + 20 * recs.length ∧
    (load32 (appendN cfg T recs (runBarrier cfg sched s).mem) (INT_BENCH_DUMP_SIZE_ADDR cfg T) =
        20 * recs.length ↔
      load32 s.mem (INT_BENCH_DUMP_SIZE_ADDR cfg T) = 0) := by
  have hsz := appendN_size cfg T recs (runBarrier cfg sched s).mem
    (load32 s.mem (INT_BENCH_DUMP_SIZE_ADDR cfg T)) (runBarrier_size_field cfg T sched s) hfit
  refine ⟨fun m U => hader_size_field cfg U m, fun c p e t U => step_size_field cfg U c p e t,
    fun U => runBarrier_size_field cfg U sched s, hsz, ?_⟩
  rw [hsz]
  omega

theorem size_field_keeps_prior_content_witness :
    INT_BENCH_DUMP_CURSOR_ADDR sourceConfig .PART +
        load32 (store32 zeroState.mem (INT_BENCH_DUMP_SIZE_ADDR sourceConfig .PART) 7)
          (INT_BENCH_DUMP_SIZE_ADDR sourceConfig .PART) +
        20 * [(0, (⟨1000, 6000, 0, 0, 0, 0⟩ : int_bench_measure_t))].length ≤ 2 ^ 32 ∧
      load32
          (appendN sourceConfig .PART [(0, (⟨1000, 6000, 0, 0, 0, 0⟩ : int_bench_measure_t))]
            (runBarrier sourceConfig (arrive 0 1)
              { zeroState with
                mem := store32 zeroState.mem (INT_BENCH_DUMP_SIZE_ADDR sourceConfig .PART) 7
              }).mem)
          (INT_BENCH_DUMP_SIZE_ADDR sourceConfig .PART) =
        load32 (store32 zeroState.mem (INT_BENCH_DUMP_SIZE_ADDR sourceConfig .PART) 7)
            (INT_BENCH_DUMP_SIZE_ADDR sourceConfig .PART) +
          20 * [(0, (⟨1000, 6000, 0, 0, 0, 0⟩ : int_bench_measure_t))].length :=
  ⟨by decide,
    (size_field_keeps_prior_content sourceConfig .PART (arrive 0 1)
      { zeroState with
        mem := store32 zeroState.mem (INT_BENCH_DUMP_SIZE_ADDR sourceConfig .PART) 7 }
      [(0, ⟨1000, 6000, 0, 0, 0, 0⟩)] (by decide)).2.2.2.1⟩

/-- C34. Region capacity: in a layout that lies below the end of the 32-bit address space,
for every type and every record index `n < 10000` the 20 bytes of record `n` start inside
the type's region and end at or before its end (`8 + 20 * 10000 ≤ 0x200000`); a writer that
appends at most 10000 records to a region whose size field is 0 changes no byte outside that
region; and the ready mask, the lock, the wait flag, the top-level magic and the five regions
occupy pairwise disjoint byte ranges. -/
theorem region_capacity (cfg : Config) (T : DumpType)
    (hfit : INT_BENCH_DUMP_MAGIC_ADDR cfg T + INT_BENCH_DUMP_REG_SIZE ≤ 2 ^ 32) :
    INT_BENCH_DUMP_CURSOR_ADDR cfg T =
        cfg.INT_BENCH_SHARED_MEM_BASE + 0x1108 + T.index * 0x200000 ∧
      INT_BENCH_DUMP_MAGIC_ADDR cfg T + INT_BENCH_DUMP_REG_SIZE =
        cfg.INT_BENCH_SHARED_MEM_BASE + 0x1100 + (T.index + 1) * 0x200000 ∧
      8 + 20 * INT_BENCH_SAMPLE_COUNT ≤ INT_BENCH_DUMP_REG_SIZE ∧
      (∀ n, n < INT_BENCH_SAMPLE_COUNT →
        INT_BENCH_DUMP_MAGIC_ADDR cfg T ≤ INT_BENCH_DUMP_CURSOR_ADDR cfg T + 20 * n ∧
        INT_BENCH_DUMP_CURSOR_ADDR cfg T + 20 * n + 20 ≤
          INT_BENCH_DUMP_MAGIC_ADDR cfg T + INT_BENCH_DUMP_REG_SIZE) ∧
      (∀ (recs : List (Nat × int_bench_measure_t)) (m : Mem),
        recs.length ≤ INT_BENCH_SAMPLE_COUNT →
        load32 m (INT_BENCH_DUMP_SIZE_ADDR cfg T) = 0 →
        ∀ x, appendN cfg T recs m x ≠ m x →
          INT_BENCH_DUMP_MAGIC_ADDR cfg T ≤ x ∧
          x < INT_BENCH_DUMP_MAGIC_ADDR cfg T + INT_BENCH_DUMP_REG_SIZE) ∧
      (sharedFields cfg).Pairwise disjointRanges := by
  have hc : INT_BENCH_DUMP_CURSOR_ADDR cfg T = INT_BENCH_DUMP_MAGIC_ADDR cfg T + 4 + 4 := rfl
  have hsa : INT_BENCH_DUMP_SIZE_ADDR cfg T = INT_BENCH_DUMP_MAGIC_ADDR cfg T + 4 := rfl
  have hm := magic_addr_eq cfg T
  simp only [INT_BENCH_DUMP_REG_SIZE, INT_BENCH_SAMPLE_COUNT] at hfit hm ⊢
  refine ⟨by omega, by omega, by omega, fun n hn => by omega, ?_, ?_⟩
  · intro recs m hlen h0 x hx
    by_contra hout
    apply hx
    apply appendN_frame cfg T recs m 0 h0 (by omega) x
    omega
  · simp only [sharedFields, List.pairwise_cons, List.forall_mem_cons, List.not_mem_nil,
      IsEmpty.forall_iff, implies_true, List.Pairwise.nil, and_true, disjointRanges,
      INT_BENCH_RDYMASK_PTR, INT_BENCH_RDYMASK_LOCK, INT_BENCH_INT_WAIT_PTR,
      INT_BENCH_DUMP_REG_HEADER_MAGIC, INT_BENCH_DUMP_REG_HEADER_ADDR,
      INT_BENCH_DUMP_MAGIC_ADDR, INT_BENCH_DUMP_REG_ADDR, INT_BENCH_DUMP_REG_SIZE]
    omega

theorem region_capacity_witness :
    INT_BENCH_DUMP_MAGIC_ADDR sourceConfig .IPI + INT_BENCH_DUMP_REG_SIZE ≤ 2 ^ 32 ∧
      (∀ n, n < INT_BENCH_SAMPLE_COUNT →
        INT_BENCH_DUMP_MAGIC_ADDR sourceConfig .IPI ≤
          INT_BENCH_DUMP_CURSOR_ADDR sourceConfig .IPI + 20 * n ∧
        INT_BENCH_DUMP_CURSOR_ADDR sourceConfig .IPI + 20 * n + 20 ≤
          INT_BENCH_DUMP_MAGIC_ADDR sourceConfig .IPI + INT_BENCH_DUMP_REG_SIZE) ∧
      (sharedFields sourceConfig).Pairwise disjointRanges :=
  ⟨by decide, (region_capacity sourceConfig .IPI (by decide)).2.2.2.1,
    (region_capacity sourceConfig .IPI (by decide)).2.2.2.2.2⟩

/-- C35. Starting from a sample count of 0, the `samples` field of a sampling-loop instance
never exceeds 10001 and, once it is 10001, keeps that value in every continuation of the run;
the `samples` field of each stimulus generator never exceeds 10000 and keeps the value 10000
once reached.  In both, one more iteration (call) leaves the field as it was or adds exactly
one, and no continuation decreases it: the 32-bit counter never wraps around. -/
theorem sample_counter_bound (cfg : Config) (s : SamplingState)
    (hs : s.BENCH_DATA.samples = 0) :
    (∀ envs more : List IterEnv,
      (process1_loop cfg envs s).BENCH_DATA.samples ≤ 10001 ∧
      (process1_loop cfg envs s).BENCH_DATA.samples < 2 ^ 32 ∧
      (process1_loop cfg envs s).BENCH_DATA.samples ≤
        (process1_loop cfg (envs ++ more) s).BENCH_DATA.samples ∧
      (∀ env, (process1_loop cfg (envs ++ [env]) s).BENCH_DATA.samples ≤
        (process1_loop cfg envs s).BENCH_DATA.samples + 1) ∧
      ((process1_loop cfg envs s).BENCH_DATA.samples = 10001 →
        (process1_loop cfg (envs ++ more) s).BENCH_DATA.samples = 10001)) ∧
    (∀ (g : Stimulus) (COREID PARTID DSTID : Nat) (envs more : List GenEnv),
      (genRun cfg g COREID PARTID DSTID envs s).BENCH_DATA.samples ≤ INT_BENCH_SAMPLE_COUNT ∧
      (genRun cfg g COREID PARTID DSTID envs s).BENCH_DATA.samples < 2 ^ 32 ∧
      (genRun cfg g COREID PARTID DSTID envs s).BENCH_DATA.samples ≤
        (genRun cfg g COREID PARTID DSTID (envs ++ more) s).BENCH_DATA.samples ∧
      (∀ env, (genRun cfg g COREID PARTID DSTID (envs ++ [env]) s).BENCH_DATA.samples ≤
        (genRun cfg g COREID PARTID DSTID envs s).BENCH_DATA.samples + 1) ∧
      ((genRun cfg g COREID PARTID DSTID envs s).BENCH_DATA.samples = INT_BENCH_SAMPLE_COUNT →
        (genRun cfg g COREID PARTID DSTID (envs ++ more) s).BENCH_DATA.samples =
          INT_BENCH_SAMPLE_COUNT)) := by
  constructor
  · intro envs more
    obtain ⟨i1, -⟩ := process1_loop_counts cfg envs s (by omega)
    have hle : (process1_loop cfg envs s).BENCH_DATA.samples ≤ 10001 := by
      rw [i1]
      exact Nat.min_le_left _ _
    have hnext : ∀ l : List IterEnv, (process1_loop cfg (envs ++ l) s).BENCH_DATA.samples =
        min 10001 ((process1_loop cfg envs s).BENCH_DATA.samples +
          successCount l (process1_loop cfg envs s).MAF_COUNT) := by
      intro l
      rw [process1_loop_append]
      exact (process1_loop_counts cfg l _ hle).1
    refine ⟨hle, by omega, ?_, ?_, ?_⟩
    · rw [hnext more]
      omega
    · intro env
      have := successCount_single env (process1_loop cfg envs s).MAF_COUNT
      rw [hnext [env]]
      omega
    · intro h
      rw [hnext more]
      omega
  · intro g COREID PARTID DSTID envs more
    obtain ⟨i1, -⟩ := genRun_counts cfg g COREID PARTID DSTID envs s (by omega)
    have hle : (genRun cfg g COREID PARTID DSTID envs s).BENCH_DATA.samples ≤ 10000 := by
      rw [i1]
      exact Nat.min_le_left _ _
    have hnext : ∀ l : List GenEnv,
        (genRun cfg g COREID PARTID DSTID (envs ++ l) s).BENCH_DATA.samples =
          min 10000 ((genRun cfg g COREID PARTID DSTID envs s).BENCH_DATA.samples +
            l.countP GenEnv.ok) := by
      intro l
      rw [genRun_append]
      exact (genRun_counts cfg g COREID PARTID DSTID l _ hle).1
    simp only [INT_BENCH_SAMPLE_COUNT]
    refine ⟨hle, by omega, ?_, ?_, ?_⟩
    · rw [hnext more]
      omega
    · intro env
      have : [env].countP GenEnv.ok ≤ 1 := by
        have := List.countP_le_length GenEnv.ok (l := [env])
        simpa using this
      rw [hnext [env]]
      omega
    · intro h
      rw [hnext more]
      omega

theorem sample_counter_bound_witness :
    (zeroSampling 1).BENCH_DATA.samples = 0 ∧
      (process1_loop sourceConfig [okEnv, okEnv] (zeroSampling 1)).BENCH_DATA.samples ≤ 10001 ∧
      (genRun sourceConfig .IPI 0 1 2 [okGenEnv] (zeroSampling 1)).BENCH_DATA.samples ≤
        INT_BENCH_SAMPLE_COUNT :=
  ⟨rfl, ((sample_counter_bound sourceConfig (zeroSampling 1) rfl).1 [okEnv, okEnv] []).1,
    ((sample_counter_bound sourceConfig (zeroSampling 1) rfl).2 .IPI 0 1 2 [okGenEnv] []).1⟩

/-- C36. The target mask of the repository, 0x00020002000203FF, is the OR of the ready bits
of the 13 pairs (0,0)..(0,9), (1,1), (2,1), (3,1): these are exactly the pairs it names, bit
`i` of the 64-bit value is set exactly when `i` is `core * 16 + partition` of one of them;
the elector (0,1) and the two example partitions, which enter the barrier as (0,0) and
(1,1), are among them. -/
theorem target_mask_constant :
    sourceConfig.INT_BENCH_RDYMASK_VAL = 0x00020002000203FF ∧
      orBits [(0, 0), (0, 1), (0, 2), (0, 3), (0, 4), (0, 5), (0, 6), (0, 7), (0, 8), (0, 9),
        (1, 1), (2, 1), (3, 1)] = sourceConfig.INT_BENCH_RDYMASK_VAL ∧
      named sourceConfig.INT_BENCH_RDYMASK_VAL =
        [(0, 0), (0, 1), (0, 2), (0, 3), (0, 4), (0, 5), (0, 6), (0, 7), (0, 8), (0, 9),
          (1, 1), (2, 1), (3, 1)] ∧
      (named sourceConfig.INT_BENCH_RDYMASK_VAL).length = 13 ∧
      sourceConfig.INT_BENCH_RDYMASK_VAL < 2 ^ 64 ∧
      (∀ i, i < 64 → (sourceConfig.INT_BENCH_RDYMASK_VAL.testBit i = true ↔
        i ∈ (named sourceConfig.INT_BENCH_RDYMASK_VAL).map fun cp => cp.1 * 16 + cp.2)) ∧
      elector = (0, 1) ∧ elector ∈ named sourceConfig.INT_BENCH_RDYMASK_VAL ∧
      Example_ApplicativePartition = (0, 0) ∧
      Example_ApplicativePartition ∈ named sourceConfig.INT_BENCH_RDYMASK_VAL ∧
      Example_SysCallPartition = (1, 1) ∧
      Example_SysCallPartition ∈ named sourceConfig.INT_BENCH_RDYMASK_VAL := by
  decide

/-- C39. The statement `coreId = coreId << 3;` of `__IntBenchGenerateIPI` makes the doorbell
value the destination core id multiplied by eight (modulo 2^32), not by two as the comment
above it says: for core 1 the value is 8, and for no core id between 1 and 2^29 - 1 is it the
double of the core id. -/
theorem ipi_doorbell_is_times_eight :
    (∀ c, __IntBenchGenerateIPI c = (8 * (c % 2 ^ 32)) % 2 ^ 32) ∧
      __IntBenchGenerateIPI 1 = 8 ∧ __IntBenchGenerateIPI 1 ≠ 1 * 2 ∧
      ∀ c, 0 < c → c < 2 ^ 29 → __IntBenchGenerateIPI c = 8 * c ∧
        __IntBenchGenerateIPI c ≠ c * 2 := by
  have h : ∀ c, __IntBenchGenerateIPI c = (8 * (c % 2 ^ 32)) % 2 ^ 32 := by
    intro c
    unfold __IntBenchGenerateIPI
    rw [Nat.shiftLeft_eq, Nat.mul_comm]
  refine ⟨h, by decide, by decide, ?_⟩
  intro c h0 hc
  have hc2 : c < 536870912 := hc
  have h1 : c % 2 ^ 32 = c := Nat.mod_eq_of_lt (by omega)
  have h2 : (8 * c) % 2 ^ 32 = 8 * c := Nat.mod_eq_of_lt (by omega)
  rw [h c, h1, h2]
  omega

end IIntStudy
